import Mathlib

/-! # Non-fungible token keeper of maxonrow-go

A shallow embedding of `x/token/nonfungible/keeper_impl.go`: the eight keeper
entry points (mint, transfer, burn, transfer/accept token ownership,
endorsement, item and token metadata update) as functions from a context
(key-value store plus transaction bytes) to a result and the context after
the call.  Store writes are threaded explicitly and in the order of the
source, so a write made before a later failing check would stay visible.
-/

namespace Nonfungible

/-! ## Basic types -/

/-- Account address: the byte string of `sdkTypes.AccAddress`; the empty list
is the empty (nil) address. -/
abbrev AccAddress := List Nat

/-- Equality of addresses, `AccAddress.Equals`: two empty addresses are equal,
otherwise the bytes are compared. -/
def AccAddress.Equals (a b : AccAddress) : Bool := decide (a = b)

/-- Unsigned integer `sdkTypes.Uint`, a big-integer wrapper.  The embedding
uses the naturals; the library's panic beyond 256 bits is not part of it. -/
abbrev Uint := Nat

/-- Flag set `types.Bitmask`: an unsigned integer read as a set of bits. -/
abbrev Bitmask := Nat

/-- Test of a flag, `f&flag != 0`. -/
def Bitmask.HasFlag (f flag : Bitmask) : Bool := (f &&& flag) != 0

/-- Setting of a flag, `f |= flag`. -/
def Bitmask.AddFlag (f flag : Bitmask) : Bitmask := f ||| flag

/-- Clearing of a flag, `f &= ^flag`: the bits of `f` that are not in `flag`. -/
def Bitmask.RemoveFlag (f flag : Bitmask) : Bitmask := f ^^^ (f &&& flag)

/-- Modelled from the spec: the flag constants are declared outside the
sources at hand; the spec names the canonical bits and says that they are
independent, so each one is a single bit of its own. -/
def MintFlag : Bitmask := 0x0002

/-- Modelled from the spec: the Burnable bit (see `MintFlag`). -/
def BurnFlag : Bitmask := 0x0004

/-- Modelled from the spec: the Frozen bit (see `MintFlag`). -/
def FrozenFlag : Bitmask := 0x0008

/-- Modelled from the spec: the Approved bit (see `MintFlag`). -/
def ApprovedFlag : Bitmask := 0x0010

/-- Modelled from the spec: the Transferable bit (see `MintFlag`). -/
def TransferableFlag : Bitmask := 0x0020

/-- Modelled from the spec: the Modifiable bit (see `MintFlag`). -/
def ModifiableFlag : Bitmask := 0x0040

/-- Modelled from the spec: the Public bit (see `MintFlag`). -/
def PubFlag : Bitmask := 0x0080

/-- Modelled from the spec: the TransferOwnershipPending bit (see `MintFlag`). -/
def TransferTokenOwnershipFlag : Bitmask := 0x0100

/-- Modelled from the spec: the ApproveTransferOwnershipReady bit (see
`MintFlag`). -/
def ApproveTransferTokenOwnershipFlag : Bitmask := 0x0200

/-- Modelled from the spec: the AcceptOwnershipReady bit (see `MintFlag`). -/
def AcceptTokenOwnershipFlag : Bitmask := 0x0400

/-- Modelled from the spec: the Token record of section 3 (the type is
declared outside the sources at hand); the field names are those the keeper
uses. -/
structure Token where
  Name : String
  Symbol : String
  Owner : AccAddress
  NewOwner : AccAddress
  Flags : Bitmask
  TotalSupply : Uint
  MintLimit : Uint
  TransferLimit : Uint
  Metadata : String
  Fees : List (String × String)
  EndorserList : List AccAddress
deriving DecidableEq, Repr

/-- Approved test of a token, `token.IsApproved()`. -/
def Token.IsApproved (t : Token) : Bool := t.Flags.HasFlag ApprovedFlag

/-- Frozen test of a token, `token.IsFrozen()`. -/
def Token.IsFrozen (t : Token) : Bool := t.Flags.HasFlag FrozenFlag

/-- Modelled from the spec: the Item body of section 3 (the type is declared
outside the sources at hand).  The keeper calls the transfer counter
`TransferLimit`. -/
structure Item where
  ID : String
  Properties : String
  Metadata : String
  TransferLimit : Uint
  Frozen : Bool
deriving DecidableEq, Repr

/-- Account of the Account Directory: its address and sequence number. -/
structure Account where
  Address : AccAddress
  Sequence : Nat
deriving DecidableEq, Repr

/-- Account Directory: the accounts that exist. -/
abbrev AccountKeeper := List Account

/-- Lookup of an account, `accountKeeper.GetAccount`: `none` is the nil
account of the source. -/
def AccountKeeper.GetAccount (ak : AccountKeeper) (addr : AccAddress) : Option Account :=
  ak.find? (fun a => a.Address.Equals addr)

/-- Record store of the module.  Modelled from the spec: the key functions
are outside the sources at hand; section 6 gives one key family per record
kind (`token/{symbol}`, `item/{symbol}/{itemID}`,
`item-owner/{symbol}/{itemID}`, `mint-limit/{symbol}/{recipient}`), here one
partial map per family. -/
structure KVStore where
  token : String → Option Token
  item : String → String → Option Item
  itemOwner : String → String → Option AccAddress
  mintLimit : String → AccAddress → Option Uint

/-- Execution context: the store and the bytes of the transaction. -/
structure Context where
  store : KVStore
  TxBytes : List Nat

/-- Keeper: the Account Directory it consults. -/
structure Keeper where
  accountKeeper : AccountKeeper

/-- Error kinds returned by the keeper. -/
inductive Error where
  | ErrInvalidTokenSymbol (symbol : String)
  | ErrInvalidTokenAccount
  | ErrInvalidTokenMinter
  | ErrInvalidTokenAction
  | ErrTokenInvalid
  | ErrTokenFrozen
  | ErrTokenItemIDInUsed
  | ErrInvalidTokenOwner
  | ErrInvalidTokenNewOwner
  | ErrInternal (msg : String)
  | ErrInvalidSequence (msg : String)
  | ErrUnknownRequest (msg : String)
  | ErrUnknownAddress (msg : String)
deriving DecidableEq, Repr

/-- Parameter of an event: a string or the text form of an address. -/
inductive EventParam where
  | str (s : String)
  | addr (a : AccAddress)
deriving DecidableEq, Repr

/-- Event record built by `types.MakeMxwEvents`. -/
structure MxwEvent where
  Signature : String
  Sender : AccAddress
  Params : List EventParam
deriving DecidableEq, Repr

/-- Log line built by `types.NewResultLog`. -/
structure ResultLog where
  Sequence : Nat
  TxBytes : List Nat
deriving DecidableEq, Repr

/-- Result of a keeper call: events and log on success, an error otherwise. -/
inductive Result where
  | ok (Events : List MxwEvent) (Log : ResultLog)
  | err (e : Error)
deriving DecidableEq, Repr

/-- Success test of a result. -/
def Result.IsOK : Result → Bool
  | Result.ok _ _ => true
  | Result.err _ => false

/-- Log line of a result, none for an error. -/
def Result.Log : Result → Option ResultLog
  | Result.ok _ log => some log
  | Result.err _ => none

/-! ## Store helpers

The keeper's helpers live in `keeper.go`, outside the sources at hand. -/

/-- Modelled from the spec: `getTokenData` is missing; it reads the Token
record under `token/{symbol}` (`none` when the symbol is not registered). -/
def Keeper.getTokenData (_k : Keeper) (ctx : Context) (symbol : String) : Option Token :=
  ctx.store.token symbol

/-- Modelled from the spec: `mustGetTokenData` is missing; it is
`getTokenData` with the `InvalidSymbol` failure for an unknown symbol. -/
def Keeper.mustGetTokenData (k : Keeper) (ctx : Context) (symbol : String) : Except Error Token :=
  match k.getTokenData ctx symbol with
  | some token => Except.ok token
  | none => Except.error (Error.ErrInvalidTokenSymbol symbol)

/-- Modelled from the spec: `storeToken` is missing; it writes the Token
record under `token/{symbol}`. -/
def Keeper.storeToken (_k : Keeper) (ctx : Context) (symbol : String) (token : Token) : Context :=
  { ctx with store := { ctx.store with
      token := fun s => if s = symbol then some token else ctx.store.token s } }

/-- Modelled from the spec: `getNonFungibleItem` is missing; it reads the
Item body under `item/{symbol}/{itemID}` (`none` is the nil item). -/
def Keeper.getNonFungibleItem (_k : Keeper) (ctx : Context) (symbol itemID : String) : Option Item :=
  ctx.store.item symbol itemID

/-- Modelled from the spec: `getNonFungibleItemOwner` is missing; it reads the
owner index under `item-owner/{symbol}/{itemID}`, the empty address when
there is no entry. -/
def Keeper.getNonFungibleItemOwner (_k : Keeper) (ctx : Context) (symbol itemID : String) : AccAddress :=
  (ctx.store.itemOwner symbol itemID).getD []

/-- Modelled from the spec: `IsItemIDUnique` is missing; the itemID is unused
within the symbol when no Item body is stored for it. -/
def Keeper.IsItemIDUnique (k : Keeper) (ctx : Context) (symbol itemID : String) : Bool :=
  (k.getNonFungibleItem ctx symbol itemID).isNone

/-- Modelled from the spec: `storeNonFungibleItem` is missing; body and
owner-index entry of an Item are written together. -/
def Keeper.storeNonFungibleItem (_k : Keeper) (ctx : Context) (symbol : String)
    (owner : AccAddress) (item : Item) : Context :=
  { ctx with store := { ctx.store with
      itemOwner := fun s i =>
        if s = symbol ∧ i = item.ID then some owner else ctx.store.itemOwner s i
      item := fun s i =>
        if s = symbol ∧ i = item.ID then some item else ctx.store.item s i } }

/-- Modelled from the spec: `createNonFungibleItem` is missing; it builds a
fresh Item (transfer counter zero, not frozen) and stores body and
owner-index entry. -/
def Keeper.createNonFungibleItem (k : Keeper) (ctx : Context) (symbol : String)
    (owner : AccAddress) (itemID properties metadata : String) : Item × Context :=
  let item : Item :=
    { ID := itemID, Properties := properties, Metadata := metadata,
      TransferLimit := 0, Frozen := false }
  (item, k.storeNonFungibleItem ctx symbol owner item)

/-- Modelled from the spec: `increaseMintItemLimit` is missing; it adds one to
the Mint-Limit Counter under `mint-limit/{symbol}/{recipient}`, an absent
counter counting as zero. -/
def Keeper.increaseMintItemLimit (_k : Keeper) (ctx : Context) (symbol : String)
    (owner : AccAddress) : Context :=
  { ctx with store := { ctx.store with
      mintLimit := fun s a =>
        if s = symbol ∧ a = owner then some ((ctx.store.mintLimit symbol owner).getD 0 + 1)
        else ctx.store.mintLimit s a } }

/-- Deletion of the owner-index entry, `store.Delete(ownerKey)`. -/
def Context.deleteItemOwner (ctx : Context) (symbol itemID : String) : Context :=
  { ctx with store := { ctx.store with
      itemOwner := fun s i => if s = symbol ∧ i = itemID then none else ctx.store.itemOwner s i } }

/-- Write of the owner-index entry, `store.Set(ownerKey, to.Bytes())`. -/
def Context.setItemOwner (ctx : Context) (symbol itemID : String) (owner : AccAddress) : Context :=
  { ctx with store := { ctx.store with
      itemOwner := fun s i =>
        if s = symbol ∧ i = itemID then some owner else ctx.store.itemOwner s i } }

/-- Deletion of the Item body, `store.Delete(itemKey)`. -/
def Context.deleteItem (ctx : Context) (symbol itemID : String) : Context :=
  { ctx with store := { ctx.store with
      item := fun s i => if s = symbol ∧ i = itemID then none else ctx.store.item s i } }

/-- Write of the Item body, `store.Set(itemKey, itemData)`. -/
def Context.setItem (ctx : Context) (symbol itemID : String) (item : Item) : Context :=
  { ctx with store := { ctx.store with
      item := fun s i => if s = symbol ∧ i = itemID then some item else ctx.store.item s i } }

/-! ## Keeper entry points (`keeper_impl.go`) -/

/-- Mint of an Item, `MintNonFungibleToken`. -/
def Keeper.MintNonFungibleToken (k : Keeper) (ctx : Context) (symbol : String)
    (from_ to_ : AccAddress) (itemID properties metadata : String) : Result × Context :=
  match k.getTokenData ctx symbol with
  | none => (Result.err (Error.ErrInvalidTokenSymbol symbol), ctx)
  | some nonFungibleToken =>
  match k.accountKeeper.GetAccount from_ with
  | none => (Result.err Error.ErrInvalidTokenAccount, ctx)
  | some minterAccount =>
  if !nonFungibleToken.Flags.HasFlag PubFlag && !nonFungibleToken.Owner.Equals from_ then
    (Result.err Error.ErrInvalidTokenMinter, ctx)
  else if nonFungibleToken.Flags.HasFlag PubFlag && !from_.Equals to_ then
    (Result.err (Error.ErrInternal "Public token can only be minted to oneself."), ctx)
  else if !nonFungibleToken.Flags.HasFlag MintFlag then
    (Result.err Error.ErrInvalidTokenAction, ctx)
  else if !nonFungibleToken.Flags.HasFlag ApprovedFlag then
    (Result.err Error.ErrTokenInvalid, ctx)
  else if nonFungibleToken.Flags.HasFlag FrozenFlag then
    (Result.err Error.ErrTokenFrozen, ctx)
  else if !k.IsItemIDUnique ctx nonFungibleToken.Symbol itemID then
    (Result.err Error.ErrTokenItemIDInUsed, ctx)
  else
    let amt : Uint := 1
    let nonFungibleToken1 : Token :=
      { nonFungibleToken with TotalSupply := nonFungibleToken.TotalSupply + amt }
    -- lines 68 to 81, reached from every branch of the limit check that does not return
    let store := fun (ctx1 : Context) =>
      let ctx2 := k.storeToken ctx1 symbol nonFungibleToken1
      let created :=
        k.createNonFungibleItem ctx2 nonFungibleToken1.Symbol to_ itemID properties metadata
      let item := created.1
      let eventParam := [EventParam.str symbol, EventParam.str item.ID,
        EventParam.addr from_, EventParam.addr to_]
      let eventSignature := "MintedNonFungibleItem(string,string,string,string)"
      let accountSequence := minterAccount.Sequence
      (Result.ok [MxwEvent.mk eventSignature from_ eventParam]
        (ResultLog.mk accountSequence ctx.TxBytes), created.2)
    -- check mint limit, if token mint limit != 0
    if nonFungibleToken1.MintLimit ≠ 0 then
      match ctx.store.mintLimit nonFungibleToken1.Symbol to_ with
      | some limit =>
        if limit ≥ nonFungibleToken1.MintLimit then
          (Result.err (Error.ErrInternal "Holding limit existed."), ctx)
        else
          store (k.increaseMintItemLimit ctx symbol to_)
      | none => store ctx
    else store ctx

/-- Transfer of an Item, `TransferNonFungibleToken`. -/
def Keeper.TransferNonFungibleToken (k : Keeper) (ctx : Context) (symbol : String)
    (from_ to_ : AccAddress) (itemID : String) : Result × Context :=
  match k.getTokenData ctx symbol with
  | none => (Result.err Error.ErrTokenInvalid, ctx)
  | some token =>
  if !token.Flags.HasFlag TransferableFlag then
    (Result.err Error.ErrInvalidTokenAction, ctx)
  else
  match k.accountKeeper.GetAccount from_ with
  | none => (Result.err Error.ErrInvalidTokenAccount, ctx)
  | some fromAccount =>
  if token.Flags.HasFlag FrozenFlag then
    (Result.err Error.ErrTokenFrozen, ctx)
  else
  match ctx.store.itemOwner symbol itemID with
  | none => (Result.err Error.ErrInvalidTokenOwner, ctx)
  | some _ownerValue =>
  match ctx.store.item symbol itemID with
  | none => (Result.err Error.ErrInvalidTokenOwner, ctx)
  | some item =>
  if item.TransferLimit ≥ token.TransferLimit then
    (Result.err (Error.ErrInternal "Item has existed transfer limit."), ctx)
  else
    -- delete old owner
    let ctx1 := ctx.deleteItemOwner symbol itemID
    -- set to new owner
    let ctx2 := ctx1.setItemOwner symbol itemID to_
    -- increase the transfer limit and set
    let item1 : Item := { item with TransferLimit := item.TransferLimit + 1 }
    let ctx3 := ctx2.setItem symbol itemID item1
    let eventParam := [EventParam.str symbol, EventParam.str itemID,
      EventParam.addr from_, EventParam.addr to_]
    let eventSignature := "TransferredNonFungibleItem(string,string,string,string)"
    let accountSequence := fromAccount.Sequence
    (Result.ok [MxwEvent.mk eventSignature from_ eventParam]
      (ResultLog.mk accountSequence ctx.TxBytes), ctx3)

/-- Burn of an Item, `BurnNonFungibleToken`. -/
def Keeper.BurnNonFungibleToken (k : Keeper) (ctx : Context) (symbol : String)
    (from_ : AccAddress) (itemID : String) : Result × Context :=
  match k.getTokenData ctx symbol with
  | none => (Result.err (Error.ErrInvalidTokenSymbol symbol), ctx)
  | some token =>
  if !token.Flags.HasFlag BurnFlag then
    (Result.err Error.ErrInvalidTokenAction, ctx)
  else
  match k.accountKeeper.GetAccount from_ with
  | none => (Result.err (Error.ErrInvalidSequence "Invalid account to burn from."), ctx)
  | some fromAccount =>
  if !token.Flags.HasFlag ApprovedFlag then
    (Result.err Error.ErrTokenInvalid, ctx)
  else if token.Flags.HasFlag FrozenFlag then
    (Result.err Error.ErrTokenFrozen, ctx)
  else
  match k.getNonFungibleItem ctx symbol itemID with
  | none => (Result.err Error.ErrInvalidTokenOwner, ctx)
  | some item =>
  let itemOwner := k.getNonFungibleItemOwner ctx symbol itemID
  if !itemOwner.Equals from_ then
    (Result.err Error.ErrInvalidTokenOwner, ctx)
  else
    let ctx1 := ctx.deleteItem symbol itemID
    let ctx2 := ctx1.deleteItemOwner symbol itemID
    let eventParam := [EventParam.str symbol, EventParam.str item.ID, EventParam.addr from_]
    let eventSignature := "BurnedNonFungibleItem(string,string,string)"
    let accountSequence := fromAccount.Sequence
    (Result.ok [MxwEvent.mk eventSignature from_ eventParam]
      (ResultLog.mk accountSequence ctx.TxBytes), ctx2)

/-- Body of the ownership transfer, `transferNonFungibleTokenOwnership`. -/
def Keeper.transferNonFungibleTokenOwnership (k : Keeper) (ctx : Context)
    (from_ to_ : AccAddress) (token : Token) : Result × Context :=
  match k.accountKeeper.GetAccount token.Owner with
  | none => (Result.err Error.ErrInvalidTokenOwner, ctx)
  | some ownerWalletAccount =>
  if !token.Owner.Equals from_ then
    (Result.err Error.ErrInvalidTokenOwner, ctx)
  else if !token.IsApproved then
    (Result.err (Error.ErrUnknownRequest "Token is not approved."), ctx)
  else if token.IsFrozen then
    (Result.err Error.ErrTokenFrozen, ctx)
  else
    -- set token newowner to new owner, pending for accepting by new owner
    let token1 : Token :=
      { token with NewOwner := to_, Flags := token.Flags.AddFlag TransferTokenOwnershipFlag }
    let ctx1 := k.storeToken ctx token1.Symbol token1
    let eventParam := [EventParam.str token1.Symbol, EventParam.addr from_, EventParam.addr to_]
    let eventSignature := "TransferredNonFungibleTokenOwnership(string,string,string)"
    let accountSequence := ownerWalletAccount.Sequence
    (Result.ok [MxwEvent.mk eventSignature from_ eventParam]
      (ResultLog.mk accountSequence ctx.TxBytes), ctx1)

/-- Start of an ownership transfer, `TransferTokenOwnership`. -/
def Keeper.TransferTokenOwnership (k : Keeper) (ctx : Context) (symbol : String)
    (from_ to_ : AccAddress) : Result × Context :=
  match k.mustGetTokenData ctx symbol with
  | Except.error err => (Result.err err, ctx)
  | Except.ok token => k.transferNonFungibleTokenOwnership ctx from_ to_ token

/-- Body of the ownership acceptance, `acceptNonFungibleTokenOwnership`. -/
def Keeper.acceptNonFungibleTokenOwnership (k : Keeper) (ctx : Context)
    (from_ : AccAddress) (token : Token) : Result × Context :=
  if !token.Flags.HasFlag AcceptTokenOwnershipFlag
      && !token.Flags.HasFlag ApproveTransferTokenOwnershipFlag
      && !token.Flags.HasFlag TransferTokenOwnershipFlag then
    (Result.err Error.ErrInvalidTokenAction, ctx)
  else
  -- validation of existing owner account
  match k.accountKeeper.GetAccount token.Owner with
  | none => (Result.err (Error.ErrInvalidSequence "Invalid token owner."), ctx)
  | some _ownerWalletAccount =>
  -- validation of new owner account (the source looks up token.Owner again)
  match k.accountKeeper.GetAccount token.Owner with
  | none => (Result.err (Error.ErrInvalidSequence "Invalid token owner."), ctx)
  | some newOwnerWalletAccount =>
  if token.NewOwner ≠ from_ then
    (Result.err Error.ErrInvalidTokenNewOwner, ctx)
  else if !token.Flags.HasFlag ApprovedFlag then
    (Result.err (Error.ErrUnknownRequest "Token is not approved."), ctx)
  else if token.Flags.HasFlag FrozenFlag then
    (Result.err Error.ErrTokenFrozen, ctx)
  else
    -- accepting token ownership, remove newowner move the newowner into owner
    let emptyAccAddr : AccAddress := []
    let token1 : Token :=
      { token with
        Owner := from_
        NewOwner := emptyAccAddr
        Flags := ((token.Flags.RemoveFlag ApproveTransferTokenOwnershipFlag).RemoveFlag
          AcceptTokenOwnershipFlag).RemoveFlag TransferTokenOwnershipFlag }
    let ctx1 := k.storeToken ctx token1.Symbol token1
    let eventParam := [EventParam.str token1.Symbol, EventParam.addr from_]
    let eventSignature := "AcceptedNonFungibleTokenOwnership(string,string)"
    let accountSequence := newOwnerWalletAccount.Sequence
    (Result.ok [MxwEvent.mk eventSignature from_ eventParam]
      (ResultLog.mk accountSequence ctx.TxBytes), ctx1)

/-- Acceptance of an ownership transfer, `AcceptTokenOwnership`. -/
def Keeper.AcceptTokenOwnership (k : Keeper) (ctx : Context) (symbol : String)
    (from_ : AccAddress) : Result × Context :=
  match k.mustGetTokenData ctx symbol with
  | Except.error err => (Result.err err, ctx)
  | Except.ok token => k.acceptNonFungibleTokenOwnership ctx from_ token

/-- Endorsement of an Item, `MakeEndorsement`. -/
def Keeper.MakeEndorsement (k : Keeper) (ctx : Context) (symbol : String)
    (from_ : AccAddress) (itemID : String) : Result × Context :=
  match k.accountKeeper.GetAccount from_ with
  | none => (Result.err (Error.ErrInvalidSequence "Invalid endorser."), ctx)
  | some ownerWalletAccount =>
  match k.getNonFungibleItem ctx symbol itemID with
  | none => (Result.err Error.ErrTokenInvalid, ctx)
  | some _item =>
    let eventParam := [EventParam.str symbol, EventParam.str itemID, EventParam.addr from_]
    let eventSignature := "EndorsedNonFungibleItem(string,string,string)"
    let accountSequence := ownerWalletAccount.Sequence
    (Result.ok [MxwEvent.mk eventSignature from_ eventParam]
      (ResultLog.mk accountSequence ctx.TxBytes), ctx)

/-- Update of an Item's metadata, `UpdateItemMetadata`. -/
def Keeper.UpdateItemMetadata (k : Keeper) (ctx : Context) (symbol : String)
    (from_ : AccAddress) (itemID metadata : String) : Result × Context :=
  match k.accountKeeper.GetAccount from_ with
  | none => (Result.err (Error.ErrInvalidSequence "Invalid item owner."), ctx)
  | some ownerWalletAccount =>
  match k.getNonFungibleItem ctx symbol itemID with
  | none => (Result.err Error.ErrTokenInvalid, ctx)
  | some item =>
  let itemOwnerAddr := k.getNonFungibleItemOwner ctx symbol itemID
  if !ownerWalletAccount.Address.Equals itemOwnerAddr then
    (Result.err (Error.ErrUnknownAddress "Invalid item owner."), ctx)
  else
    let item1 : Item := { item with Metadata := metadata }
    let ctx1 := k.storeNonFungibleItem ctx symbol from_ item1
    let accountSequence := ownerWalletAccount.Sequence
    let eventParam := [EventParam.str symbol, EventParam.str itemID, EventParam.addr from_]
    let eventSignature := "UpdatedNonFungibleItemMetadata(string,string,string)"
    (Result.ok [MxwEvent.mk eventSignature from_ eventParam]
      (ResultLog.mk accountSequence ctx.TxBytes), ctx1)

/-- Update of a Token's metadata, `UpdateNFTMetadata`. -/
def Keeper.UpdateNFTMetadata (k : Keeper) (ctx : Context) (symbol : String)
    (from_ : AccAddress) (metadata : String) : Result × Context :=
  match k.accountKeeper.GetAccount from_ with
  | none => (Result.err Error.ErrInvalidTokenOwner, ctx)
  | some ownerWalletAccount =>
  match k.mustGetTokenData ctx symbol with
  | Except.error err => (Result.err err, ctx)
  | Except.ok token =>
  if !token.Owner.Equals from_ then
    (Result.err Error.ErrInvalidTokenOwner, ctx)
  else if !token.Flags.HasFlag ApprovedFlag then
    (Result.err Error.ErrTokenInvalid, ctx)
  else
    let token1 : Token := { token with Metadata := metadata }
    let ctx1 := k.storeToken ctx symbol token1
    let accountSequence := ownerWalletAccount.Sequence
    let eventParam := [EventParam.str symbol, EventParam.addr from_]
    let eventSignature := "UpdatedNonFungibleTokenMetadata(string,string)"
    (Result.ok [MxwEvent.mk eventSignature from_ eventParam]
      (ResultLog.mk accountSequence ctx.TxBytes), ctx1)

/-- Test whether a pending ownership transfer can be accepted,
`IsTokenOwnershipAcceptable`: the Boolean of the source and the context at the
return. -/
def Keeper.IsTokenOwnershipAcceptable (k : Keeper) (ctx : Context) (symbol : String) :
    Bool × Context :=
  match k.mustGetTokenData ctx symbol with
  | Except.error _ => (false, ctx)
  | Except.ok token =>
    if token.Flags.HasFlag TransferTokenOwnershipFlag
        && token.Flags.HasFlag AcceptTokenOwnershipFlag
        && token.Flags.HasFlag ApproveTransferTokenOwnershipFlag then
      (true, ctx)
    else
      (false, ctx)

/-- Test whether a transfer of ownership may be started,
`IsTokenOwnershipTransferrable`: the Boolean of the source and the context at
the return. -/
def Keeper.IsTokenOwnershipTransferrable (k : Keeper) (ctx : Context) (symbol : String) :
    Bool × Context :=
  match k.mustGetTokenData ctx symbol with
  | Except.error _ => (false, ctx)
  | Except.ok token =>
    if token.Flags.HasFlag TransferTokenOwnershipFlag
        || token.Flags.HasFlag AcceptTokenOwnershipFlag
        || token.Flags.HasFlag ApproveTransferTokenOwnershipFlag then
      (false, ctx)
    else
      (true, ctx)

/-! ## Checks before the keeper -/

/-- Modelled from the spec: failure kinds of the checks a transaction passes
before its keeper entry point runs (taxonomy of section 6); the code of these
checks is outside the sources at hand. -/
inductive CheckError where
  | OwnershipNotTransferrable
  | NotEndorser
  | MetadataTooLong
deriving DecidableEq, Repr

/-- Outcome of a transaction: rejected by a check before the keeper ran, or
the result the keeper entry point returned. -/
inductive TxOutcome where
  | rejected (e : CheckError)
  | handled (r : Result)
deriving DecidableEq, Repr

/-- Success test of an outcome: the keeper ran and returned success. -/
def TxOutcome.IsOK : TxOutcome → Bool
  | TxOutcome.rejected _ => false
  | TxOutcome.handled r => r.IsOK

/-- Modelled from the spec: an ownership transfer as section 4.3 describes
it, admitted only when `IsTokenOwnershipTransferrable` reports true (no
transfer in flight); the code that consults the predicate is outside the
sources at hand.  An admitted transfer is the keeper's
`TransferTokenOwnership`. -/
def Keeper.CheckedTransferTokenOwnership (k : Keeper) (ctx : Context) (symbol : String)
    (from_ to_ : AccAddress) : TxOutcome × Context :=
  let transferrable := k.IsTokenOwnershipTransferrable ctx symbol
  if !transferrable.1 then
    (TxOutcome.rejected CheckError.OwnershipNotTransferrable, transferrable.2)
  else
    let r := k.TransferTokenOwnership transferrable.2 symbol from_ to_
    (TxOutcome.handled r.1, r.2)

/-- Modelled from the spec: an endorsement as section 4.4 describes it, the
caller must be a member of the endorser list of the Token, and an empty list
(or no Token) has no member; the code of this check is outside the sources at
hand.  An admitted endorsement is the keeper's `MakeEndorsement`. -/
def Keeper.CheckedMakeEndorsement (k : Keeper) (ctx : Context) (symbol : String)
    (from_ : AccAddress) (itemID : String) : TxOutcome × Context :=
  let endorserList : List AccAddress :=
    match k.getTokenData ctx symbol with
    | some token => token.EndorserList
    | none => []
  if !endorserList.contains from_ then
    (TxOutcome.rejected CheckError.NotEndorser, ctx)
  else
    let r := k.MakeEndorsement ctx symbol from_ itemID
    (TxOutcome.handled r.1, r.2)

/-- Modelled from the spec: a token metadata update as section 4.3 describes
it, with the length bound enforced before the keeper's `UpdateNFTMetadata`
runs; the code of this check is outside the sources at hand, and the spec
gives no value of the bound, which is a parameter here. -/
def Keeper.CheckedUpdateNFTMetadata (k : Keeper) (maxMetadataLength : Nat) (ctx : Context)
    (symbol : String) (from_ : AccAddress) (metadata : String) : TxOutcome × Context :=
  if metadata.length > maxMetadataLength then
    (TxOutcome.rejected CheckError.MetadataTooLong, ctx)
  else
    let r := k.UpdateNFTMetadata ctx symbol from_ metadata
    (TxOutcome.handled r.1, r.2)

/-- Modelled from the spec: an item metadata update as section 4.4 describes
it, with the length bound enforced before the keeper's `UpdateItemMetadata`
runs; the code of this check is outside the sources at hand, and the spec
gives no value of the bound, which is a parameter here. -/
def Keeper.CheckedUpdateItemMetadata (k : Keeper) (maxMetadataLength : Nat) (ctx : Context)
    (symbol : String) (from_ : AccAddress) (itemID metadata : String) : TxOutcome × Context :=
  if metadata.length > maxMetadataLength then
    (TxOutcome.rejected CheckError.MetadataTooLong, ctx)
  else
    let r := k.UpdateItemMetadata ctx symbol from_ itemID metadata
    (TxOutcome.handled r.1, r.2)

/-! ## Status changes under an Authorization Envelope -/

/-- Modelled from the spec: failure kinds of a status change, from the
taxonomy of section 6 (the status-change code is outside the sources at
hand). -/
inductive StatusError where
  | InvalidSignature
  | NonceMismatch
  | NotAuthorised
  | InvalidSymbol
  | InvalidItem
  | AlreadyInState
deriving DecidableEq, Repr

/-- Modelled from the spec: the status a status document asks for, on a Token
(approve with limits and endorser list, freeze, unfreeze) or on an Item
(freeze, unfreeze). -/
inductive StatusAction where
  | ApproveToken (mintLimit transferLimit : Uint) (endorserList : List AccAddress)
  | FreezeToken
  | UnfreezeToken
  | FreezeItem (itemID : String)
  | UnfreezeItem (itemID : String)
deriving DecidableEq, Repr

/-- Modelled from the spec: the Authorization Envelope of section 4.2, a
status document with its provider nonce, signed by the provider and then by
the issuer.  The two Booleans are the outcomes of the two signature
verifications. -/
structure Envelope where
  Provider : AccAddress
  ProviderNonce : Nat
  Issuer : AccAddress
  Symbol : String
  Action : StatusAction
  ProviderSignatureValid : Bool
  IssuerSignatureValid : Bool
deriving DecidableEq, Repr

/-- Modelled from the spec: state of the engine for status changes, the
context and the expected nonce of every provider. -/
structure EngineState where
  ctx : Context
  ExpectedNonce : AccAddress → Nat

/-- Modelled from the spec: effect of a status document on the store
(sections 4.3 and 4.4).  Approve sets the Approved bit with the limits and the
endorser list, freeze and unfreeze set and clear the Frozen bit of the Token;
on an Item a freeze or unfreeze that changes nothing is an error. -/
def applyStatus (store : KVStore) (symbol : String) :
    StatusAction → Except StatusError KVStore
  | StatusAction.ApproveToken mintLimit transferLimit endorserList =>
    match store.token symbol with
    | none => Except.error StatusError.InvalidSymbol
    | some token =>
      let token1 : Token :=
        { token with
          Flags := token.Flags.AddFlag ApprovedFlag
          MintLimit := mintLimit
          TransferLimit := transferLimit
          EndorserList := endorserList }
      Except.ok { store with token := fun s => if s = symbol then some token1 else store.token s }
  | StatusAction.FreezeToken =>
    match store.token symbol with
    | none => Except.error StatusError.InvalidSymbol
    | some token =>
      let token1 : Token := { token with Flags := token.Flags.AddFlag FrozenFlag }
      Except.ok { store with token := fun s => if s = symbol then some token1 else store.token s }
  | StatusAction.UnfreezeToken =>
    match store.token symbol with
    | none => Except.error StatusError.InvalidSymbol
    | some token =>
      let token1 : Token := { token with Flags := token.Flags.RemoveFlag FrozenFlag }
      Except.ok { store with token := fun s => if s = symbol then some token1 else store.token s }
  | StatusAction.FreezeItem itemID =>
    match store.token symbol with
    | none => Except.error StatusError.InvalidSymbol
    | some _ =>
      match store.item symbol itemID with
      | none => Except.error StatusError.InvalidItem
      | some item =>
        if item.Frozen then Except.error StatusError.AlreadyInState
        else
          let item1 : Item := { item with Frozen := true }
          Except.ok { store with
            item := fun s i => if s = symbol ∧ i = itemID then some item1 else store.item s i }
  | StatusAction.UnfreezeItem itemID =>
    match store.token symbol with
    | none => Except.error StatusError.InvalidSymbol
    | some _ =>
      match store.item symbol itemID with
      | none => Except.error StatusError.InvalidItem
      | some item =>
        if !item.Frozen then Except.error StatusError.AlreadyInState
        else
          let item1 : Item := { item with Frozen := false }
          Except.ok { store with
            item := fun s i => if s = symbol ∧ i = itemID then some item1 else store.item s i }

/-- Modelled from the spec: `SetStatus` of sections 4.2 and 4.3.  The envelope
is verified (both signatures, then the provider nonce against the expected
value of that provider), the signer must be one of the designated approvers,
and the status document is applied; only a successful application advances
the expected nonce of the provider, by one.  The result is the failure, if
any, and the state at the return. -/
def SetStatus (approvers : List AccAddress) (st : EngineState) (signer : AccAddress)
    (e : Envelope) : Option StatusError × EngineState :=
  if !(e.ProviderSignatureValid && e.IssuerSignatureValid) then
    (some StatusError.InvalidSignature, st)
  else if e.ProviderNonce ≠ st.ExpectedNonce e.Provider then
    (some StatusError.NonceMismatch, st)
  else if !approvers.contains signer then
    (some StatusError.NotAuthorised, st)
  else
    match applyStatus st.ctx.store e.Symbol e.Action with
    | Except.error err => (some err, st)
    | Except.ok store1 =>
      (none,
        { ctx := { st.ctx with store := store1 }
          ExpectedNonce := fun p =>
            if p = e.Provider then st.ExpectedNonce p + 1 else st.ExpectedNonce p })

/-- Modelled from the spec: status changes applied one after the other, each
to the state the previous one returned (section 5). -/
def SetStatusAll (approvers : List AccAddress) (st : EngineState) :
    List (AccAddress × Envelope) → EngineState
  | [] => st
  | (signer, e) :: rest => SetStatusAll approvers (SetStatus approvers st signer e).2 rest

/-! ## Auth querier (`x/auth/querrier.go`) -/

/-- Query path of the multi-signature account query, `QueryMultiSigAcc`. -/
def QueryMultiSigAcc : String := "get_multisig_acc"

/-- Query path of the pending-transaction query, `QueryPendingTx`. -/
def QueryPendingTx : String := "get_multisig_pending_tx"

/-- Transaction held by a pending transaction: a `StdTx` or a transaction of
another type, each with its content. -/
inductive Tx where
  | StdTx (content : List Nat)
  | Other (content : List Nat)
deriving DecidableEq, Repr

/-- Pending transaction of a multi-signature account. -/
structure PendingTx where
  ID : Nat
  Tx : Tx
deriving DecidableEq, Repr

/-- Multi-signature part of a group account. -/
structure MultiSig where
  PendingTxs : List PendingTx
deriving DecidableEq, Repr

/-- Lookup of a pending transaction, `multiSig.GetPendingTx`: `none` is the
nil of the source. -/
def MultiSig.GetPendingTx (m : MultiSig) (txID : Nat) : Option PendingTx :=
  m.PendingTxs.find? (fun p => p.ID == txID)

/-- Account as the querier reads it: its address and, for a group account,
its multi-signature part. -/
structure GroupAccount where
  Address : AccAddress
  MultiSig : Option MultiSig
deriving DecidableEq, Repr

/-- Test `groupAcc.IsMultiSig()` on an existing account. -/
def GroupAccount.IsMultiSig (a : GroupAccount) : Bool := a.MultiSig.isSome

/-- Account keeper of the auth module: the accounts that exist. -/
abbrev AuthAccountKeeper := List GroupAccount

/-- Lookup of an account, `accountKeeper.GetAccount`: `none` is the nil
account of the source. -/
def AuthAccountKeeper.GetAccount (ak : AuthAccountKeeper) (addr : AccAddress) :
    Option GroupAccount :=
  ak.find? (fun a => a.Address.Equals addr)

/-- Library functions the querier calls: the Bech32 decoder of addresses,
`strconv.ParseUint`, and the JSON encoders of the codec (of an account, which
may be nil, and of a `StdTx`). -/
structure Codec where
  AccAddressFromBech32 : String → Option AccAddress
  ParseUint : String → Option Nat
  MarshalAccount : Option GroupAccount → List Nat
  MarshalStdTx : List Nat → List Nat

/-- Run-time failure of the Go code. -/
inductive RuntimePanic where
  | IndexOutOfRange
  | NilDereference
deriving DecidableEq, Repr

/-- Outcome of a query: the two return values of the source (response bytes,
`none` for nil, with a nil error; or a typed error), or a run-time panic. -/
inductive QueryOutcome where
  | response (bytes : Option (List Nat))
  | error (e : Error)
  | panic (p : RuntimePanic)
deriving DecidableEq, Repr

/-- Query of a multi-signature account, `queryMultiSigAcc`, on the path after
the first segment. -/
def queryMultiSigAcc (cdc : Codec) (path : List String) (accountKeeper : AuthAccountKeeper) :
    QueryOutcome :=
  match path with
  | [segment] =>
    match cdc.AccAddressFromBech32 segment with
    | none =>
      QueryOutcome.error (Error.ErrUnknownAddress ("Invalid group address " ++ segment))
    | some groupAddr =>
      let groupAcc := accountKeeper.GetAccount groupAddr
      let respData := cdc.MarshalAccount groupAcc
      QueryOutcome.response (some respData)
  | _ =>
    -- len(path) != 1
    QueryOutcome.error (Error.ErrUnknownRequest ("Invalid path " ++ String.intercalate "/" path))

/-- Query of a pending transaction, `queryMultiSigPendingTx`, on the path
after the first segment. -/
def queryMultiSigPendingTx (cdc : Codec) (path : List String)
    (accountKeeper : AuthAccountKeeper) : QueryOutcome :=
  match path with
  | [segment, id] =>
    match cdc.AccAddressFromBech32 segment with
    | none =>
      QueryOutcome.error (Error.ErrUnknownAddress ("Invalid group address " ++ segment))
    | some groupAddr =>
    match cdc.ParseUint id with
    | none => QueryOutcome.error (Error.ErrUnknownRequest ("Invalid txID " ++ id))
    | some txID =>
    match accountKeeper.GetAccount groupAddr with
    | none =>
      -- groupAcc.IsMultiSig() is called on the nil account
      QueryOutcome.panic RuntimePanic.NilDereference
    | some groupAcc =>
    if !groupAcc.IsMultiSig then QueryOutcome.response none
    else
    match groupAcc.MultiSig with
    | none => QueryOutcome.response none
    | some multiSig =>
    match multiSig.GetPendingTx txID with
    | none => QueryOutcome.response none
    | some pendingTx =>
    match pendingTx.Tx with
    | Tx.Other _ => QueryOutcome.error (Error.ErrInternal "Tx must be StdTx.")
    | Tx.StdTx stdTx =>
      let respData := cdc.MarshalStdTx stdTx
      QueryOutcome.response (some respData)
  | _ =>
    -- len(path) != 2
    QueryOutcome.error (Error.ErrUnknownRequest ("Invalid path " ++ String.intercalate "/" path))

/-- Querier of the auth module, the function `NewQuerier` returns: the switch
on `path[0]`, which is read without a test of the length of the path. -/
def NewQuerier (cdc : Codec) (accountKeeper : AuthAccountKeeper) (path : List String) :
    QueryOutcome :=
  match path with
  | [] =>
    -- path[0] on an empty slice
    QueryOutcome.panic RuntimePanic.IndexOutOfRange
  | first :: rest =>
    if first = QueryMultiSigAcc then queryMultiSigAcc cdc rest accountKeeper
    else if first = QueryPendingTx then queryMultiSigPendingTx cdc rest accountKeeper
    else QueryOutcome.error (Error.ErrUnknownRequest "unknown mxw/Auth query endpoint")

/-! ## Calls and example states -/

/-- One call of a keeper entry point together with its arguments. -/
inductive Call where
  | Mint (symbol : String) (from_ to_ : AccAddress) (itemID properties metadata : String)
  | Transfer (symbol : String) (from_ to_ : AccAddress) (itemID : String)
  | Burn (symbol : String) (from_ : AccAddress) (itemID : String)
  | TransferOwnership (symbol : String) (from_ to_ : AccAddress)
  | AcceptOwnership (symbol : String) (from_ : AccAddress)
  | Endorse (symbol : String) (from_ : AccAddress) (itemID : String)
  | UpdateItem (symbol : String) (from_ : AccAddress) (itemID metadata : String)
  | UpdateToken (symbol : String) (from_ : AccAddress) (metadata : String)

/-- Execution of one call: the entry point it names, applied to its arguments. -/
def Keeper.run (k : Keeper) (ctx : Context) : Call → Result × Context
  | Call.Mint symbol from_ to_ itemID properties metadata =>
      k.MintNonFungibleToken ctx symbol from_ to_ itemID properties metadata
  | Call.Transfer symbol from_ to_ itemID => k.TransferNonFungibleToken ctx symbol from_ to_ itemID
  | Call.Burn symbol from_ itemID => k.BurnNonFungibleToken ctx symbol from_ itemID
  | Call.TransferOwnership symbol from_ to_ => k.TransferTokenOwnership ctx symbol from_ to_
  | Call.AcceptOwnership symbol from_ => k.AcceptTokenOwnership ctx symbol from_
  | Call.Endorse symbol from_ itemID => k.MakeEndorsement ctx symbol from_ itemID
  | Call.UpdateItem symbol from_ itemID metadata => k.UpdateItemMetadata ctx symbol from_ itemID metadata
  | Call.UpdateToken symbol from_ metadata => k.UpdateNFTMetadata ctx symbol from_ metadata

/-- Run of a list of calls in order, each on the context left by the one
before it. -/
def Keeper.runAll (k : Keeper) : Context → List Call → Context
  | ctx, [] => ctx
  | ctx, c :: cs => k.runAll (k.run ctx c).2 cs

/-- Number of the calls of a list that succeed when the list is run in order. -/
def Keeper.successes (k : Keeper) : Context → List Call → Nat
  | _, [] => 0
  | ctx, c :: cs =>
    (if (k.run ctx c).1.IsOK then 1 else 0) + k.successes (k.run ctx c).2 cs

/-- Test that a call is a transfer of the Item `(symbol, itemID)`. -/
def Call.IsTransferOf (symbol itemID : String) : Call → Bool
  | Call.Transfer s _ _ i => decide (s = symbol ∧ i = itemID)
  | _ => false

/-- Test that a call is a mint of the Item `(symbol, itemID)`. -/
def Call.IsMintOf (symbol itemID : String) : Call → Bool
  | Call.Mint s _ _ i _ _ => decide (s = symbol ∧ i = itemID)
  | _ => false

/-- Number of successful transfers of the Item `(symbol, itemID)` since it was
last minted, when a list of calls is run in order: the count starts at `n`,
a successful transfer of the Item adds one, a successful mint of the Item
starts it again at zero, every other call leaves it. -/
def Keeper.transfersSinceMint (k : Keeper) (symbol itemID : String) :
    Context → Nat → List Call → Nat
  | _, n, [] => n
  | ctx, n, c :: cs =>
    k.transfersSinceMint symbol itemID (k.run ctx c).2
      (if (k.run ctx c).1.IsOK then
        (if c.IsTransferOf symbol itemID then n + 1
          else if c.IsMintOf symbol itemID then 0 else n)
      else n) cs

/-- Store consistency of the item families: an Item body is stored under
`(symbol, itemID)` exactly when an owner-index entry is. -/
def KVStore.ItemsConsistent (s : KVStore) : Prop :=
  ∀ symbol itemID, (s.item symbol itemID).isSome = (s.itemOwner symbol itemID).isSome

/-- Empty store: no record of any kind. -/
def KVStore.empty : KVStore :=
  { token := fun _ => none, item := fun _ _ => none,
    itemOwner := fun _ _ => none, mintLimit := fun _ _ => none }

/-- Store consistency of the token family: the record kept under
`token/{symbol}` carries that symbol (symbol is the primary key of section 3). -/
def KVStore.SymbolKeyed (s : KVStore) : Prop :=
  ∀ symbol token, s.token symbol = some token → token.Symbol = symbol

/-- Store consistency of the item family: the body kept under
`item/{symbol}/{itemID}` carries that itemID. -/
def KVStore.ItemKeyed (s : KVStore) : Prop :=
  ∀ symbol itemID item, s.item symbol itemID = some item → item.ID = itemID

/-- Store in which every Item body lies under a Token that is Approved. -/
def KVStore.ItemsUnderApproved (s : KVStore) : Prop :=
  ∀ symbol itemID item, s.item symbol itemID = some item →
    ∃ token, s.token symbol = some token ∧ token.Flags.HasFlag ApprovedFlag = true

/-- State in which the Token of `symbol` has transfer limit `limit` and no Item
of the symbol has a transfer counter above it, in a store that keeps every
Token under its own symbol. -/
def Context.WithinTransferLimit (ctx : Context) (symbol : String) (limit : Uint) : Prop :=
  ctx.store.SymbolKeyed ∧
  (∃ token, ctx.store.token symbol = some token ∧ token.TransferLimit = limit) ∧
  ∀ itemID item, ctx.store.item symbol itemID = some item → item.TransferLimit ≤ limit

/-- Example addresses of three accounts. -/
def addrA : AccAddress := [1]

/-- Example address of a second account. -/
def addrB : AccAddress := [2]

/-- Example address of a third account. -/
def addrC : AccAddress := [3]

/-- Example keeper whose directory holds the three example accounts. -/
def exKeeper : Keeper :=
  { accountKeeper := [Account.mk addrA 7, Account.mk addrB 8, Account.mk addrC 9] }

/-- Example token `TNFT` owned by `addrA` with the given flags and limits. -/
def exToken (flags : Bitmask) (mintLimit transferLimit : Uint) : Token :=
  { Name := "TestNonFungibleToken", Symbol := "TNFT", Owner := addrA, NewOwner := [],
    Flags := flags, TotalSupply := 0, MintLimit := mintLimit, TransferLimit := transferLimit,
    Metadata := "token metadata", Fees := [], EndorserList := [] }

/-- Example context holding only the given token under `TNFT`. -/
def exCtx (token : Token) : Context :=
  { store := { KVStore.empty with token := fun s => if s = "TNFT" then some token else none },
    TxBytes := [0] }


/-- Example context holding the given token under `TNFT` and one Item `I1`
of it with the given owner and transfer counter. -/
def exCtxItem (token : Token) (owner : AccAddress) (count : Uint) : Context :=
  { store :=
      { token := fun s => if s = "TNFT" then some token else none
        item := fun s i =>
          if s = "TNFT" ∧ i = "I1" then some (Item.mk "I1" "properties" "metadata" count false)
          else none
        itemOwner := fun s i => if s = "TNFT" ∧ i = "I1" then some owner else none
        mintLimit := fun _ _ => none },
    TxBytes := [0] }

/-- Example context holding the given token under `TNFT`, no Item, and a
Mint-Limit Counter of `addrB` with the given value. -/
def exCtxCounter (token : Token) (count : Uint) : Context :=
  { store :=
      { token := fun s => if s = "TNFT" then some token else none
        item := fun _ _ => none
        itemOwner := fun _ _ => none
        mintLimit := fun s a => if s = "TNFT" ∧ a = addrB then some count else none },
    TxBytes := [0] }

/-- Context after the owner of the example token, mint limit 1, has minted
`I1` to `addrB` in a store without any Mint-Limit Counter. -/
def exMintedOnce : Context :=
  (exKeeper.MintNonFungibleToken (exCtx (exToken (MintFlag ||| ApprovedFlag) 1 2))
    "TNFT" addrA addrB "I1" "p" "m").2

/-- Example token with an ownership transfer to `addrB` in flight. -/
def exTokenPending : Token :=
  { exToken (ApprovedFlag ||| TransferTokenOwnershipFlag) 2 2 with NewOwner := addrB }

/-- Example token whose endorser list holds `addrA` only. -/
def exTokenEndorsers : Token :=
  { exToken ApprovedFlag 2 2 with EndorserList := [addrA] }

/-- Example keeper whose directory holds the account of `addrA` only. -/
def exKeeperOwnerOnly : Keeper :=
  { accountKeeper := [Account.mk addrA 7] }

/-- Example keeper whose directory holds the account of `addrB` only. -/
def exKeeperNewOwnerOnly : Keeper :=
  { accountKeeper := [Account.mk addrB 8] }

/-- Example engine state: the unapproved example token, every expected nonce
zero. -/
def exEngine : EngineState :=
  { ctx := exCtx (exToken MintFlag 0 0), ExpectedNonce := fun _ => 0 }

/-- Example envelope: provider `addrB` with nonce zero and issuer `addrC`
approve `TNFT` with limits 2 and 2, both signatures valid. -/
def exEnvelope : Envelope :=
  { Provider := addrB, ProviderNonce := 0, Issuer := addrC, Symbol := "TNFT",
    Action := StatusAction.ApproveToken 2 2 [addrB, addrC],
    ProviderSignatureValid := true, IssuerSignatureValid := true }

/-- Example codec: two address strings decode, `0` and `1` parse as
transaction identifiers, the encoders return fixed bytes. -/
def exCodec : Codec :=
  { AccAddressFromBech32 := fun s =>
      if s = "mxw1group" then some [9] else if s = "mxw1absent" then some [10] else none
    ParseUint := fun s => if s = "0" then some 0 else if s = "1" then some 1 else none
    MarshalAccount := fun a => if a.isSome then [1] else [0]
    MarshalStdTx := fun content => content }

/-- Example account keeper of the auth module: one group account at `[9]`
with the pending transaction 0. -/
def exAuthKeeper : AuthAccountKeeper :=
  [GroupAccount.mk [9] (some (MultiSig.mk [PendingTx.mk 0 (Tx.StdTx [5])]))]

/-! ## Failure leaves the context as it was -/

/-- A failing mint returns the context it was given. -/
theorem Keeper.mint_failure_keeps (k : Keeper) (ctx : Context) (symbol : String)
    (from_ to_ : AccAddress) (itemID properties metadata : String) :
    (k.MintNonFungibleToken ctx symbol from_ to_ itemID properties metadata).1.IsOK = false →
    (k.MintNonFungibleToken ctx symbol from_ to_ itemID properties metadata).2 = ctx := by
  generalize hr : k.MintNonFungibleToken ctx symbol from_ to_ itemID properties metadata = r
  unfold Keeper.MintNonFungibleToken at hr
  simp only at hr
  repeat' split at hr
  all_goals (subst hr; simp [Result.IsOK])

/-- A failing transfer returns the context it was given. -/
theorem Keeper.transfer_failure_keeps (k : Keeper) (ctx : Context) (symbol : String)
    (from_ to_ : AccAddress) (itemID : String) :
    (k.TransferNonFungibleToken ctx symbol from_ to_ itemID).1.IsOK = false →
    (k.TransferNonFungibleToken ctx symbol from_ to_ itemID).2 = ctx := by
  generalize hr : k.TransferNonFungibleToken ctx symbol from_ to_ itemID = r
  unfold Keeper.TransferNonFungibleToken at hr
  simp only at hr
  repeat' split at hr
  all_goals (subst hr; simp [Result.IsOK])

/-- A failing burn returns the context it was given. -/
theorem Keeper.burn_failure_keeps (k : Keeper) (ctx : Context) (symbol : String)
    (from_ : AccAddress) (itemID : String) :
    (k.BurnNonFungibleToken ctx symbol from_ itemID).1.IsOK = false →
    (k.BurnNonFungibleToken ctx symbol from_ itemID).2 = ctx := by
  generalize hr : k.BurnNonFungibleToken ctx symbol from_ itemID = r
  unfold Keeper.BurnNonFungibleToken at hr
  simp only at hr
  repeat' split at hr
  all_goals (subst hr; simp [Result.IsOK])

/-- A failing transfer of ownership returns the context it was given. -/
theorem Keeper.transferOwnership_failure_keeps (k : Keeper) (ctx : Context) (symbol : String)
    (from_ to_ : AccAddress) :
    (k.TransferTokenOwnership ctx symbol from_ to_).1.IsOK = false →
    (k.TransferTokenOwnership ctx symbol from_ to_).2 = ctx := by
  generalize hr : k.TransferTokenOwnership ctx symbol from_ to_ = r
  unfold Keeper.TransferTokenOwnership Keeper.transferNonFungibleTokenOwnership at hr
  simp only at hr
  repeat' split at hr
  all_goals (subst hr; simp [Result.IsOK])

/-- A failing acceptance of ownership returns the context it was given. -/
theorem Keeper.acceptOwnership_failure_keeps (k : Keeper) (ctx : Context) (symbol : String)
    (from_ : AccAddress) :
    (k.AcceptTokenOwnership ctx symbol from_).1.IsOK = false →
    (k.AcceptTokenOwnership ctx symbol from_).2 = ctx := by
  generalize hr : k.AcceptTokenOwnership ctx symbol from_ = r
  unfold Keeper.AcceptTokenOwnership Keeper.acceptNonFungibleTokenOwnership at hr
  simp only at hr
  repeat' split at hr
  all_goals (subst hr; simp [Result.IsOK])

/-- An endorsement, successful or not, returns the context it was given. -/
theorem Keeper.endorsement_keeps (k : Keeper) (ctx : Context) (symbol : String)
    (from_ : AccAddress) (itemID : String) :
    (k.MakeEndorsement ctx symbol from_ itemID).2 = ctx := by
  unfold Keeper.MakeEndorsement
  repeat' split
  all_goals rfl

/-- A failing item metadata update returns the context it was given. -/
theorem Keeper.updateItem_failure_keeps (k : Keeper) (ctx : Context) (symbol : String)
    (from_ : AccAddress) (itemID metadata : String) :
    (k.UpdateItemMetadata ctx symbol from_ itemID metadata).1.IsOK = false →
    (k.UpdateItemMetadata ctx symbol from_ itemID metadata).2 = ctx := by
  generalize hr : k.UpdateItemMetadata ctx symbol from_ itemID metadata = r
  unfold Keeper.UpdateItemMetadata at hr
  simp only at hr
  repeat' split at hr
  all_goals (subst hr; simp [Result.IsOK])

/-- A failing token metadata update returns the context it was given. -/
theorem Keeper.updateToken_failure_keeps (k : Keeper) (ctx : Context) (symbol : String)
    (from_ : AccAddress) (metadata : String) :
    (k.UpdateNFTMetadata ctx symbol from_ metadata).1.IsOK = false →
    (k.UpdateNFTMetadata ctx symbol from_ metadata).2 = ctx := by
  generalize hr : k.UpdateNFTMetadata ctx symbol from_ metadata = r
  unfold Keeper.UpdateNFTMetadata at hr
  simp only at hr
  repeat' split at hr
  all_goals (subst hr; simp [Result.IsOK])

/-! ## Shape of the store after a successful call -/

/-- Records after a successful mint: the Token with its total supply raised by
one under `symbol`, a fresh Item and its owner under the Token's symbol. -/
theorem Keeper.mint_ok_shape (k : Keeper) (ctx : Context) (symbol : String)
    (from_ to_ : AccAddress) (itemID properties metadata : String)
    (hok : (k.MintNonFungibleToken ctx symbol from_ to_ itemID properties metadata).1.IsOK
      = true) :
    ∃ token, ctx.store.token symbol = some token ∧
      ctx.store.item token.Symbol itemID = none ∧
      (k.MintNonFungibleToken ctx symbol from_ to_ itemID properties metadata).2.store.token
        = (fun s => if s = symbol then some { token with TotalSupply := token.TotalSupply + 1 }
            else ctx.store.token s) ∧
      (k.MintNonFungibleToken ctx symbol from_ to_ itemID properties metadata).2.store.item
        = (fun s i => if s = token.Symbol ∧ i = itemID
            then some (Item.mk itemID properties metadata 0 false) else ctx.store.item s i) ∧
      (k.MintNonFungibleToken ctx symbol from_ to_ itemID properties metadata).2.store.itemOwner
        = (fun s i => if s = token.Symbol ∧ i = itemID then some to_
            else ctx.store.itemOwner s i) := by
  generalize hr : k.MintNonFungibleToken ctx symbol from_ to_ itemID properties metadata = r at hok
  unfold Keeper.MintNonFungibleToken at hr
  simp only [Keeper.getTokenData] at hr
  repeat' split at hr
  all_goals subst hr
  all_goals simp_all [Result.IsOK, Keeper.storeToken, Keeper.createNonFungibleItem,
    Keeper.storeNonFungibleItem, Keeper.increaseMintItemLimit, Keeper.IsItemIDUnique,
    Keeper.getNonFungibleItem]

/-- Preconditions and records of a successful transfer. -/
theorem Keeper.transfer_ok_shape (k : Keeper) (ctx : Context) (symbol : String)
    (from_ to_ : AccAddress) (itemID : String)
    (hok : (k.TransferNonFungibleToken ctx symbol from_ to_ itemID).1.IsOK = true) :
    ∃ token item, ctx.store.token symbol = some token ∧
      ctx.store.item symbol itemID = some item ∧
      token.Flags.HasFlag TransferableFlag = true ∧
      token.Flags.HasFlag FrozenFlag = false ∧
      item.TransferLimit < token.TransferLimit ∧
      (k.TransferNonFungibleToken ctx symbol from_ to_ itemID).2.store.token
        = ctx.store.token ∧
      (k.TransferNonFungibleToken ctx symbol from_ to_ itemID).2.store.item
        = (fun s i => if s = symbol ∧ i = itemID
            then some { item with TransferLimit := item.TransferLimit + 1 }
            else ctx.store.item s i) ∧
      (k.TransferNonFungibleToken ctx symbol from_ to_ itemID).2.store.itemOwner
        = (fun s i => if s = symbol ∧ i = itemID then some to_
            else ctx.store.itemOwner s i) := by
  generalize hr : k.TransferNonFungibleToken ctx symbol from_ to_ itemID = r at hok
  unfold Keeper.TransferNonFungibleToken at hr
  simp only [Keeper.getTokenData] at hr
  repeat' split at hr
  all_goals subst hr
  all_goals simp_all [Result.IsOK, Context.deleteItemOwner, Context.setItemOwner,
    Context.setItem]

/-- Records after a successful burn. -/
theorem Keeper.burn_ok_shape (k : Keeper) (ctx : Context) (symbol : String)
    (from_ : AccAddress) (itemID : String)
    (hok : (k.BurnNonFungibleToken ctx symbol from_ itemID).1.IsOK = true) :
    (k.BurnNonFungibleToken ctx symbol from_ itemID).2.store.token = ctx.store.token ∧
    (k.BurnNonFungibleToken ctx symbol from_ itemID).2.store.item
      = (fun s i => if s = symbol ∧ i = itemID then none else ctx.store.item s i) ∧
    (k.BurnNonFungibleToken ctx symbol from_ itemID).2.store.itemOwner
      = (fun s i => if s = symbol ∧ i = itemID then none else ctx.store.itemOwner s i) := by
  generalize hr : k.BurnNonFungibleToken ctx symbol from_ itemID = r at hok
  unfold Keeper.BurnNonFungibleToken at hr
  simp only [Keeper.getTokenData] at hr
  repeat' split at hr
  all_goals subst hr
  all_goals simp_all [Result.IsOK, Context.deleteItemOwner, Context.deleteItem]

/-- Records after a successful item metadata update. -/
theorem Keeper.updateItem_ok_shape (k : Keeper) (ctx : Context) (symbol : String)
    (from_ : AccAddress) (itemID metadata : String)
    (hok : (k.UpdateItemMetadata ctx symbol from_ itemID metadata).1.IsOK = true) :
    ∃ item, ctx.store.item symbol itemID = some item ∧
      (k.UpdateItemMetadata ctx symbol from_ itemID metadata).2.store.token
        = ctx.store.token ∧
      (k.UpdateItemMetadata ctx symbol from_ itemID metadata).2.store.item
        = (fun s i => if s = symbol ∧ i = item.ID
            then some { item with Metadata := metadata } else ctx.store.item s i) := by
  generalize hr : k.UpdateItemMetadata ctx symbol from_ itemID metadata = r at hok
  unfold Keeper.UpdateItemMetadata at hr
  simp only [Keeper.getNonFungibleItem] at hr
  repeat' split at hr
  all_goals subst hr
  all_goals simp_all [Result.IsOK, Keeper.storeNonFungibleItem]

/-- Records after a successful transfer of ownership. -/
theorem Keeper.transferOwnership_ok_shape (k : Keeper) (ctx : Context) (symbol : String)
    (from_ to_ : AccAddress)
    (hok : (k.TransferTokenOwnership ctx symbol from_ to_).1.IsOK = true) :
    ∃ token, ctx.store.token symbol = some token ∧
      (k.TransferTokenOwnership ctx symbol from_ to_).2.store.token
        = (fun s => if s = token.Symbol
            then some { token with
              NewOwner := to_
              Flags := token.Flags.AddFlag TransferTokenOwnershipFlag }
            else ctx.store.token s) ∧
      (k.TransferTokenOwnership ctx symbol from_ to_).2.store.item = ctx.store.item := by
  generalize hr : k.TransferTokenOwnership ctx symbol from_ to_ = r at hok
  unfold Keeper.TransferTokenOwnership Keeper.transferNonFungibleTokenOwnership at hr
  simp only [Keeper.mustGetTokenData, Keeper.getTokenData] at hr
  cases hget : ctx.store.token symbol with
  | none =>
    simp only [hget] at hr
    subst hr
    simp [Result.IsOK] at hok
  | some token =>
    simp only [hget] at hr
    repeat' split at hr
    all_goals subst hr
    all_goals simp_all [Result.IsOK, Keeper.storeToken]

/-- Records after a successful acceptance of ownership. -/
theorem Keeper.acceptOwnership_ok_shape (k : Keeper) (ctx : Context) (symbol : String)
    (from_ : AccAddress)
    (hok : (k.AcceptTokenOwnership ctx symbol from_).1.IsOK = true) :
    ∃ token, ctx.store.token symbol = some token ∧
      (k.AcceptTokenOwnership ctx symbol from_).2.store.token
        = (fun s => if s = token.Symbol
            then some { token with
              Owner := from_
              NewOwner := []
              Flags := ((token.Flags.RemoveFlag ApproveTransferTokenOwnershipFlag).RemoveFlag
                AcceptTokenOwnershipFlag).RemoveFlag TransferTokenOwnershipFlag }
            else ctx.store.token s) ∧
      (k.AcceptTokenOwnership ctx symbol from_).2.store.item = ctx.store.item := by
  generalize hr : k.AcceptTokenOwnership ctx symbol from_ = r at hok
  unfold Keeper.AcceptTokenOwnership Keeper.acceptNonFungibleTokenOwnership at hr
  simp only [Keeper.mustGetTokenData, Keeper.getTokenData] at hr
  cases hget : ctx.store.token symbol with
  | none =>
    simp only [hget] at hr
    subst hr
    simp [Result.IsOK] at hok
  | some token =>
    simp only [hget] at hr
    repeat' split at hr
    all_goals subst hr
    all_goals simp_all [Result.IsOK, Keeper.storeToken]

/-- Records after a successful token metadata update. -/
theorem Keeper.updateToken_ok_shape (k : Keeper) (ctx : Context) (symbol : String)
    (from_ : AccAddress) (metadata : String)
    (hok : (k.UpdateNFTMetadata ctx symbol from_ metadata).1.IsOK = true) :
    ∃ token, ctx.store.token symbol = some token ∧
      (k.UpdateNFTMetadata ctx symbol from_ metadata).2.store.token
        = (fun s => if s = symbol then some { token with Metadata := metadata }
            else ctx.store.token s) ∧
      (k.UpdateNFTMetadata ctx symbol from_ metadata).2.store.item = ctx.store.item := by
  generalize hr : k.UpdateNFTMetadata ctx symbol from_ metadata = r at hok
  unfold Keeper.UpdateNFTMetadata at hr
  simp only [Keeper.mustGetTokenData, Keeper.getTokenData] at hr
  cases hget : ctx.store.token symbol with
  | none =>
    simp only [hget] at hr
    repeat' split at hr
    all_goals subst hr
    all_goals simp [Result.IsOK] at hok
  | some token =>
    simp only [hget] at hr
    repeat' split at hr
    all_goals subst hr
    all_goals simp_all [Result.IsOK, Keeper.storeToken]

/-! ## Transfer limit as an invariant -/

/-- One call keeps the transfer counters of a symbol within the Token's
transfer limit, and the limit itself. -/
theorem Keeper.run_within_limit (k : Keeper) (ctx : Context) (c : Call) (symbol : String)
    (limit : Uint) (h : ctx.WithinTransferLimit symbol limit) :
    (k.run ctx c).2.WithinTransferLimit symbol limit := by
  by_cases hok : (k.run ctx c).1.IsOK = true
  swap
  · have hfail : (k.run ctx c).1.IsOK = false := by simpa using hok
    have hkeep : (k.run ctx c).2 = ctx := by
      cases c with
      | Mint s from_ to_ itemID properties metadata =>
        exact k.mint_failure_keeps ctx s from_ to_ itemID properties metadata hfail
      | Transfer s from_ to_ itemID =>
        exact k.transfer_failure_keeps ctx s from_ to_ itemID hfail
      | Burn s from_ itemID => exact k.burn_failure_keeps ctx s from_ itemID hfail
      | TransferOwnership s from_ to_ =>
        exact k.transferOwnership_failure_keeps ctx s from_ to_ hfail
      | AcceptOwnership s from_ => exact k.acceptOwnership_failure_keeps ctx s from_ hfail
      | Endorse s from_ itemID => exact k.endorsement_keeps ctx s from_ itemID
      | UpdateItem s from_ itemID metadata =>
        exact k.updateItem_failure_keeps ctx s from_ itemID metadata hfail
      | UpdateToken s from_ metadata =>
        exact k.updateToken_failure_keeps ctx s from_ metadata hfail
    rw [hkeep]
    exact h
  obtain ⟨hkeyed, ⟨token, hget, hlimit⟩, hitems⟩ := h
  cases c with
  | Mint s from_ to_ itemID properties metadata =>
    obtain ⟨token0, hget0, _, htoken, hitem, _⟩ :=
      k.mint_ok_shape ctx s from_ to_ itemID properties metadata hok
    have hk0 : token0.Symbol = s := hkeyed s token0 hget0
    simp only [Keeper.run, Context.WithinTransferLimit, KVStore.SymbolKeyed, htoken, hitem]
    refine ⟨?_, ?_, ?_⟩
    · intro s1 t1 h1
      split at h1
      · rename_i hs
        cases h1
        simp [hk0, hs]
      · exact hkeyed s1 t1 h1
    · by_cases hs : symbol = s
      · subst hs
        rw [hget0] at hget
        cases hget
        exact ⟨_, if_pos rfl, hlimit⟩
      · exact ⟨token, by simp [hs, hget], hlimit⟩
    · intro i item hi
      split at hi
      · cases hi
        exact Nat.zero_le _
      · exact hitems i item hi
  | Transfer s from_ to_ itemID =>
    obtain ⟨token0, item0, hget0, hitem0, _, _, hlt, htoken, hitem, _⟩ :=
      k.transfer_ok_shape ctx s from_ to_ itemID hok
    have hkeyed1 : (k.TransferNonFungibleToken ctx s from_ to_ itemID).2.store.SymbolKeyed := by
      unfold KVStore.SymbolKeyed
      rw [htoken]
      exact hkeyed
    simp only [Keeper.run, Context.WithinTransferLimit, htoken, hitem]
    refine ⟨hkeyed1, ⟨token, hget, hlimit⟩, ?_⟩
    intro i item hi
    split at hi
    · rename_i hs
      cases hi
      obtain ⟨hs1, _⟩ := hs
      subst hs1
      rw [hget0] at hget
      cases hget
      rw [← hlimit]
      exact hlt
    · exact hitems i item hi
  | Burn s from_ itemID =>
    obtain ⟨htoken, hitem, _⟩ := k.burn_ok_shape ctx s from_ itemID hok
    have hkeyed1 : (k.BurnNonFungibleToken ctx s from_ itemID).2.store.SymbolKeyed := by
      unfold KVStore.SymbolKeyed
      rw [htoken]
      exact hkeyed
    simp only [Keeper.run, Context.WithinTransferLimit, htoken, hitem]
    refine ⟨hkeyed1, ⟨token, hget, hlimit⟩, ?_⟩
    intro i item hi
    split at hi
    · cases hi
    · exact hitems i item hi
  | TransferOwnership s from_ to_ =>
    obtain ⟨token0, hget0, htoken, hitem⟩ := k.transferOwnership_ok_shape ctx s from_ to_ hok
    have hk0 : token0.Symbol = s := hkeyed s token0 hget0
    simp only [Keeper.run, Context.WithinTransferLimit, KVStore.SymbolKeyed, htoken, hitem]
    refine ⟨?_, ?_, hitems⟩
    · intro s1 t1 h1
      split at h1
      · rename_i hs
        cases h1
        simp [hs]
      · exact hkeyed s1 t1 h1
    · by_cases hs : symbol = s
      · subst hs
        rw [hget0] at hget
        cases hget
        exact ⟨_, if_pos hk0.symm, hlimit⟩
      · exact ⟨token, by simp [hk0, hs, hget], hlimit⟩
  | AcceptOwnership s from_ =>
    obtain ⟨token0, hget0, htoken, hitem⟩ := k.acceptOwnership_ok_shape ctx s from_ hok
    have hk0 : token0.Symbol = s := hkeyed s token0 hget0
    simp only [Keeper.run, Context.WithinTransferLimit, KVStore.SymbolKeyed, htoken, hitem]
    refine ⟨?_, ?_, hitems⟩
    · intro s1 t1 h1
      split at h1
      · rename_i hs
        cases h1
        simp [hs]
      · exact hkeyed s1 t1 h1
    · by_cases hs : symbol = s
      · subst hs
        rw [hget0] at hget
        cases hget
        exact ⟨_, if_pos hk0.symm, hlimit⟩
      · exact ⟨token, by simp [hk0, hs, hget], hlimit⟩
  | Endorse s from_ itemID =>
    simp only [Keeper.run]
    rw [k.endorsement_keeps ctx s from_ itemID]
    exact ⟨hkeyed, ⟨token, hget, hlimit⟩, hitems⟩
  | UpdateItem s from_ itemID metadata =>
    obtain ⟨item0, hitem0, htoken, hitem⟩ :=
      k.updateItem_ok_shape ctx s from_ itemID metadata hok
    have hkeyed1 : (k.UpdateItemMetadata ctx s from_ itemID metadata).2.store.SymbolKeyed := by
      unfold KVStore.SymbolKeyed
      rw [htoken]
      exact hkeyed
    simp only [Keeper.run, Context.WithinTransferLimit, htoken, hitem]
    refine ⟨hkeyed1, ⟨token, hget, hlimit⟩, ?_⟩
    intro i item hi
    split at hi
    · rename_i hs
      cases hi
      obtain ⟨hs1, _⟩ := hs
      subst hs1
      exact hitems itemID item0 hitem0
    · exact hitems i item hi
  | UpdateToken s from_ metadata =>
    obtain ⟨token0, hget0, htoken, hitem⟩ := k.updateToken_ok_shape ctx s from_ metadata hok
    have hk0 : token0.Symbol = s := hkeyed s token0 hget0
    simp only [Keeper.run, Context.WithinTransferLimit, KVStore.SymbolKeyed, htoken, hitem]
    refine ⟨?_, ?_, hitems⟩
    · intro s1 t1 h1
      split at h1
      · rename_i hs
        cases h1
        simp [hk0, hs]
      · exact hkeyed s1 t1 h1
    · by_cases hs : symbol = s
      · subst hs
        rw [hget0] at hget
        cases hget
        exact ⟨_, if_pos rfl, hlimit⟩
      · exact ⟨token, by simp [hs, hget], hlimit⟩

/-- A run of calls keeps the transfer counters of a symbol within the Token's
transfer limit. -/
theorem Keeper.runAll_within_limit (k : Keeper) (symbol : String) (limit : Uint)
    (cs : List Call) : ∀ ctx : Context, ctx.WithinTransferLimit symbol limit →
      (k.runAll ctx cs).WithinTransferLimit symbol limit := by
  induction cs with
  | nil => intro ctx h; exact h
  | cons c cs ih =>
    intro ctx h
    exact ih (k.run ctx c).2 (k.run_within_limit ctx c symbol limit h)

/-- A transfer of an Item whose counter has reached the Token's transfer limit
fails. -/
theorem Keeper.transfer_at_limit_fails (k : Keeper) (ctx : Context) (symbol : String)
    (from_ to_ : AccAddress) (itemID : String) (token : Token) (item : Item)
    (hget : ctx.store.token symbol = some token)
    (hitem : ctx.store.item symbol itemID = some item)
    (hreached : token.TransferLimit ≤ item.TransferLimit) :
    (k.TransferNonFungibleToken ctx symbol from_ to_ itemID).1.IsOK = false := by
  generalize hr : k.TransferNonFungibleToken ctx symbol from_ to_ itemID = r
  unfold Keeper.TransferNonFungibleToken at hr
  simp only [Keeper.getTokenData, hget, hitem, ge_iff_le, hreached, if_true] at hr
  repeat' split at hr
  all_goals (subst hr; simp [Result.IsOK])

/-- A transfer that passes every check before the limit check, of an Item
whose counter has reached the limit, returns the limit error and the context
it was given. -/
theorem Keeper.transfer_at_limit_error (k : Keeper) (ctx : Context) (symbol : String)
    (from_ to_ : AccAddress) (itemID : String) (token : Token) (item : Item)
    (account : Account) (owner : AccAddress)
    (hget : ctx.store.token symbol = some token)
    (hitem : ctx.store.item symbol itemID = some item)
    (hreached : token.TransferLimit ≤ item.TransferLimit)
    (haccount : k.accountKeeper.GetAccount from_ = some account)
    (htransferable : token.Flags.HasFlag TransferableFlag = true)
    (hfrozen : token.Flags.HasFlag FrozenFlag = false)
    (howner : ctx.store.itemOwner symbol itemID = some owner) :
    k.TransferNonFungibleToken ctx symbol from_ to_ itemID
      = (Result.err (Error.ErrInternal "Item has existed transfer limit."), ctx) := by
  unfold Keeper.TransferNonFungibleToken
  simp [Keeper.getTokenData, hget, hitem, hreached, haccount, htransferable, hfrozen, howner]

/-- A run of transfers of one Item: the Token stays, the Item's counter grows
by the number of successful transfers and stays within the limit; after a
success the Token is known to be Transferable and not Frozen; the owner-index
entry, once there, stays there. -/
theorem Keeper.transfers_count (k : Keeper) (symbol itemID : String) (token : Token)
    (cs : List Call) (hcs : ∀ c ∈ cs, c.IsTransferOf symbol itemID = true) :
    ∀ (ctx : Context) (item : Item), ctx.store.token symbol = some token →
      ctx.store.item symbol itemID = some item →
      item.TransferLimit ≤ token.TransferLimit →
      (k.runAll ctx cs).store.token symbol = some token ∧
      (∃ item1, (k.runAll ctx cs).store.item symbol itemID = some item1 ∧
        item1.TransferLimit = item.TransferLimit + k.successes ctx cs ∧
        item1.TransferLimit ≤ token.TransferLimit) ∧
      (0 < k.successes ctx cs →
        token.Flags.HasFlag TransferableFlag = true ∧
        token.Flags.HasFlag FrozenFlag = false) ∧
      (((∃ owner, ctx.store.itemOwner symbol itemID = some owner) ∨
          0 < k.successes ctx cs) →
        ∃ owner, (k.runAll ctx cs).store.itemOwner symbol itemID = some owner) := by
  induction cs with
  | nil =>
    intro ctx item hget hitem hle
    refine ⟨hget, ⟨item, hitem, by simp [Keeper.successes], hle⟩, ?_, ?_⟩
    · intro h
      simp [Keeper.successes] at h
    · intro h
      rcases h with h | h
      · exact h
      · simp [Keeper.successes] at h
  | cons c cs ih =>
    intro ctx item hget hitem hle
    have hc : c.IsTransferOf symbol itemID = true := hcs c (List.mem_cons_self c cs)
    have hrest : ∀ c1 ∈ cs, c1.IsTransferOf symbol itemID = true :=
      fun c1 h1 => hcs c1 (List.mem_cons_of_mem c h1)
    cases c with
    | Transfer s from_ to_ i =>
      simp only [Call.IsTransferOf, decide_eq_true_eq] at hc
      obtain ⟨hs, hi⟩ := hc
      subst hs
      subst hi
      by_cases hok : (k.TransferNonFungibleToken ctx s from_ to_ i).1.IsOK = true
      · obtain ⟨token0, item0, hget0, hitem0, htransferable, hfrozen, hlt, htoken, hitems,
          howners⟩ := k.transfer_ok_shape ctx s from_ to_ i hok
        rw [hget] at hget0
        cases hget0
        rw [hitem] at hitem0
        cases hitem0
        have hget1 : (k.TransferNonFungibleToken ctx s from_ to_ i).2.store.token s
            = some token := by rw [htoken]; exact hget
        have hitem1 : (k.TransferNonFungibleToken ctx s from_ to_ i).2.store.item s i
            = some { item with TransferLimit := item.TransferLimit + 1 } := by
          rw [hitems]; simp
        have howner1 : (k.TransferNonFungibleToken ctx s from_ to_ i).2.store.itemOwner s i
            = some to_ := by
          rw [howners]; simp
        obtain ⟨h1, ⟨item1, h2, h3, h4⟩, _, h6⟩ :=
          ih hrest (k.TransferNonFungibleToken ctx s from_ to_ i).2 _ hget1 hitem1 hlt
        have hsucc : k.successes ctx (Call.Transfer s from_ to_ i :: cs)
            = 1 + k.successes (k.TransferNonFungibleToken ctx s from_ to_ i).2 cs := by
          simp [Keeper.successes, Keeper.run, hok]
        simp only [Keeper.runAll, Keeper.run]
        refine ⟨h1, ⟨item1, h2, ?_, h4⟩, fun _ => ⟨htransferable, hfrozen⟩, fun _ => ?_⟩
        · rw [h3, hsucc]
          simp only [Nat.add_assoc]
        · exact h6 (Or.inl ⟨to_, howner1⟩)
      · have hfail : (k.TransferNonFungibleToken ctx s from_ to_ i).1.IsOK = false := by
          simpa using hok
        have hkeep := k.transfer_failure_keeps ctx s from_ to_ i hfail
        have hsucc : k.successes ctx (Call.Transfer s from_ to_ i :: cs)
            = k.successes ctx cs := by
          simp [Keeper.successes, Keeper.run, hfail, hkeep]
        simp only [Keeper.runAll, Keeper.run, hkeep, hsucc]
        exact ih hrest ctx item hget hitem hle
    | Mint _ _ _ _ _ _ => simp [Call.IsTransferOf] at hc
    | Burn _ _ _ => simp [Call.IsTransferOf] at hc
    | TransferOwnership _ _ _ => simp [Call.IsTransferOf] at hc
    | AcceptOwnership _ _ => simp [Call.IsTransferOf] at hc
    | Endorse _ _ _ => simp [Call.IsTransferOf] at hc
    | UpdateItem _ _ _ _ => simp [Call.IsTransferOf] at hc
    | UpdateToken _ _ _ => simp [Call.IsTransferOf] at hc

/-! ## Sufficient conditions of success -/

/-- A mint succeeds when every check of the source passes: existing Token
kept under its own symbol, existing caller, owner of a private Token or
minting to itself on a Public one, Mintable, Approved, not Frozen, itemID
unused, mint limit not reached. -/
theorem Keeper.mint_succeeds (k : Keeper) (ctx : Context) (symbol : String)
    (from_ to_ : AccAddress) (itemID properties metadata : String) (token : Token)
    (account : Account)
    (hget : ctx.store.token symbol = some token)
    (hkey : token.Symbol = symbol)
    (haccount : k.accountKeeper.GetAccount from_ = some account)
    (hauth : (token.Flags.HasFlag PubFlag = false ∧ token.Owner = from_) ∨
      (token.Flags.HasFlag PubFlag = true ∧ from_ = to_))
    (hmint : token.Flags.HasFlag MintFlag = true)
    (happroved : token.Flags.HasFlag ApprovedFlag = true)
    (hfrozen : token.Flags.HasFlag FrozenFlag = false)
    (hunused : ctx.store.item symbol itemID = none)
    (hlimit : token.MintLimit = 0 ∨
      (ctx.store.mintLimit symbol to_).getD 0 < token.MintLimit) :
    (k.MintNonFungibleToken ctx symbol from_ to_ itemID properties metadata).1.IsOK = true := by
  have hchecks : (!token.Flags.HasFlag PubFlag && !token.Owner.Equals from_) = false ∧
      (token.Flags.HasFlag PubFlag && !from_.Equals to_) = false := by
    rcases hauth with ⟨hpub, howner⟩ | ⟨hpub, hself⟩
    · simp [hpub, howner, AccAddress.Equals]
    · simp [hpub, hself, AccAddress.Equals]
  obtain ⟨hcheck1, hcheck2⟩ := hchecks
  unfold Keeper.MintNonFungibleToken
  simp only [Keeper.getTokenData, hget, haccount]
  simp only [hcheck1, hcheck2, hmint, happroved, hfrozen, Keeper.IsItemIDUnique,
    Keeper.getNonFungibleItem, hkey, hunused, Bool.not_true, Bool.false_eq_true, if_false,
    Option.isNone_none, Bool.not_false]
  rcases hlimit with hzero | hbelow
  · simp [hzero, Result.IsOK]
  · cases hcount : ctx.store.mintLimit symbol to_ with
    | none =>
      by_cases hzero : token.MintLimit = 0
      · simp [hzero, Result.IsOK]
      · simp [hzero, Result.IsOK]
    | some count =>
      rw [hcount] at hbelow
      have hnot : ¬ token.MintLimit ≤ count := by
        simpa using hbelow
      by_cases hzero : token.MintLimit = 0
      · simp [hzero, Result.IsOK]
      · simp [hzero, hnot, Result.IsOK]

/-- A transfer succeeds when every check of the source passes. -/
theorem Keeper.transfer_succeeds (k : Keeper) (ctx : Context) (symbol : String)
    (from_ to_ : AccAddress) (itemID : String) (token : Token) (item : Item)
    (account : Account) (owner : AccAddress)
    (hget : ctx.store.token symbol = some token)
    (htransferable : token.Flags.HasFlag TransferableFlag = true)
    (haccount : k.accountKeeper.GetAccount from_ = some account)
    (hfrozen : token.Flags.HasFlag FrozenFlag = false)
    (howner : ctx.store.itemOwner symbol itemID = some owner)
    (hitem : ctx.store.item symbol itemID = some item)
    (hbelow : item.TransferLimit < token.TransferLimit) :
    (k.TransferNonFungibleToken ctx symbol from_ to_ itemID).1.IsOK = true := by
  have hnot : ¬ token.TransferLimit ≤ item.TransferLimit := Nat.not_le.mpr hbelow
  unfold Keeper.TransferNonFungibleToken
  simp [Keeper.getTokenData, hget, htransferable, haccount, hfrozen, howner, hitem, hnot,
    Result.IsOK]

/-- A burn succeeds when every check of the source passes. -/
theorem Keeper.burn_succeeds (k : Keeper) (ctx : Context) (symbol : String)
    (from_ : AccAddress) (itemID : String) (token : Token) (item : Item) (account : Account)
    (hget : ctx.store.token symbol = some token)
    (hburn : token.Flags.HasFlag BurnFlag = true)
    (haccount : k.accountKeeper.GetAccount from_ = some account)
    (happroved : token.Flags.HasFlag ApprovedFlag = true)
    (hfrozen : token.Flags.HasFlag FrozenFlag = false)
    (hitem : ctx.store.item symbol itemID = some item)
    (howner : ctx.store.itemOwner symbol itemID = some from_) :
    (k.BurnNonFungibleToken ctx symbol from_ itemID).1.IsOK = true := by
  unfold Keeper.BurnNonFungibleToken
  simp [Keeper.getTokenData, hget, hburn, haccount, happroved, hfrozen,
    Keeper.getNonFungibleItem, hitem, Keeper.getNonFungibleItemOwner, howner,
    AccAddress.Equals, Result.IsOK]

/-! ## Flags -/

/-- A flag that has been added is there, when it is not the empty mask. -/
theorem Bitmask.hasFlag_addFlag_self (f flag : Bitmask) (h : flag ≠ 0) :
    (f.AddFlag flag).HasFlag flag = true := by
  have hand : (f ||| flag) &&& flag = flag := by
    apply Nat.eq_of_testBit_eq
    intro i
    simp only [Nat.testBit_and, Nat.testBit_or]
    cases f.testBit i <;> cases flag.testBit i <;> rfl
  simp only [Bitmask.HasFlag, Bitmask.AddFlag, hand]
  simpa using h

/-- Adding a flag does not change the test of a flag that shares no bit with
it. -/
theorem Bitmask.hasFlag_addFlag_of_disjoint (f flag other : Bitmask)
    (h : flag &&& other = 0) : (f.AddFlag flag).HasFlag other = f.HasFlag other := by
  have hand : (f ||| flag) &&& other = f &&& other := by
    apply Nat.eq_of_testBit_eq
    intro i
    have hi : (flag &&& other).testBit i = false := by rw [h]; simp
    simp only [Nat.testBit_and, Nat.testBit_or] at hi ⊢
    cases hf : f.testBit i <;> cases hg : flag.testBit i <;> cases ho : other.testBit i <;>
      simp_all
  simp only [Bitmask.HasFlag, Bitmask.AddFlag, hand]

/-- Adding the single bit `2 ^ n` changes no other bit. -/
theorem Bitmask.testBit_addFlag_two_pow (f : Bitmask) (n i : Nat) (h : i ≠ n) :
    (f.AddFlag (2 ^ n)).testBit i = f.testBit i := by
  simp only [Bitmask.AddFlag, Nat.testBit_or, Nat.testBit_two_pow]
  have : decide (n = i) = false := by simpa using fun hn => h hn.symm
  rw [this, Bool.or_false]

/-- A flag is absent exactly when the mask shares no bit with it. -/
theorem Bitmask.hasFlag_eq_false_iff (f flag : Bitmask) :
    f.HasFlag flag = false ↔ f &&& flag = 0 := by
  simp [Bitmask.HasFlag]

/-- Bits of a mask after the removal of a flag. -/
theorem Bitmask.testBit_removeFlag (f flag : Bitmask) (i : Nat) :
    (f.RemoveFlag flag).testBit i = (f.testBit i && !flag.testBit i) := by
  simp only [Bitmask.RemoveFlag, Nat.testBit_xor, Nat.testBit_and]
  cases f.testBit i <;> cases flag.testBit i <;> rfl

/-- A flag that has been removed is not there. -/
theorem Bitmask.hasFlag_removeFlag_self (f flag : Bitmask) :
    (f.RemoveFlag flag).HasFlag flag = false := by
  rw [Bitmask.hasFlag_eq_false_iff]
  apply Nat.eq_of_testBit_eq
  intro i
  simp only [Nat.testBit_and, Bitmask.testBit_removeFlag, Nat.zero_testBit]
  cases f.testBit i <;> cases flag.testBit i <;> rfl

/-- Removing a flag does not change the test of a flag that shares no bit with
it. -/
theorem Bitmask.hasFlag_removeFlag_of_disjoint (f flag other : Bitmask)
    (h : flag &&& other = 0) : (f.RemoveFlag flag).HasFlag other = f.HasFlag other := by
  have hand : f.RemoveFlag flag &&& other = f &&& other := by
    apply Nat.eq_of_testBit_eq
    intro i
    have hi : (flag &&& other).testBit i = false := by rw [h]; simp
    simp only [Nat.testBit_and, Bitmask.testBit_removeFlag] at hi ⊢
    cases hf : f.testBit i <;> cases hg : flag.testBit i <;> cases ho : other.testBit i <;>
      simp_all
  simp only [Bitmask.HasFlag, hand]

/-- Removing a flag never sets another one. -/
theorem Bitmask.hasFlag_removeFlag_of_not (f flag other : Bitmask)
    (h : f.HasFlag other = false) : (f.RemoveFlag flag).HasFlag other = false := by
  rw [Bitmask.hasFlag_eq_false_iff] at h ⊢
  apply Nat.eq_of_testBit_eq
  intro i
  have hi : (f &&& other).testBit i = false := by rw [h]; simp
  simp only [Nat.testBit_and, Bitmask.testBit_removeFlag, Nat.zero_testBit] at hi ⊢
  cases hf : f.testBit i <;> cases hg : flag.testBit i <;> cases ho : other.testBit i <;>
    simp_all

/-- The account found for an address carries that address. -/
theorem AccountKeeper.getAccount_address (ak : AccountKeeper) (addr : AccAddress)
    (account : Account) (h : ak.GetAccount addr = some account) : account.Address = addr := by
  have := List.find?_some h
  simpa [AccAddress.Equals] using this

/-! ## Ownership: conditions of success -/

/-- Checks passed by a successful transfer of ownership. -/
theorem Keeper.transferOwnership_ok_conditions (k : Keeper) (ctx : Context) (symbol : String)
    (from_ to_ : AccAddress)
    (hok : (k.TransferTokenOwnership ctx symbol from_ to_).1.IsOK = true) :
    ∃ token account, ctx.store.token symbol = some token ∧
      k.accountKeeper.GetAccount token.Owner = some account ∧
      token.Owner = from_ ∧
      token.Flags.HasFlag ApprovedFlag = true ∧
      token.Flags.HasFlag FrozenFlag = false := by
  generalize hr : k.TransferTokenOwnership ctx symbol from_ to_ = r at hok
  unfold Keeper.TransferTokenOwnership Keeper.transferNonFungibleTokenOwnership at hr
  simp only [Keeper.mustGetTokenData, Keeper.getTokenData, Token.IsApproved,
    Token.IsFrozen] at hr
  cases hget : ctx.store.token symbol with
  | none =>
    simp only [hget] at hr
    subst hr
    simp [Result.IsOK] at hok
  | some token =>
    simp only [hget] at hr
    repeat' split at hr
    all_goals subst hr
    all_goals simp_all [Result.IsOK, AccAddress.Equals]

/-- A transfer of ownership succeeds when every check of the source passes. -/
theorem Keeper.transferOwnership_succeeds (k : Keeper) (ctx : Context) (symbol : String)
    (from_ to_ : AccAddress) (token : Token) (account : Account)
    (hget : ctx.store.token symbol = some token)
    (haccount : k.accountKeeper.GetAccount token.Owner = some account)
    (howner : token.Owner = from_)
    (happroved : token.Flags.HasFlag ApprovedFlag = true)
    (hfrozen : token.Flags.HasFlag FrozenFlag = false) :
    (k.TransferTokenOwnership ctx symbol from_ to_).1.IsOK = true := by
  subst howner
  unfold Keeper.TransferTokenOwnership Keeper.transferNonFungibleTokenOwnership
  simp [Keeper.mustGetTokenData, Keeper.getTokenData, hget, haccount,
    AccAddress.Equals, Token.IsApproved, Token.IsFrozen, happroved, hfrozen, Result.IsOK]

/-- Checks passed by a successful acceptance of ownership. -/
theorem Keeper.acceptOwnership_ok_conditions (k : Keeper) (ctx : Context) (symbol : String)
    (from_ : AccAddress)
    (hok : (k.AcceptTokenOwnership ctx symbol from_).1.IsOK = true) :
    ∃ token account, ctx.store.token symbol = some token ∧
      k.accountKeeper.GetAccount token.Owner = some account ∧
      token.NewOwner = from_ ∧
      token.Flags.HasFlag ApprovedFlag = true ∧
      token.Flags.HasFlag FrozenFlag = false := by
  generalize hr : k.AcceptTokenOwnership ctx symbol from_ = r at hok
  unfold Keeper.AcceptTokenOwnership Keeper.acceptNonFungibleTokenOwnership at hr
  simp only [Keeper.mustGetTokenData, Keeper.getTokenData] at hr
  cases hget : ctx.store.token symbol with
  | none =>
    simp only [hget] at hr
    subst hr
    simp [Result.IsOK] at hok
  | some token =>
    simp only [hget] at hr
    repeat' split at hr
    all_goals subst hr
    all_goals simp_all [Result.IsOK]

/-- An acceptance of ownership succeeds when every check of the source passes:
one of the three ownership-transfer flags set, the account of the current
owner in the directory, the caller equal to `NewOwner`, Approved, not
Frozen. -/
theorem Keeper.acceptOwnership_succeeds (k : Keeper) (ctx : Context) (symbol : String)
    (from_ : AccAddress) (token : Token) (account : Account)
    (hget : ctx.store.token symbol = some token)
    (hpending : token.Flags.HasFlag AcceptTokenOwnershipFlag = true ∨
      token.Flags.HasFlag ApproveTransferTokenOwnershipFlag = true ∨
      token.Flags.HasFlag TransferTokenOwnershipFlag = true)
    (haccount : k.accountKeeper.GetAccount token.Owner = some account)
    (hnew : token.NewOwner = from_)
    (happroved : token.Flags.HasFlag ApprovedFlag = true)
    (hfrozen : token.Flags.HasFlag FrozenFlag = false) :
    (k.AcceptTokenOwnership ctx symbol from_).1.IsOK = true := by
  have hcheck : (!token.Flags.HasFlag AcceptTokenOwnershipFlag
      && !token.Flags.HasFlag ApproveTransferTokenOwnershipFlag
      && !token.Flags.HasFlag TransferTokenOwnershipFlag) = false := by
    rcases hpending with h | h | h <;> simp [h]
  unfold Keeper.AcceptTokenOwnership Keeper.acceptNonFungibleTokenOwnership
  simp only [Keeper.mustGetTokenData, Keeper.getTokenData, hget, hcheck, haccount]
  simp [hnew, happroved, hfrozen, Result.IsOK]

/-- An acceptance of ownership by a caller other than `NewOwner`, with a
transfer pending and the owner's account in the directory, returns
`ErrInvalidTokenNewOwner` and the context it was given. -/
theorem Keeper.acceptOwnership_wrong_caller (k : Keeper) (ctx : Context) (symbol : String)
    (from_ : AccAddress) (token : Token) (account : Account)
    (hget : ctx.store.token symbol = some token)
    (hpending : token.Flags.HasFlag AcceptTokenOwnershipFlag = true ∨
      token.Flags.HasFlag ApproveTransferTokenOwnershipFlag = true ∨
      token.Flags.HasFlag TransferTokenOwnershipFlag = true)
    (haccount : k.accountKeeper.GetAccount token.Owner = some account)
    (hother : token.NewOwner ≠ from_) :
    k.AcceptTokenOwnership ctx symbol from_
      = (Result.err Error.ErrInvalidTokenNewOwner, ctx) := by
  have hcheck : (!token.Flags.HasFlag AcceptTokenOwnershipFlag
      && !token.Flags.HasFlag ApproveTransferTokenOwnershipFlag
      && !token.Flags.HasFlag TransferTokenOwnershipFlag) = false := by
    rcases hpending with h | h | h <;> simp [h]
  unfold Keeper.AcceptTokenOwnership Keeper.acceptNonFungibleTokenOwnership
  simp only [Keeper.mustGetTokenData, Keeper.getTokenData, hget, hcheck, haccount]
  simp [hother]

/-! ## Endorsement and metadata: conditions of success -/

/-- An endorsement succeeds exactly when the caller's account and the Item
exist: the entry point reads nothing else. -/
theorem Keeper.endorsement_succeeds_iff (k : Keeper) (ctx : Context) (symbol : String)
    (from_ : AccAddress) (itemID : String) :
    (k.MakeEndorsement ctx symbol from_ itemID).1.IsOK = true ↔
      (k.accountKeeper.GetAccount from_).isSome = true ∧
      (ctx.store.item symbol itemID).isSome = true := by
  unfold Keeper.MakeEndorsement
  simp only [Keeper.getNonFungibleItem]
  cases k.accountKeeper.GetAccount from_ with
  | none => simp [Result.IsOK]
  | some account =>
    cases ctx.store.item symbol itemID with
    | none => simp [Result.IsOK]
    | some item => simp [Result.IsOK]

/-- An item metadata update succeeds exactly when the caller's account and
the Item exist and the owner resolved from the owner index is the caller. -/
theorem Keeper.updateItem_succeeds_iff (k : Keeper) (ctx : Context) (symbol : String)
    (from_ : AccAddress) (itemID metadata : String) :
    (k.UpdateItemMetadata ctx symbol from_ itemID metadata).1.IsOK = true ↔
      (k.accountKeeper.GetAccount from_).isSome = true ∧
      (ctx.store.item symbol itemID).isSome = true ∧
      k.getNonFungibleItemOwner ctx symbol itemID = from_ := by
  unfold Keeper.UpdateItemMetadata
  simp only [Keeper.getNonFungibleItem]
  cases haccount : k.accountKeeper.GetAccount from_ with
  | none => simp [Result.IsOK]
  | some account =>
    have haddr : account.Address = from_ :=
      AccountKeeper.getAccount_address k.accountKeeper from_ account haccount
    cases ctx.store.item symbol itemID with
    | none => simp [Result.IsOK]
    | some item =>
      by_cases howner : k.getNonFungibleItemOwner ctx symbol itemID = from_
      · simp [Result.IsOK, haddr, howner, AccAddress.Equals]
      · have hne : ¬ from_ = k.getNonFungibleItemOwner ctx symbol itemID :=
          fun h => howner h.symm
        simp [Result.IsOK, haddr, howner, hne, AccAddress.Equals]

/-- A token metadata update succeeds exactly when the caller's account
exists, the symbol resolves to a Token, the caller is its owner and the Token
is Approved. -/
theorem Keeper.updateToken_succeeds_iff (k : Keeper) (ctx : Context) (symbol : String)
    (from_ : AccAddress) (metadata : String) :
    (k.UpdateNFTMetadata ctx symbol from_ metadata).1.IsOK = true ↔
      (k.accountKeeper.GetAccount from_).isSome = true ∧
      ∃ token, ctx.store.token symbol = some token ∧
        token.Owner = from_ ∧
        token.Flags.HasFlag ApprovedFlag = true := by
  unfold Keeper.UpdateNFTMetadata
  simp only [Keeper.mustGetTokenData, Keeper.getTokenData]
  cases k.accountKeeper.GetAccount from_ with
  | none => simp [Result.IsOK]
  | some account =>
    cases ctx.store.token symbol with
    | none => simp [Result.IsOK]
    | some token =>
      by_cases howner : token.Owner = from_
      · by_cases happroved : token.Flags.HasFlag ApprovedFlag = true
        · simp [Result.IsOK, howner, happroved, AccAddress.Equals]
        · simp [Result.IsOK, howner, happroved, AccAddress.Equals]
      · simp [Result.IsOK, howner, AccAddress.Equals]

/-- The log line of a successful mint, transfer, burn, ownership transfer,
endorsement, item metadata update or token metadata update holds the sequence
number of the account of `from_` and the transaction bytes of the context. -/
theorem Keeper.log_of_invoking_account (k : Keeper) (ctx : Context) (symbol : String)
    (from_ to_ : AccAddress) (itemID properties metadata : String) :
    ((k.MintNonFungibleToken ctx symbol from_ to_ itemID properties metadata).1.IsOK = true →
      ∃ account, k.accountKeeper.GetAccount from_ = some account ∧
        (k.MintNonFungibleToken ctx symbol from_ to_ itemID properties metadata).1.Log
          = some (ResultLog.mk account.Sequence ctx.TxBytes)) ∧
    ((k.TransferNonFungibleToken ctx symbol from_ to_ itemID).1.IsOK = true →
      ∃ account, k.accountKeeper.GetAccount from_ = some account ∧
        (k.TransferNonFungibleToken ctx symbol from_ to_ itemID).1.Log
          = some (ResultLog.mk account.Sequence ctx.TxBytes)) ∧
    ((k.BurnNonFungibleToken ctx symbol from_ itemID).1.IsOK = true →
      ∃ account, k.accountKeeper.GetAccount from_ = some account ∧
        (k.BurnNonFungibleToken ctx symbol from_ itemID).1.Log
          = some (ResultLog.mk account.Sequence ctx.TxBytes)) ∧
    ((k.TransferTokenOwnership ctx symbol from_ to_).1.IsOK = true →
      ∃ account, k.accountKeeper.GetAccount from_ = some account ∧
        (k.TransferTokenOwnership ctx symbol from_ to_).1.Log
          = some (ResultLog.mk account.Sequence ctx.TxBytes)) ∧
    ((k.MakeEndorsement ctx symbol from_ itemID).1.IsOK = true →
      ∃ account, k.accountKeeper.GetAccount from_ = some account ∧
        (k.MakeEndorsement ctx symbol from_ itemID).1.Log
          = some (ResultLog.mk account.Sequence ctx.TxBytes)) ∧
    ((k.UpdateItemMetadata ctx symbol from_ itemID metadata).1.IsOK = true →
      ∃ account, k.accountKeeper.GetAccount from_ = some account ∧
        (k.UpdateItemMetadata ctx symbol from_ itemID metadata).1.Log
          = some (ResultLog.mk account.Sequence ctx.TxBytes)) ∧
    ((k.UpdateNFTMetadata ctx symbol from_ metadata).1.IsOK = true →
      ∃ account, k.accountKeeper.GetAccount from_ = some account ∧
        (k.UpdateNFTMetadata ctx symbol from_ metadata).1.Log
          = some (ResultLog.mk account.Sequence ctx.TxBytes)) := by
  refine ⟨?_, ?_, ?_, ?_, ?_, ?_, ?_⟩
  · intro hok
    generalize hr : k.MintNonFungibleToken ctx symbol from_ to_ itemID properties metadata = r
      at hok ⊢
    unfold Keeper.MintNonFungibleToken at hr
    simp only [Keeper.getTokenData] at hr
    repeat' split at hr
    all_goals subst hr
    all_goals simp_all [Result.IsOK, Result.Log]
  · intro hok
    generalize hr : k.TransferNonFungibleToken ctx symbol from_ to_ itemID = r at hok ⊢
    unfold Keeper.TransferNonFungibleToken at hr
    simp only [Keeper.getTokenData] at hr
    repeat' split at hr
    all_goals subst hr
    all_goals simp_all [Result.IsOK, Result.Log]
  · intro hok
    generalize hr : k.BurnNonFungibleToken ctx symbol from_ itemID = r at hok ⊢
    unfold Keeper.BurnNonFungibleToken at hr
    simp only [Keeper.getTokenData] at hr
    repeat' split at hr
    all_goals subst hr
    all_goals simp_all [Result.IsOK, Result.Log]
  · intro hok
    generalize hr : k.TransferTokenOwnership ctx symbol from_ to_ = r at hok ⊢
    unfold Keeper.TransferTokenOwnership Keeper.transferNonFungibleTokenOwnership at hr
    simp only [Keeper.mustGetTokenData, Keeper.getTokenData] at hr
    cases hget : ctx.store.token symbol with
    | none =>
      simp only [hget] at hr
      subst hr
      simp [Result.IsOK] at hok
    | some token =>
      simp only [hget] at hr
      repeat' split at hr
      all_goals subst hr
      all_goals simp_all [Result.IsOK, Result.Log, AccAddress.Equals]
  · intro hok
    generalize hr : k.MakeEndorsement ctx symbol from_ itemID = r at hok ⊢
    unfold Keeper.MakeEndorsement at hr
    repeat' split at hr
    all_goals subst hr
    all_goals simp_all [Result.IsOK, Result.Log]
  · intro hok
    generalize hr : k.UpdateItemMetadata ctx symbol from_ itemID metadata = r at hok ⊢
    unfold Keeper.UpdateItemMetadata at hr
    repeat' split at hr
    all_goals subst hr
    all_goals simp_all [Result.IsOK, Result.Log]
    split_ifs at hok ⊢ with h
    rfl
  · intro hok
    generalize hr : k.UpdateNFTMetadata ctx symbol from_ metadata = r at hok ⊢
    unfold Keeper.UpdateNFTMetadata at hr
    simp only [Keeper.mustGetTokenData, Keeper.getTokenData] at hr
    cases hget : ctx.store.token symbol with
    | none =>
      simp only [hget] at hr
      repeat' split at hr
      all_goals subst hr
      all_goals simp_all [Result.IsOK, Result.Log]
    | some token =>
      simp only [hget] at hr
      repeat' split at hr
      all_goals subst hr
      all_goals simp_all [Result.IsOK, Result.Log]

/-- The log line of a successful acceptance of ownership holds the sequence
number of the account of the Token's owner before the call. -/
theorem Keeper.acceptOwnership_log (k : Keeper) (ctx : Context) (symbol : String)
    (from_ : AccAddress)
    (hok : (k.AcceptTokenOwnership ctx symbol from_).1.IsOK = true) :
    ∃ token account, ctx.store.token symbol = some token ∧
      k.accountKeeper.GetAccount token.Owner = some account ∧
      (k.AcceptTokenOwnership ctx symbol from_).1.Log
        = some (ResultLog.mk account.Sequence ctx.TxBytes) := by
  generalize hr : k.AcceptTokenOwnership ctx symbol from_ = r at hok ⊢
  unfold Keeper.AcceptTokenOwnership Keeper.acceptNonFungibleTokenOwnership at hr
  simp only [Keeper.mustGetTokenData, Keeper.getTokenData] at hr
  cases hget : ctx.store.token symbol with
  | none =>
    simp only [hget] at hr
    subst hr
    simp [Result.IsOK] at hok
  | some token =>
    simp only [hget] at hr
    repeat' split at hr
    all_goals subst hr
    all_goals simp_all [Result.IsOK, Result.Log]

/-! ## Store invariants along a run -/

/-- A call that fails returns the context it was given. -/
theorem Keeper.run_failure_keeps (k : Keeper) (ctx : Context) (c : Call)
    (hfail : (k.run ctx c).1.IsOK = false) : (k.run ctx c).2 = ctx := by
  cases c with
  | Mint s from_ to_ itemID properties metadata =>
    exact k.mint_failure_keeps ctx s from_ to_ itemID properties metadata hfail
  | Transfer s from_ to_ itemID => exact k.transfer_failure_keeps ctx s from_ to_ itemID hfail
  | Burn s from_ itemID => exact k.burn_failure_keeps ctx s from_ itemID hfail
  | TransferOwnership s from_ to_ =>
    exact k.transferOwnership_failure_keeps ctx s from_ to_ hfail
  | AcceptOwnership s from_ => exact k.acceptOwnership_failure_keeps ctx s from_ hfail
  | Endorse s from_ itemID => exact k.endorsement_keeps ctx s from_ itemID
  | UpdateItem s from_ itemID metadata =>
    exact k.updateItem_failure_keeps ctx s from_ itemID metadata hfail
  | UpdateToken s from_ metadata => exact k.updateToken_failure_keeps ctx s from_ metadata hfail

/-- A successful mint was made on an Approved Token. -/
theorem Keeper.mint_ok_approved (k : Keeper) (ctx : Context) (symbol : String)
    (from_ to_ : AccAddress) (itemID properties metadata : String)
    (hok : (k.MintNonFungibleToken ctx symbol from_ to_ itemID properties metadata).1.IsOK
      = true) :
    ∃ token, ctx.store.token symbol = some token ∧
      token.Flags.HasFlag ApprovedFlag = true := by
  generalize hr : k.MintNonFungibleToken ctx symbol from_ to_ itemID properties metadata = r at hok
  unfold Keeper.MintNonFungibleToken at hr
  simp only [Keeper.getTokenData] at hr
  repeat' split at hr
  all_goals subst hr
  all_goals simp_all [Result.IsOK]

/-- One call keeps every Token under its own symbol. -/
theorem Keeper.run_symbolKeyed (k : Keeper) (ctx : Context) (c : Call)
    (hkeyed : ctx.store.SymbolKeyed) : (k.run ctx c).2.store.SymbolKeyed := by
  by_cases hok : (k.run ctx c).1.IsOK = true
  swap
  · rw [k.run_failure_keeps ctx c (by simpa using hok)]
    exact hkeyed
  cases c with
  | Mint s from_ to_ itemID properties metadata =>
    obtain ⟨token0, hget0, _, htoken, _, _⟩ :=
      k.mint_ok_shape ctx s from_ to_ itemID properties metadata hok
    have hk0 : token0.Symbol = s := hkeyed s token0 hget0
    simp only [Keeper.run, KVStore.SymbolKeyed, htoken]
    intro s1 t1 h1
    split at h1
    · rename_i hs
      cases h1
      simp [hk0, hs]
    · exact hkeyed s1 t1 h1
  | Transfer s from_ to_ itemID =>
    obtain ⟨_, _, _, _, _, _, _, htoken, _, _⟩ := k.transfer_ok_shape ctx s from_ to_ itemID hok
    simp only [Keeper.run, KVStore.SymbolKeyed, htoken]
    exact hkeyed
  | Burn s from_ itemID =>
    obtain ⟨htoken, _, _⟩ := k.burn_ok_shape ctx s from_ itemID hok
    simp only [Keeper.run, KVStore.SymbolKeyed, htoken]
    exact hkeyed
  | TransferOwnership s from_ to_ =>
    obtain ⟨token0, hget0, htoken, _⟩ := k.transferOwnership_ok_shape ctx s from_ to_ hok
    simp only [Keeper.run, KVStore.SymbolKeyed, htoken]
    intro s1 t1 h1
    split at h1
    · rename_i hs
      cases h1
      simp [hs]
    · exact hkeyed s1 t1 h1
  | AcceptOwnership s from_ =>
    obtain ⟨token0, hget0, htoken, _⟩ := k.acceptOwnership_ok_shape ctx s from_ hok
    simp only [Keeper.run, KVStore.SymbolKeyed, htoken]
    intro s1 t1 h1
    split at h1
    · rename_i hs
      cases h1
      simp [hs]
    · exact hkeyed s1 t1 h1
  | Endorse s from_ itemID =>
    simp only [Keeper.run]
    rw [k.endorsement_keeps ctx s from_ itemID]
    exact hkeyed
  | UpdateItem s from_ itemID metadata =>
    obtain ⟨_, _, htoken, _⟩ := k.updateItem_ok_shape ctx s from_ itemID metadata hok
    simp only [Keeper.run, KVStore.SymbolKeyed, htoken]
    exact hkeyed
  | UpdateToken s from_ metadata =>
    obtain ⟨token0, hget0, htoken, _⟩ := k.updateToken_ok_shape ctx s from_ metadata hok
    have hk0 : token0.Symbol = s := hkeyed s token0 hget0
    simp only [Keeper.run, KVStore.SymbolKeyed, htoken]
    intro s1 t1 h1
    split at h1
    · rename_i hs
      cases h1
      simp [hk0, hs]
    · exact hkeyed s1 t1 h1

/-- One call keeps every Item body under its own itemID. -/
theorem Keeper.run_itemKeyed (k : Keeper) (ctx : Context) (c : Call)
    (hitems : ctx.store.ItemKeyed) : (k.run ctx c).2.store.ItemKeyed := by
  by_cases hok : (k.run ctx c).1.IsOK = true
  swap
  · rw [k.run_failure_keeps ctx c (by simpa using hok)]
    exact hitems
  cases c with
  | Mint s from_ to_ itemID properties metadata =>
    obtain ⟨token0, _, _, _, hitem, _⟩ :=
      k.mint_ok_shape ctx s from_ to_ itemID properties metadata hok
    simp only [Keeper.run, KVStore.ItemKeyed, hitem]
    intro s1 i1 item1 h1
    split at h1
    · rename_i hs
      cases h1
      exact hs.2.symm
    · exact hitems s1 i1 item1 h1
  | Transfer s from_ to_ itemID =>
    obtain ⟨_, item0, _, hitem0, _, _, _, _, hitem, _⟩ :=
      k.transfer_ok_shape ctx s from_ to_ itemID hok
    simp only [Keeper.run, KVStore.ItemKeyed, hitem]
    intro s1 i1 item1 h1
    split at h1
    · rename_i hs
      cases h1
      rw [hs.2]
      exact hitems s itemID item0 hitem0
    · exact hitems s1 i1 item1 h1
  | Burn s from_ itemID =>
    obtain ⟨_, hitem, _⟩ := k.burn_ok_shape ctx s from_ itemID hok
    simp only [Keeper.run, KVStore.ItemKeyed, hitem]
    intro s1 i1 item1 h1
    split at h1
    · cases h1
    · exact hitems s1 i1 item1 h1
  | TransferOwnership s from_ to_ =>
    obtain ⟨_, _, _, hitem⟩ := k.transferOwnership_ok_shape ctx s from_ to_ hok
    simp only [Keeper.run, KVStore.ItemKeyed, hitem]
    exact hitems
  | AcceptOwnership s from_ =>
    obtain ⟨_, _, _, hitem⟩ := k.acceptOwnership_ok_shape ctx s from_ hok
    simp only [Keeper.run, KVStore.ItemKeyed, hitem]
    exact hitems
  | Endorse s from_ itemID =>
    simp only [Keeper.run]
    rw [k.endorsement_keeps ctx s from_ itemID]
    exact hitems
  | UpdateItem s from_ itemID metadata =>
    obtain ⟨item0, hitem0, _, hitem⟩ := k.updateItem_ok_shape ctx s from_ itemID metadata hok
    simp only [Keeper.run, KVStore.ItemKeyed, hitem]
    intro s1 i1 item1 h1
    split at h1
    · rename_i hs
      cases h1
      exact hs.2.symm
    · exact hitems s1 i1 item1 h1
  | UpdateToken s from_ metadata =>
    obtain ⟨_, _, _, hitem⟩ := k.updateToken_ok_shape ctx s from_ metadata hok
    simp only [Keeper.run, KVStore.ItemKeyed, hitem]
    exact hitems

/-- One call keeps every Item body under an Approved Token, in a store that
keeps every Token under its own symbol: an Item is created by a mint only,
which requires the Approved flag, and no call clears that flag. -/
theorem Keeper.run_itemsUnderApproved (k : Keeper) (ctx : Context) (c : Call)
    (hkeyed : ctx.store.SymbolKeyed) (hinv : ctx.store.ItemsUnderApproved) :
    (k.run ctx c).2.store.ItemsUnderApproved := by
  by_cases hok : (k.run ctx c).1.IsOK = true
  swap
  · rw [k.run_failure_keeps ctx c (by simpa using hok)]
    exact hinv
  cases c with
  | Mint s from_ to_ itemID properties metadata =>
    obtain ⟨token0, hget0, _, htoken, hitem, _⟩ :=
      k.mint_ok_shape ctx s from_ to_ itemID properties metadata hok
    obtain ⟨token1, hget1, happroved⟩ :=
      k.mint_ok_approved ctx s from_ to_ itemID properties metadata hok
    rw [hget0] at hget1
    cases hget1
    have hk0 : token0.Symbol = s := hkeyed s token0 hget0
    simp only [Keeper.run, KVStore.ItemsUnderApproved, htoken, hitem]
    intro s1 i1 item1 h1
    by_cases hs : s1 = s
    · exact ⟨_, if_pos hs, happroved⟩
    · rw [if_neg hs]
      rw [if_neg (fun h => hs (h.1.trans hk0))] at h1
      exact hinv s1 i1 item1 h1
  | Transfer s from_ to_ itemID =>
    obtain ⟨_, item0, _, hitem0, _, _, _, htoken, hitem, _⟩ :=
      k.transfer_ok_shape ctx s from_ to_ itemID hok
    simp only [Keeper.run, KVStore.ItemsUnderApproved, htoken, hitem]
    intro s1 i1 item1 h1
    split at h1
    · rename_i hs
      rw [hs.1]
      exact hinv s itemID item0 hitem0
    · exact hinv s1 i1 item1 h1
  | Burn s from_ itemID =>
    obtain ⟨htoken, hitem, _⟩ := k.burn_ok_shape ctx s from_ itemID hok
    simp only [Keeper.run, KVStore.ItemsUnderApproved, htoken, hitem]
    intro s1 i1 item1 h1
    split at h1
    · cases h1
    · exact hinv s1 i1 item1 h1
  | TransferOwnership s from_ to_ =>
    obtain ⟨token0, hget0, htoken, hitem⟩ := k.transferOwnership_ok_shape ctx s from_ to_ hok
    obtain ⟨token1, _, hget1, _, _, happroved, _⟩ :=
      k.transferOwnership_ok_conditions ctx s from_ to_ hok
    rw [hget0] at hget1
    cases hget1
    simp only [Keeper.run, KVStore.ItemsUnderApproved, htoken, hitem]
    intro s1 i1 item1 h1
    by_cases hs : s1 = token0.Symbol
    · refine ⟨_, if_pos hs, ?_⟩
      dsimp only
      rw [Bitmask.hasFlag_addFlag_of_disjoint _ _ _ (by decide)]
      exact happroved
    · rw [if_neg hs]
      exact hinv s1 i1 item1 h1
  | AcceptOwnership s from_ =>
    obtain ⟨token0, hget0, htoken, hitem⟩ := k.acceptOwnership_ok_shape ctx s from_ hok
    obtain ⟨token1, _, hget1, _, _, happroved, _⟩ :=
      k.acceptOwnership_ok_conditions ctx s from_ hok
    rw [hget0] at hget1
    cases hget1
    simp only [Keeper.run, KVStore.ItemsUnderApproved, htoken, hitem]
    intro s1 i1 item1 h1
    by_cases hs : s1 = token0.Symbol
    · refine ⟨_, if_pos hs, ?_⟩
      dsimp only
      rw [Bitmask.hasFlag_removeFlag_of_disjoint _ _ _ (by decide),
        Bitmask.hasFlag_removeFlag_of_disjoint _ _ _ (by decide),
        Bitmask.hasFlag_removeFlag_of_disjoint _ _ _ (by decide)]
      exact happroved
    · rw [if_neg hs]
      exact hinv s1 i1 item1 h1
  | Endorse s from_ itemID =>
    simp only [Keeper.run]
    rw [k.endorsement_keeps ctx s from_ itemID]
    exact hinv
  | UpdateItem s from_ itemID metadata =>
    obtain ⟨item0, hitem0, htoken, hitem⟩ :=
      k.updateItem_ok_shape ctx s from_ itemID metadata hok
    simp only [Keeper.run, KVStore.ItemsUnderApproved, htoken, hitem]
    intro s1 i1 item1 h1
    split at h1
    · rename_i hs
      rw [hs.1]
      exact hinv s itemID item0 hitem0
    · exact hinv s1 i1 item1 h1
  | UpdateToken s from_ metadata =>
    obtain ⟨token0, hget0, htoken, hitem⟩ := k.updateToken_ok_shape ctx s from_ metadata hok
    obtain ⟨_, token1, hget1, _, happroved⟩ :=
      (k.updateToken_succeeds_iff ctx s from_ metadata).mp hok
    rw [hget0] at hget1
    cases hget1
    simp only [Keeper.run, KVStore.ItemsUnderApproved, htoken, hitem]
    intro s1 i1 item1 h1
    by_cases hs : s1 = s
    · exact ⟨_, if_pos hs, happroved⟩
    · rw [if_neg hs]
      exact hinv s1 i1 item1 h1

/-- A run of calls keeps the three store invariants: every Token under its
own symbol, every Item body under its own itemID, every Item body under an
Approved Token. -/
theorem Keeper.runAll_invariants (k : Keeper) (cs : List Call) :
    ∀ ctx : Context, ctx.store.SymbolKeyed →
      (ctx.store.ItemKeyed → (k.runAll ctx cs).store.ItemKeyed) ∧
      (ctx.store.ItemsUnderApproved → (k.runAll ctx cs).store.ItemsUnderApproved) ∧
      (k.runAll ctx cs).store.SymbolKeyed := by
  induction cs with
  | nil => intro ctx hkeyed; exact ⟨fun h => h, fun h => h, hkeyed⟩
  | cons c cs ih =>
    intro ctx hkeyed
    obtain ⟨h1, h2, h3⟩ := ih (k.run ctx c).2 (k.run_symbolKeyed ctx c hkeyed)
    exact ⟨fun h => h1 (k.run_itemKeyed ctx c h),
      fun h => h2 (k.run_itemsUnderApproved ctx c hkeyed h), h3⟩

/-- A store without Item bodies has every Item body under an Approved Token
and under its own itemID. -/
theorem KVStore.invariants_of_no_items (s : KVStore)
    (h : ∀ symbol itemID, s.item symbol itemID = none) :
    s.ItemsUnderApproved ∧ s.ItemKeyed := by
  constructor
  · intro symbol itemID item hitem
    rw [h symbol itemID] at hitem
    cases hitem
  · intro symbol itemID item hitem
    rw [h symbol itemID] at hitem
    cases hitem

/-- A transfer fails on a Token that is not Approved, in a store whose Item
bodies all lie under Approved Tokens: there is no Item to transfer. -/
theorem Keeper.transfer_fails_on_unapproved (k : Keeper) (ctx : Context) (symbol : String)
    (from_ to_ : AccAddress) (itemID : String) (token : Token)
    (hinv : ctx.store.ItemsUnderApproved)
    (hget : ctx.store.token symbol = some token)
    (hunapproved : token.Flags.HasFlag ApprovedFlag = false) :
    (k.TransferNonFungibleToken ctx symbol from_ to_ itemID).1.IsOK = false := by
  by_cases hok : (k.TransferNonFungibleToken ctx symbol from_ to_ itemID).1.IsOK = true
  · obtain ⟨_, item0, _, hitem0, _⟩ := k.transfer_ok_shape ctx symbol from_ to_ itemID hok
    obtain ⟨token1, hget1, happroved⟩ := hinv symbol itemID item0 hitem0
    rw [hget] at hget1
    cases hget1
    rw [hunapproved] at happroved
    cases happroved
  · simpa using hok

/-! ## The transfer counter counts the transfers -/

/-- One call and the transfer counter of the Item `(symbol, itemID)`: when the
counter, if the Item exists, is `n` before the call, then after the call it
is, if the Item exists, `n + 1` for a successful transfer of the Item, zero
for a successful mint of the Item, and `n` in every other case. -/
theorem Keeper.run_counter (k : Keeper) (ctx : Context) (c : Call) (symbol itemID : String)
    (n : Nat) (hkeyed : ctx.store.SymbolKeyed) (hitems : ctx.store.ItemKeyed)
    (hcount : ∀ item, ctx.store.item symbol itemID = some item → item.TransferLimit = n) :
    ∀ item, (k.run ctx c).2.store.item symbol itemID = some item →
      item.TransferLimit =
        (if (k.run ctx c).1.IsOK then
          (if c.IsTransferOf symbol itemID then n + 1
            else if c.IsMintOf symbol itemID then 0 else n)
        else n) := by
  by_cases hok : (k.run ctx c).1.IsOK = true
  swap
  · have hfail : (k.run ctx c).1.IsOK = false := by simpa using hok
    rw [k.run_failure_keeps ctx c hfail, hfail]
    simpa using hcount
  rw [hok]
  simp only [if_true]
  cases c with
  | Mint s from_ to_ i properties metadata =>
    obtain ⟨token0, hget0, _, _, hitem, _⟩ :=
      k.mint_ok_shape ctx s from_ to_ i properties metadata hok
    have hk0 : token0.Symbol = s := hkeyed s token0 hget0
    simp only [Keeper.run, Call.IsTransferOf, Call.IsMintOf, hitem, hk0]
    intro item h1
    by_cases hs : symbol = s ∧ itemID = i
    · rw [if_pos hs] at h1
      cases h1
      simp [hs.1, hs.2]
    · rw [if_neg hs] at h1
      have hne : ¬ (s = symbol ∧ i = itemID) := fun h => hs ⟨h.1.symm, h.2.symm⟩
      simp [hne, hcount item h1]
  | Transfer s from_ to_ i =>
    obtain ⟨_, item0, _, hitem0, _, _, _, _, hitem, _⟩ :=
      k.transfer_ok_shape ctx s from_ to_ i hok
    simp only [Keeper.run, Call.IsTransferOf, Call.IsMintOf, hitem]
    intro item h1
    by_cases hs : symbol = s ∧ itemID = i
    · rw [if_pos hs] at h1
      cases h1
      obtain ⟨hs1, hs2⟩ := hs
      subst hs1
      subst hs2
      simp [hcount item0 hitem0]
    · rw [if_neg hs] at h1
      have hne : ¬ (s = symbol ∧ i = itemID) := fun h => hs ⟨h.1.symm, h.2.symm⟩
      simp [hne, hcount item h1]
  | Burn s from_ i =>
    obtain ⟨_, hitem, _⟩ := k.burn_ok_shape ctx s from_ i hok
    simp only [Keeper.run, Call.IsTransferOf, Call.IsMintOf, hitem]
    intro item h1
    split at h1
    · cases h1
    · simp [hcount item h1]
  | TransferOwnership s from_ to_ =>
    obtain ⟨_, _, _, hitem⟩ := k.transferOwnership_ok_shape ctx s from_ to_ hok
    simp only [Keeper.run, Call.IsTransferOf, Call.IsMintOf, hitem]
    intro item h1
    simp [hcount item h1]
  | AcceptOwnership s from_ =>
    obtain ⟨_, _, _, hitem⟩ := k.acceptOwnership_ok_shape ctx s from_ hok
    simp only [Keeper.run, Call.IsTransferOf, Call.IsMintOf, hitem]
    intro item h1
    simp [hcount item h1]
  | Endorse s from_ i =>
    simp only [Keeper.run, Call.IsTransferOf, Call.IsMintOf]
    rw [k.endorsement_keeps ctx s from_ i]
    intro item h1
    simp [hcount item h1]
  | UpdateItem s from_ i metadata =>
    obtain ⟨item0, hitem0, _, hitem⟩ := k.updateItem_ok_shape ctx s from_ i metadata hok
    have hid : item0.ID = i := hitems s i item0 hitem0
    simp only [Keeper.run, Call.IsTransferOf, Call.IsMintOf, hitem, hid]
    intro item h1
    by_cases hs : symbol = s ∧ itemID = i
    · rw [if_pos hs] at h1
      cases h1
      obtain ⟨hs1, hs2⟩ := hs
      subst hs1
      subst hs2
      simp [hcount item0 hitem0]
    · rw [if_neg hs] at h1
      simp [hcount item h1]
  | UpdateToken s from_ metadata =>
    obtain ⟨_, _, _, hitem⟩ := k.updateToken_ok_shape ctx s from_ metadata hok
    simp only [Keeper.run, Call.IsTransferOf, Call.IsMintOf, hitem]
    intro item h1
    simp [hcount item h1]

/-- Along any run of calls the transfer counter of an Item is the number of
successful transfers of it since it was last minted. -/
theorem Keeper.runAll_counter (k : Keeper) (symbol itemID : String) (cs : List Call) :
    ∀ (ctx : Context) (n : Nat), ctx.store.SymbolKeyed → ctx.store.ItemKeyed →
      (∀ item, ctx.store.item symbol itemID = some item → item.TransferLimit = n) →
      ∀ item, (k.runAll ctx cs).store.item symbol itemID = some item →
        item.TransferLimit = k.transfersSinceMint symbol itemID ctx n cs := by
  induction cs with
  | nil =>
    intro ctx n _ _ hcount item hitem
    exact hcount item hitem
  | cons c cs ih =>
    intro ctx n hkeyed hitems hcount item hitem
    exact ih (k.run ctx c).2 _ (k.run_symbolKeyed ctx c hkeyed) (k.run_itemKeyed ctx c hitems)
      (k.run_counter ctx c symbol itemID n hkeyed hitems hcount) item hitem

/-- Mint, burn, transfer of ownership and acceptance of ownership all fail on
a Token whose Approved flag is not set. -/
theorem unapproved_token_rejects_mint_burn_ownership (k : Keeper) (ctx : Context)
    (symbol : String) (token : Token)
    (hget : ctx.store.token symbol = some token)
    (hunapproved : token.Flags.HasFlag ApprovedFlag = false)
    (from_ to_ : AccAddress) (itemID properties metadata : String) :
    (k.MintNonFungibleToken ctx symbol from_ to_ itemID properties metadata).1.IsOK = false ∧
    (k.BurnNonFungibleToken ctx symbol from_ itemID).1.IsOK = false ∧
    (k.TransferTokenOwnership ctx symbol from_ to_).1.IsOK = false ∧
    (k.AcceptTokenOwnership ctx symbol from_).1.IsOK = false := by
  refine ⟨?_, ?_, ?_, ?_⟩
  · generalize hr : k.MintNonFungibleToken ctx symbol from_ to_ itemID properties metadata = r
    unfold Keeper.MintNonFungibleToken at hr
    simp only [Keeper.getTokenData, hget] at hr
    repeat' split at hr
    all_goals (subst hr; simp_all [Result.IsOK])
  · generalize hr : k.BurnNonFungibleToken ctx symbol from_ itemID = r
    unfold Keeper.BurnNonFungibleToken at hr
    simp only [Keeper.getTokenData, hget] at hr
    repeat' split at hr
    all_goals (subst hr; simp_all [Result.IsOK])
  · generalize hr : k.TransferTokenOwnership ctx symbol from_ to_ = r
    unfold Keeper.TransferTokenOwnership Keeper.transferNonFungibleTokenOwnership at hr
    simp only [Keeper.mustGetTokenData, Keeper.getTokenData, hget, Token.IsApproved] at hr
    repeat' split at hr
    all_goals (subst hr; simp_all [Result.IsOK])
  · generalize hr : k.AcceptTokenOwnership ctx symbol from_ = r
    unfold Keeper.AcceptTokenOwnership Keeper.acceptNonFungibleTokenOwnership at hr
    simp only [Keeper.mustGetTokenData, Keeper.getTokenData, hget] at hr
    repeat' split at hr
    all_goals (subst hr; simp_all [Result.IsOK])

/-- The example contexts keep their token under its own symbol. -/
theorem exCtx_symbolKeyed (token : Token) (h : token.Symbol = "TNFT") :
    (exCtx token).store.SymbolKeyed := by
  intro symbol token1 hget
  simp only [exCtx, KVStore.empty] at hget
  split at hget
  · rename_i hs
    cases hget
    rw [h, hs]
  · cases hget

/-- One call keeps the count of transfers of an Item since its mint within
the transfer limit of the Token: a transfer succeeds only below the limit. -/
theorem Keeper.run_counter_le (k : Keeper) (ctx : Context) (c : Call) (symbol itemID : String)
    (limit : Uint) (n : Nat) (h : ctx.WithinTransferLimit symbol limit)
    (hcount : ∀ item, ctx.store.item symbol itemID = some item → item.TransferLimit = n)
    (hle : n ≤ limit) :
    (if (k.run ctx c).1.IsOK then
      (if c.IsTransferOf symbol itemID then n + 1
        else if c.IsMintOf symbol itemID then 0 else n)
    else n) ≤ limit := by
  split_ifs with hok htransfer hmint
  · cases c with
    | Transfer s from_ to_ i =>
      simp only [Call.IsTransferOf, decide_eq_true_eq] at htransfer
      obtain ⟨hs, hi⟩ := htransfer
      subst hs
      subst hi
      obtain ⟨token0, item0, hget0, hitem0, _, _, hlt, _⟩ :=
        k.transfer_ok_shape ctx s from_ to_ i hok
      obtain ⟨_, ⟨token, hget, hlimit⟩, _⟩ := h
      rw [hget0] at hget
      cases hget
      rw [hcount item0 hitem0, hlimit] at hlt
      exact Nat.succ_le_of_lt hlt
    | Mint s from_ to_ i properties metadata => simp [Call.IsTransferOf] at htransfer
    | Burn s from_ i => simp [Call.IsTransferOf] at htransfer
    | TransferOwnership s from_ to_ => simp [Call.IsTransferOf] at htransfer
    | AcceptOwnership s from_ => simp [Call.IsTransferOf] at htransfer
    | Endorse s from_ i => simp [Call.IsTransferOf] at htransfer
    | UpdateItem s from_ i metadata => simp [Call.IsTransferOf] at htransfer
    | UpdateToken s from_ metadata => simp [Call.IsTransferOf] at htransfer
  · exact Nat.zero_le _
  · exact hle
  · exact hle

/-- Along any run of calls the number of successful transfers of an Item
since its mint stays within the transfer limit of the Token. -/
theorem Keeper.runAll_counter_le (k : Keeper) (symbol itemID : String) (limit : Uint)
    (cs : List Call) :
    ∀ (ctx : Context) (n : Nat), ctx.WithinTransferLimit symbol limit → ctx.store.ItemKeyed →
      (∀ item, ctx.store.item symbol itemID = some item → item.TransferLimit = n) →
      n ≤ limit →
      k.transfersSinceMint symbol itemID ctx n cs ≤ limit := by
  induction cs with
  | nil =>
    intro ctx n _ _ _ hle
    exact hle
  | cons c cs ih =>
    intro ctx n h hitems hcount hle
    exact ih (k.run ctx c).2 _ (k.run_within_limit ctx c symbol limit h)
      (k.run_itemKeyed ctx c hitems)
      (k.run_counter ctx c symbol itemID n h.1 hitems hcount)
      (k.run_counter_le ctx c symbol itemID limit n h hcount hle)

/-- The example context with one Item keeps the counter of that Item within
the transfer limit of the example token, when it is so at the start. -/
theorem exCtxItem_withinTransferLimit (flags : Bitmask) (mintLimit transferLimit : Uint)
    (owner : AccAddress) (count : Uint) (h : count ≤ transferLimit) :
    (exCtxItem (exToken flags mintLimit transferLimit) owner count).WithinTransferLimit
      "TNFT" transferLimit := by
  refine ⟨?_, ⟨exToken flags mintLimit transferLimit, rfl, rfl⟩, ?_⟩
  · intro symbol token hget
    simp only [exCtxItem] at hget
    split at hget
    · rename_i hs
      cases hget
      rw [hs]
      rfl
    · cases hget
  · intro itemID item hitem
    simp only [exCtxItem] at hitem
    split at hitem
    · cases hitem
      exact h
    · cases hitem

/-- The example context with one Item keeps that Item under its own itemID. -/
theorem exCtxItem_itemKeyed (token : Token) (owner : AccAddress) (count : Uint) :
    (exCtxItem token owner count).store.ItemKeyed := by
  intro symbol itemID item hitem
  simp only [exCtxItem] at hitem
  split at hitem
  · rename_i hs
    cases hitem
    exact hs.2.symm
  · cases hitem

/-- With a transfer in flight `IsTokenOwnershipTransferrable` returns false and
the context it was given. -/
theorem Keeper.isTokenOwnershipTransferrable_in_flight (k : Keeper) (ctx : Context)
    (symbol : String) (token : Token)
    (hget : ctx.store.token symbol = some token)
    (hpending : token.Flags.HasFlag TransferTokenOwnershipFlag = true ∨
      token.Flags.HasFlag AcceptTokenOwnershipFlag = true ∨
      token.Flags.HasFlag ApproveTransferTokenOwnershipFlag = true) :
    k.IsTokenOwnershipTransferrable ctx symbol = (false, ctx) := by
  have h : (token.Flags.HasFlag TransferTokenOwnershipFlag
      || token.Flags.HasFlag AcceptTokenOwnershipFlag
      || token.Flags.HasFlag ApproveTransferTokenOwnershipFlag) = true := by
    rcases hpending with h | h | h <;> simp [h]
  unfold Keeper.IsTokenOwnershipTransferrable
  simp only [Keeper.mustGetTokenData, Keeper.getTokenData, hget, h, if_true]

/-- With no transfer in flight `IsTokenOwnershipTransferrable` returns true and
the context it was given. -/
theorem Keeper.isTokenOwnershipTransferrable_idle (k : Keeper) (ctx : Context)
    (symbol : String) (token : Token)
    (hget : ctx.store.token symbol = some token)
    (h1 : token.Flags.HasFlag TransferTokenOwnershipFlag = false)
    (h2 : token.Flags.HasFlag AcceptTokenOwnershipFlag = false)
    (h3 : token.Flags.HasFlag ApproveTransferTokenOwnershipFlag = false) :
    k.IsTokenOwnershipTransferrable ctx symbol = (true, ctx) := by
  unfold Keeper.IsTokenOwnershipTransferrable
  simp [Keeper.mustGetTokenData, Keeper.getTokenData, hget, h1, h2, h3]

/-! ## Claims -/

/-- C1. Atomicity on failure: whenever one of the eight keeper entry points
(mint, transfer, burn, transfer ownership, accept ownership, endorsement,
item metadata update, token metadata update) returns a failure result, the
store after the call is the store before the call, for every store, account
directory and arguments. -/
theorem failure_leaves_store_unchanged (k : Keeper) (ctx : Context) (c : Call)
    (hfail : (k.run ctx c).1.IsOK = false) : (k.run ctx c).2.store = ctx.store := by
  have h : (k.run ctx c).2 = ctx := by
    cases c with
    | Mint symbol from_ to_ itemID properties metadata =>
      exact k.mint_failure_keeps ctx symbol from_ to_ itemID properties metadata hfail
    | Transfer symbol from_ to_ itemID =>
      exact k.transfer_failure_keeps ctx symbol from_ to_ itemID hfail
    | Burn symbol from_ itemID => exact k.burn_failure_keeps ctx symbol from_ itemID hfail
    | TransferOwnership symbol from_ to_ =>
      exact k.transferOwnership_failure_keeps ctx symbol from_ to_ hfail
    | AcceptOwnership symbol from_ => exact k.acceptOwnership_failure_keeps ctx symbol from_ hfail
    | Endorse symbol from_ itemID => exact k.endorsement_keeps ctx symbol from_ itemID
    | UpdateItem symbol from_ itemID metadata =>
      exact k.updateItem_failure_keeps ctx symbol from_ itemID metadata hfail
    | UpdateToken symbol from_ metadata =>
      exact k.updateToken_failure_keeps ctx symbol from_ metadata hfail
  rw [h]

/-- Witness of C1: a mint under an unregistered symbol fails and leaves the
store as it was. -/
theorem failure_leaves_store_unchanged_witness :
    (exKeeper.run (exCtx (exToken ApprovedFlag 0 0))
        (Call.Mint "NONE" addrA addrB "I1" "p" "m")).1.IsOK = false ∧
    (exKeeper.run (exCtx (exToken ApprovedFlag 0 0))
        (Call.Mint "NONE" addrA addrB "I1" "p" "m")).2.store
      = (exCtx (exToken ApprovedFlag 0 0)).store :=
  ⟨by decide, failure_leaves_store_unchanged exKeeper (exCtx (exToken ApprovedFlag 0 0))
    (Call.Mint "NONE" addrA addrB "I1" "p" "m") (by decide)⟩


/-- C2. A frozen Token rejects mint, transfer, burn, transfer of ownership
and acceptance of ownership: for every existing Token whose Frozen flag is
set, whatever its other flags, and for every caller, recipient and itemID,
each of the five calls returns a failure and leaves the store unchanged. -/
theorem frozen_token_rejects (k : Keeper) (ctx : Context) (symbol : String) (token : Token)
    (hget : ctx.store.token symbol = some token)
    (hfrozen : token.Flags.HasFlag FrozenFlag = true)
    (from_ to_ : AccAddress) (itemID properties metadata : String) :
    ((k.MintNonFungibleToken ctx symbol from_ to_ itemID properties metadata).1.IsOK = false ∧
      (k.MintNonFungibleToken ctx symbol from_ to_ itemID properties metadata).2.store
        = ctx.store) ∧
    ((k.TransferNonFungibleToken ctx symbol from_ to_ itemID).1.IsOK = false ∧
      (k.TransferNonFungibleToken ctx symbol from_ to_ itemID).2.store = ctx.store) ∧
    ((k.BurnNonFungibleToken ctx symbol from_ itemID).1.IsOK = false ∧
      (k.BurnNonFungibleToken ctx symbol from_ itemID).2.store = ctx.store) ∧
    ((k.TransferTokenOwnership ctx symbol from_ to_).1.IsOK = false ∧
      (k.TransferTokenOwnership ctx symbol from_ to_).2.store = ctx.store) ∧
    ((k.AcceptTokenOwnership ctx symbol from_).1.IsOK = false ∧
      (k.AcceptTokenOwnership ctx symbol from_).2.store = ctx.store) := by
  have hmint : (k.MintNonFungibleToken ctx symbol from_ to_ itemID properties metadata).1.IsOK
      = false := by
    generalize hr : k.MintNonFungibleToken ctx symbol from_ to_ itemID properties metadata = r
    unfold Keeper.MintNonFungibleToken at hr
    simp only [Keeper.getTokenData, hget] at hr
    repeat' split at hr
    all_goals (subst hr; simp_all [Result.IsOK])
  have htransfer : (k.TransferNonFungibleToken ctx symbol from_ to_ itemID).1.IsOK = false := by
    generalize hr : k.TransferNonFungibleToken ctx symbol from_ to_ itemID = r
    unfold Keeper.TransferNonFungibleToken at hr
    simp only [Keeper.getTokenData, hget] at hr
    repeat' split at hr
    all_goals (subst hr; simp_all [Result.IsOK])
  have hburn : (k.BurnNonFungibleToken ctx symbol from_ itemID).1.IsOK = false := by
    generalize hr : k.BurnNonFungibleToken ctx symbol from_ itemID = r
    unfold Keeper.BurnNonFungibleToken at hr
    simp only [Keeper.getTokenData, hget] at hr
    repeat' split at hr
    all_goals (subst hr; simp_all [Result.IsOK])
  have hto : (k.TransferTokenOwnership ctx symbol from_ to_).1.IsOK = false := by
    generalize hr : k.TransferTokenOwnership ctx symbol from_ to_ = r
    unfold Keeper.TransferTokenOwnership Keeper.transferNonFungibleTokenOwnership at hr
    simp only [Keeper.mustGetTokenData, Keeper.getTokenData, hget, Token.IsFrozen] at hr
    repeat' split at hr
    all_goals (subst hr; simp_all [Result.IsOK])
  have hacc : (k.AcceptTokenOwnership ctx symbol from_).1.IsOK = false := by
    generalize hr : k.AcceptTokenOwnership ctx symbol from_ = r
    unfold Keeper.AcceptTokenOwnership Keeper.acceptNonFungibleTokenOwnership at hr
    simp only [Keeper.mustGetTokenData, Keeper.getTokenData, hget] at hr
    repeat' split at hr
    all_goals (subst hr; simp_all [Result.IsOK])
  refine ⟨⟨hmint, ?_⟩, ⟨htransfer, ?_⟩, ⟨hburn, ?_⟩, ⟨hto, ?_⟩, ⟨hacc, ?_⟩⟩
  · rw [k.mint_failure_keeps ctx symbol from_ to_ itemID properties metadata hmint]
  · rw [k.transfer_failure_keeps ctx symbol from_ to_ itemID htransfer]
  · rw [k.burn_failure_keeps ctx symbol from_ itemID hburn]
  · rw [k.transferOwnership_failure_keeps ctx symbol from_ to_ hto]
  · rw [k.acceptOwnership_failure_keeps ctx symbol from_ hacc]


/-- Witness of C2: on a frozen example token the mint is rejected. -/
theorem frozen_token_rejects_witness :
    (exCtx (exToken (FrozenFlag ||| ApprovedFlag ||| MintFlag) 0 0)).store.token "TNFT"
      = some (exToken (FrozenFlag ||| ApprovedFlag ||| MintFlag) 0 0) ∧
    (exToken (FrozenFlag ||| ApprovedFlag ||| MintFlag) 0 0).Flags.HasFlag FrozenFlag = true ∧
    (exKeeper.MintNonFungibleToken (exCtx (exToken (FrozenFlag ||| ApprovedFlag ||| MintFlag) 0 0))
      "TNFT" addrA addrB "I1" "p" "m").1.IsOK = false :=
  ⟨rfl, by decide,
    (frozen_token_rejects exKeeper (exCtx (exToken (FrozenFlag ||| ApprovedFlag ||| MintFlag) 0 0))
      "TNFT" (exToken (FrozenFlag ||| ApprovedFlag ||| MintFlag) 0 0) rfl (by decide)
      addrA addrB "I1" "p" "m").1.1⟩

/-- The transfer itself never reads the Approved flag.  On a store that no
run of the keeper produces, an Item `I1` owned by `addrB` under a Token that
is Transferable but not Approved, the transfer to `addrC` succeeds and
rewrites the owner index: that transfers fail on unapproved Tokens rests on
the store invariant `KVStore.ItemsUnderApproved`. -/
theorem transfer_succeeds_on_unapproved_token :
    (exToken TransferableFlag 0 2).Flags.HasFlag ApprovedFlag = false ∧
    (exKeeper.TransferNonFungibleToken (exCtxItem (exToken TransferableFlag 0 2) addrB 0)
      "TNFT" addrB addrC "I1").1.IsOK = true ∧
    (exKeeper.TransferNonFungibleToken (exCtxItem (exToken TransferableFlag 0 2) addrB 0)
      "TNFT" addrB addrC "I1").2.store.itemOwner "TNFT" "I1" = some addrC := by
  decide


/-- C4. A successful mint of `(symbol, itemID)` to `to_` stores the Token with
its total supply increased by exactly one and every other field as before,
and creates the Item body (not there before) and the owner-index entry of
`(symbol, itemID)`, the latter holding `to_`.  The Token is the record kept
under its own symbol. -/
theorem mint_success_effect (k : Keeper) (ctx : Context) (symbol : String)
    (from_ to_ : AccAddress) (itemID properties metadata : String) (token : Token)
    (hget : ctx.store.token symbol = some token)
    (hkey : token.Symbol = symbol)
    (hok : (k.MintNonFungibleToken ctx symbol from_ to_ itemID properties metadata).1.IsOK
      = true) :
    (k.MintNonFungibleToken ctx symbol from_ to_ itemID properties metadata).2.store.token symbol
      = some { token with TotalSupply := token.TotalSupply + 1 } ∧
    ctx.store.item symbol itemID = none ∧
    (k.MintNonFungibleToken ctx symbol from_ to_ itemID properties metadata).2.store.item
      symbol itemID = some (Item.mk itemID properties metadata 0 false) ∧
    (k.MintNonFungibleToken ctx symbol from_ to_ itemID properties metadata).2.store.itemOwner
      symbol itemID = some to_ := by
  generalize hr : k.MintNonFungibleToken ctx symbol from_ to_ itemID properties metadata = r at hok
  unfold Keeper.MintNonFungibleToken at hr
  simp only [Keeper.getTokenData, hget] at hr
  repeat' split at hr
  all_goals subst hr
  all_goals simp_all [Result.IsOK, Keeper.storeToken, Keeper.createNonFungibleItem,
    Keeper.storeNonFungibleItem, Keeper.increaseMintItemLimit, Keeper.IsItemIDUnique,
    Keeper.getNonFungibleItem]

/-- Witness of C4: the owner of the example token mints `I1` to `addrB`. -/
theorem mint_success_effect_witness :
    (exKeeper.MintNonFungibleToken (exCtx (exToken (MintFlag ||| ApprovedFlag) 2 2))
      "TNFT" addrA addrB "I1" "p" "m").1.IsOK = true ∧
    (exKeeper.MintNonFungibleToken (exCtx (exToken (MintFlag ||| ApprovedFlag) 2 2))
      "TNFT" addrA addrB "I1" "p" "m").2.store.itemOwner "TNFT" "I1" = some addrB :=
  ⟨by decide,
    (mint_success_effect exKeeper (exCtx (exToken (MintFlag ||| ApprovedFlag) 2 2))
      "TNFT" addrA addrB "I1" "p" "m" (exToken (MintFlag ||| ApprovedFlag) 2 2)
      rfl rfl (by decide)).2.2.2⟩


/-! ## Total supply -/

/-- A mint keeps every Token and does not lower its total supply. -/
theorem Keeper.mint_totalSupply_le (k : Keeper) (ctx : Context) (sym : String)
    (from_ to_ : AccAddress) (itemID properties metadata : String)
    (symbol : String) (token : Token) (hget : ctx.store.token symbol = some token) :
    ∃ token1, (k.MintNonFungibleToken ctx sym from_ to_ itemID properties metadata).2.store.token
      symbol = some token1 ∧ token.TotalSupply ≤ token1.TotalSupply := by
  generalize hr : k.MintNonFungibleToken ctx sym from_ to_ itemID properties metadata = r
  unfold Keeper.MintNonFungibleToken at hr
  simp only [Keeper.getTokenData] at hr
  repeat' split at hr
  all_goals subst hr
  all_goals simp only [Keeper.storeToken, Keeper.createNonFungibleItem,
    Keeper.storeNonFungibleItem, Keeper.increaseMintItemLimit]
  all_goals first
    | exact ⟨token, hget, le_refl _⟩
    | (by_cases hs : symbol = sym
       · subst hs; simp_all
       · simp [hs, hget])

/-- A transfer does not write the token family of the store. -/
theorem Keeper.transfer_token_eq (k : Keeper) (ctx : Context) (sym : String)
    (from_ to_ : AccAddress) (itemID : String) :
    (k.TransferNonFungibleToken ctx sym from_ to_ itemID).2.store.token = ctx.store.token := by
  generalize hr : k.TransferNonFungibleToken ctx sym from_ to_ itemID = r
  unfold Keeper.TransferNonFungibleToken at hr
  simp only at hr
  repeat' split at hr
  all_goals (subst hr; rfl)

/-- A burn does not write the token family of the store. -/
theorem Keeper.burn_token_eq (k : Keeper) (ctx : Context) (sym : String)
    (from_ : AccAddress) (itemID : String) :
    (k.BurnNonFungibleToken ctx sym from_ itemID).2.store.token = ctx.store.token := by
  generalize hr : k.BurnNonFungibleToken ctx sym from_ itemID = r
  unfold Keeper.BurnNonFungibleToken at hr
  simp only at hr
  repeat' split at hr
  all_goals (subst hr; rfl)

/-- An item metadata update does not write the token family of the store. -/
theorem Keeper.updateItem_token_eq (k : Keeper) (ctx : Context) (sym : String)
    (from_ : AccAddress) (itemID metadata : String) :
    (k.UpdateItemMetadata ctx sym from_ itemID metadata).2.store.token = ctx.store.token := by
  generalize hr : k.UpdateItemMetadata ctx sym from_ itemID metadata = r
  unfold Keeper.UpdateItemMetadata at hr
  simp only at hr
  repeat' split at hr
  all_goals (subst hr; rfl)

/-- A transfer of ownership keeps every Token and its total supply. -/
theorem Keeper.transferOwnership_totalSupply_le (k : Keeper) (ctx : Context) (sym : String)
    (from_ to_ : AccAddress) (hkeyed : ctx.store.SymbolKeyed)
    (symbol : String) (token : Token) (hget : ctx.store.token symbol = some token) :
    ∃ token1, (k.TransferTokenOwnership ctx sym from_ to_).2.store.token symbol = some token1 ∧
      token.TotalSupply ≤ token1.TotalSupply := by
  generalize hr : k.TransferTokenOwnership ctx sym from_ to_ = r
  unfold Keeper.TransferTokenOwnership Keeper.transferNonFungibleTokenOwnership at hr
  simp only [Keeper.mustGetTokenData, Keeper.getTokenData] at hr
  cases hsym : ctx.store.token sym with
  | none =>
    simp only [hsym] at hr
    subst hr
    exact ⟨token, hget, le_refl _⟩
  | some token0 =>
    have hk : token0.Symbol = sym := hkeyed sym token0 hsym
    simp only [hsym] at hr
    repeat' split at hr
    all_goals subst hr
    all_goals simp only [Keeper.storeToken]
    all_goals first
      | exact ⟨token, hget, le_refl _⟩
      | (by_cases hs : symbol = sym
         · subst hs; simp_all
         · simp [hk, hs, hget])

/-- An acceptance of ownership keeps every Token and its total supply. -/
theorem Keeper.acceptOwnership_totalSupply_le (k : Keeper) (ctx : Context) (sym : String)
    (from_ : AccAddress) (hkeyed : ctx.store.SymbolKeyed)
    (symbol : String) (token : Token) (hget : ctx.store.token symbol = some token) :
    ∃ token1, (k.AcceptTokenOwnership ctx sym from_).2.store.token symbol = some token1 ∧
      token.TotalSupply ≤ token1.TotalSupply := by
  generalize hr : k.AcceptTokenOwnership ctx sym from_ = r
  unfold Keeper.AcceptTokenOwnership Keeper.acceptNonFungibleTokenOwnership at hr
  simp only [Keeper.mustGetTokenData, Keeper.getTokenData] at hr
  cases hsym : ctx.store.token sym with
  | none =>
    simp only [hsym] at hr
    subst hr
    exact ⟨token, hget, le_refl _⟩
  | some token0 =>
    have hk : token0.Symbol = sym := hkeyed sym token0 hsym
    simp only [hsym] at hr
    repeat' split at hr
    all_goals subst hr
    all_goals simp only [Keeper.storeToken]
    all_goals first
      | exact ⟨token, hget, le_refl _⟩
      | (by_cases hs : symbol = sym
         · subst hs; simp_all
         · simp [hk, hs, hget])

/-- A token metadata update keeps every Token and its total supply. -/
theorem Keeper.updateToken_totalSupply_le (k : Keeper) (ctx : Context) (sym : String)
    (from_ : AccAddress) (metadata : String)
    (symbol : String) (token : Token) (hget : ctx.store.token symbol = some token) :
    ∃ token1, (k.UpdateNFTMetadata ctx sym from_ metadata).2.store.token symbol = some token1 ∧
      token.TotalSupply ≤ token1.TotalSupply := by
  generalize hr : k.UpdateNFTMetadata ctx sym from_ metadata = r
  unfold Keeper.UpdateNFTMetadata at hr
  simp only [Keeper.mustGetTokenData, Keeper.getTokenData] at hr
  repeat' split at hr
  all_goals subst hr
  all_goals simp only [Keeper.storeToken]
  all_goals first
    | exact ⟨token, hget, le_refl _⟩
    | (by_cases hs : symbol = sym
       · subst hs; simp_all
       · simp [hs, hget])


/-- C5. The total supply never decreases: in a store that keeps every Token
under its own symbol, for every symbol with a Token and every call of a keeper
entry point, successful or not, the Token is still there afterwards with a
total supply greater than or equal to the one before; and a burn, successful
or not, leaves every Token record as it was. -/
theorem totalSupply_monotone (k : Keeper) (ctx : Context) (c : Call)
    (hkeyed : ctx.store.SymbolKeyed) (symbol : String) (token : Token)
    (hget : ctx.store.token symbol = some token) :
    (∃ token1, (k.run ctx c).2.store.token symbol = some token1 ∧
      token.TotalSupply ≤ token1.TotalSupply) ∧
    (∀ (sym : String) (from_ : AccAddress) (itemID : String),
      (k.BurnNonFungibleToken ctx sym from_ itemID).2.store.token = ctx.store.token) := by
  refine ⟨?_, fun sym from_ itemID => k.burn_token_eq ctx sym from_ itemID⟩
  cases c with
  | Mint sym from_ to_ itemID properties metadata =>
    exact k.mint_totalSupply_le ctx sym from_ to_ itemID properties metadata symbol token hget
  | Transfer sym from_ to_ itemID =>
    refine ⟨token, ?_, le_refl _⟩
    simp only [Keeper.run]
    rw [k.transfer_token_eq ctx sym from_ to_ itemID, hget]
  | Burn sym from_ itemID =>
    refine ⟨token, ?_, le_refl _⟩
    simp only [Keeper.run]
    rw [k.burn_token_eq ctx sym from_ itemID, hget]
  | TransferOwnership sym from_ to_ =>
    exact k.transferOwnership_totalSupply_le ctx sym from_ to_ hkeyed symbol token hget
  | AcceptOwnership sym from_ =>
    exact k.acceptOwnership_totalSupply_le ctx sym from_ hkeyed symbol token hget
  | Endorse sym from_ itemID =>
    refine ⟨token, ?_, le_refl _⟩
    simp only [Keeper.run]
    rw [k.endorsement_keeps ctx sym from_ itemID, hget]
  | UpdateItem sym from_ itemID metadata =>
    refine ⟨token, ?_, le_refl _⟩
    simp only [Keeper.run]
    rw [k.updateItem_token_eq ctx sym from_ itemID metadata, hget]
  | UpdateToken sym from_ metadata =>
    exact k.updateToken_totalSupply_le ctx sym from_ metadata symbol token hget

/-- Witness of C5: a mint on the example token does not lower its total
supply. -/
theorem totalSupply_monotone_witness :
    (exCtx (exToken (MintFlag ||| ApprovedFlag) 2 2)).store.SymbolKeyed ∧
    (exCtx (exToken (MintFlag ||| ApprovedFlag) 2 2)).store.token "TNFT"
      = some (exToken (MintFlag ||| ApprovedFlag) 2 2) ∧
    ∃ token1, (exKeeper.run (exCtx (exToken (MintFlag ||| ApprovedFlag) 2 2))
        (Call.Mint "TNFT" addrA addrB "I1" "p" "m")).2.store.token "TNFT" = some token1 ∧
      (exToken (MintFlag ||| ApprovedFlag) 2 2).TotalSupply ≤ token1.TotalSupply :=
  ⟨exCtx_symbolKeyed _ rfl, rfl,
    (totalSupply_monotone exKeeper (exCtx (exToken (MintFlag ||| ApprovedFlag) 2 2))
      (Call.Mint "TNFT" addrA addrB "I1" "p" "m") (exCtx_symbolKeyed _ rfl) "TNFT"
      (exToken (MintFlag ||| ApprovedFlag) 2 2) rfl).1⟩

/-- C6. On a Token that is not Public, a mint called by an existing account
that is not the Token's owner fails with `ErrInvalidTokenMinter` and leaves
the context as it was, whatever the recipient and the other flags. -/
theorem mint_by_non_owner_rejected (k : Keeper) (ctx : Context) (symbol : String)
    (from_ to_ : AccAddress) (itemID properties metadata : String) (token : Token)
    (account : Account)
    (hget : ctx.store.token symbol = some token)
    (hprivate : token.Flags.HasFlag PubFlag = false)
    (haccount : k.accountKeeper.GetAccount from_ = some account)
    (hother : token.Owner ≠ from_) :
    k.MintNonFungibleToken ctx symbol from_ to_ itemID properties metadata
      = (Result.err Error.ErrInvalidTokenMinter, ctx) := by
  unfold Keeper.MintNonFungibleToken
  simp [Keeper.getTokenData, hget, haccount, hprivate, AccAddress.Equals, hother]

/-- Witness of C6: `addrB` is not the owner of the private example token. -/
theorem mint_by_non_owner_rejected_witness :
    (exToken (MintFlag ||| ApprovedFlag) 2 2).Flags.HasFlag PubFlag = false ∧
    (exToken (MintFlag ||| ApprovedFlag) 2 2).Owner ≠ addrB ∧
    exKeeper.MintNonFungibleToken (exCtx (exToken (MintFlag ||| ApprovedFlag) 2 2))
      "TNFT" addrB addrB "I1" "p" "m"
      = (Result.err Error.ErrInvalidTokenMinter, exCtx (exToken (MintFlag ||| ApprovedFlag) 2 2)) :=
  ⟨by decide, by decide,
    mint_by_non_owner_rejected exKeeper (exCtx (exToken (MintFlag ||| ApprovedFlag) 2 2))
      "TNFT" addrB addrB "I1" "p" "m" (exToken (MintFlag ||| ApprovedFlag) 2 2)
      (Account.mk addrB 8) rfl (by decide) (by decide) (by decide)⟩


/-- C7. On a Public Token a mint whose recipient differs from the caller is
rejected and writes nothing; and a mint by any existing caller to itself,
owner of the Token or not, succeeds when the Token (kept under its own
symbol) is Mintable, Approved and not Frozen, the itemID is unused and the
mint limit is not reached (no limit, or the recipient's counter, an absent
one counting as zero, below the limit). -/
theorem public_token_mint (k : Keeper) (ctx : Context) (symbol : String) (token : Token)
    (from_ : AccAddress) (itemID properties metadata : String)
    (hget : ctx.store.token symbol = some token)
    (hpublic : token.Flags.HasFlag PubFlag = true) :
    (∀ to_ : AccAddress, from_ ≠ to_ →
      (k.MintNonFungibleToken ctx symbol from_ to_ itemID properties metadata).1.IsOK = false ∧
      (k.MintNonFungibleToken ctx symbol from_ to_ itemID properties metadata).2 = ctx) ∧
    (∀ account : Account, k.accountKeeper.GetAccount from_ = some account →
      token.Symbol = symbol →
      token.Flags.HasFlag MintFlag = true →
      token.Flags.HasFlag ApprovedFlag = true →
      token.Flags.HasFlag FrozenFlag = false →
      ctx.store.item symbol itemID = none →
      (token.MintLimit = 0 ∨ (ctx.store.mintLimit symbol from_).getD 0 < token.MintLimit) →
      (k.MintNonFungibleToken ctx symbol from_ from_ itemID properties metadata).1.IsOK
        = true) := by
  constructor
  · intro to_ hne
    have hfail : (k.MintNonFungibleToken ctx symbol from_ to_ itemID properties metadata).1.IsOK
        = false := by
      generalize hr : k.MintNonFungibleToken ctx symbol from_ to_ itemID properties metadata = r
      unfold Keeper.MintNonFungibleToken at hr
      simp only [Keeper.getTokenData, hget] at hr
      repeat' split at hr
      all_goals (subst hr; simp_all [Result.IsOK, AccAddress.Equals])
    exact ⟨hfail, k.mint_failure_keeps ctx symbol from_ to_ itemID properties metadata hfail⟩
  · intro account haccount hkey hmint happroved hfrozen hitem hlimit
    unfold Keeper.MintNonFungibleToken
    simp only [Keeper.getTokenData, hget, haccount]
    simp only [hpublic, hmint, happroved, hfrozen, AccAddress.Equals, Keeper.IsItemIDUnique,
      Keeper.getNonFungibleItem, hkey, hitem, decide_True, Bool.not_true, Bool.and_false,
      Bool.false_eq_true, if_false, Option.isNone_none, Bool.not_false, Bool.and_true]
    rcases hlimit with hzero | hbelow
    · simp [hzero, Result.IsOK]
    · cases hcount : ctx.store.mintLimit symbol from_ with
      | none =>
        by_cases hzero : token.MintLimit = 0
        · simp [hzero, Result.IsOK]
        · simp [hzero, Result.IsOK]
      | some count =>
        rw [hcount] at hbelow
        have hnot : ¬ token.MintLimit ≤ count := by
          simpa using hbelow
        by_cases hzero : token.MintLimit = 0
        · simp [hzero, Result.IsOK]
        · simp [hzero, hnot, Result.IsOK]

/-- Witness of C7: on the public example token `addrB`, who is not the owner,
mints to itself. -/
theorem public_token_mint_witness :
    (exToken (PubFlag ||| MintFlag ||| ApprovedFlag) 2 2).Flags.HasFlag PubFlag = true ∧
    (exKeeper.MintNonFungibleToken (exCtx (exToken (PubFlag ||| MintFlag ||| ApprovedFlag) 2 2))
      "TNFT" addrB addrC "I1" "p" "m").1.IsOK = false ∧
    (exKeeper.MintNonFungibleToken (exCtx (exToken (PubFlag ||| MintFlag ||| ApprovedFlag) 2 2))
      "TNFT" addrB addrB "I1" "p" "m").1.IsOK = true :=
  ⟨by decide,
    ((public_token_mint exKeeper (exCtx (exToken (PubFlag ||| MintFlag ||| ApprovedFlag) 2 2))
      "TNFT" (exToken (PubFlag ||| MintFlag ||| ApprovedFlag) 2 2) addrB "I1" "p" "m"
      rfl (by decide)).1 addrC (by decide)).1,
    (public_token_mint exKeeper (exCtx (exToken (PubFlag ||| MintFlag ||| ApprovedFlag) 2 2))
      "TNFT" (exToken (PubFlag ||| MintFlag ||| ApprovedFlag) 2 2) addrB "I1" "p" "m"
      rfl (by decide)).2 (Account.mk addrB 8) (by decide) rfl (by decide) (by decide)
      (by decide) rfl (Or.inr (by decide))⟩

/-- C8. A mint of an itemID that already has an Item under the symbol, by an
authorised caller (an existing account that is the owner of a private Token,
or that mints to itself on a Public one) on a Mintable, Approved, non-Frozen
Token kept under its own symbol, fails with `ErrTokenItemIDInUsed` and leaves
the whole context, hence the Item body, its owner-index entry and the total
supply, as it was. -/
theorem mint_existing_item_rejected (k : Keeper) (ctx : Context) (symbol : String)
    (from_ to_ : AccAddress) (itemID properties metadata : String) (token : Token)
    (account : Account) (item : Item)
    (hget : ctx.store.token symbol = some token)
    (hkey : token.Symbol = symbol)
    (haccount : k.accountKeeper.GetAccount from_ = some account)
    (hauth : (token.Flags.HasFlag PubFlag = false ∧ token.Owner = from_) ∨
      (token.Flags.HasFlag PubFlag = true ∧ from_ = to_))
    (hmint : token.Flags.HasFlag MintFlag = true)
    (happroved : token.Flags.HasFlag ApprovedFlag = true)
    (hfrozen : token.Flags.HasFlag FrozenFlag = false)
    (hitem : ctx.store.item symbol itemID = some item) :
    k.MintNonFungibleToken ctx symbol from_ to_ itemID properties metadata
      = (Result.err Error.ErrTokenItemIDInUsed, ctx) := by
  unfold Keeper.MintNonFungibleToken
  rcases hauth with ⟨hpub, howner⟩ | ⟨hpub, hself⟩
  · simp [Keeper.getTokenData, hget, haccount, hpub, howner, AccAddress.Equals, hmint,
      happroved, hfrozen, Keeper.IsItemIDUnique, Keeper.getNonFungibleItem, hkey, hitem]
  · subst hself
    simp [Keeper.getTokenData, hget, haccount, hpub, AccAddress.Equals, hmint,
      happroved, hfrozen, Keeper.IsItemIDUnique, Keeper.getNonFungibleItem, hkey, hitem]

/-- Witness of C8: the owner mints `I1` a second time. -/
theorem mint_existing_item_rejected_witness :
    (exCtxItem (exToken (MintFlag ||| ApprovedFlag) 2 2) addrB 0).store.item "TNFT" "I1"
      = some (Item.mk "I1" "properties" "metadata" 0 false) ∧
    exKeeper.MintNonFungibleToken (exCtxItem (exToken (MintFlag ||| ApprovedFlag) 2 2) addrB 0)
      "TNFT" addrA addrB "I1" "p" "m"
      = (Result.err Error.ErrTokenItemIDInUsed,
          exCtxItem (exToken (MintFlag ||| ApprovedFlag) 2 2) addrB 0) :=
  ⟨rfl,
    mint_existing_item_rejected exKeeper
      (exCtxItem (exToken (MintFlag ||| ApprovedFlag) 2 2) addrB 0)
      "TNFT" addrA addrB "I1" "p" "m" (exToken (MintFlag ||| ApprovedFlag) 2 2)
      (Account.mk addrA 7) (Item.mk "I1" "properties" "metadata" 0 false)
      rfl rfl (by decide) (Or.inl ⟨by decide, rfl⟩) (by decide) (by decide) (by decide) rfl⟩


/-- C9. On a Token with a non-zero mint limit (kept under its own symbol), a
mint to a recipient whose Mint-Limit Counter, an absent one counting as zero,
has reached the limit is rejected and leaves the whole context (the counter,
the stored total supply, the item records) as it was; when every earlier
check passes, the failure is the internal error "Holding limit existed.". -/
theorem mint_limit_reached_rejected (k : Keeper) (ctx : Context) (symbol : String)
    (from_ to_ : AccAddress) (itemID properties metadata : String) (token : Token)
    (hget : ctx.store.token symbol = some token)
    (hkey : token.Symbol = symbol)
    (hpos : 0 < token.MintLimit)
    (hreached : token.MintLimit ≤ (ctx.store.mintLimit symbol to_).getD 0) :
    (k.MintNonFungibleToken ctx symbol from_ to_ itemID properties metadata).1.IsOK = false ∧
    (k.MintNonFungibleToken ctx symbol from_ to_ itemID properties metadata).2 = ctx ∧
    (∀ account : Account, k.accountKeeper.GetAccount from_ = some account →
      ((token.Flags.HasFlag PubFlag = false ∧ token.Owner = from_) ∨
        (token.Flags.HasFlag PubFlag = true ∧ from_ = to_)) →
      token.Flags.HasFlag MintFlag = true →
      token.Flags.HasFlag ApprovedFlag = true →
      token.Flags.HasFlag FrozenFlag = false →
      ctx.store.item symbol itemID = none →
      (k.MintNonFungibleToken ctx symbol from_ to_ itemID properties metadata).1
        = Result.err (Error.ErrInternal "Holding limit existed.")) := by
  obtain ⟨count, hcount, hle⟩ : ∃ count, ctx.store.mintLimit symbol to_ = some count ∧
      token.MintLimit ≤ count := by
    cases hc : ctx.store.mintLimit symbol to_ with
    | none =>
      rw [hc] at hreached
      exact absurd (Nat.lt_of_lt_of_le hpos hreached) (Nat.lt_irrefl 0)
    | some count => rw [hc] at hreached; exact ⟨count, rfl, by simpa using hreached⟩
  have hne : token.MintLimit ≠ 0 := Nat.pos_iff_ne_zero.mp hpos
  have hfail : (k.MintNonFungibleToken ctx symbol from_ to_ itemID properties metadata).1.IsOK
      = false := by
    generalize hr : k.MintNonFungibleToken ctx symbol from_ to_ itemID properties metadata = r
    unfold Keeper.MintNonFungibleToken at hr
    simp only [Keeper.getTokenData, hget, hkey, hcount, hne, ne_eq, not_false_eq_true,
      if_true, ge_iff_le, hle] at hr
    repeat' split at hr
    all_goals (subst hr; simp [Result.IsOK])
  refine ⟨hfail, k.mint_failure_keeps ctx symbol from_ to_ itemID properties metadata hfail, ?_⟩
  intro account haccount hauth hmint happroved hfrozen hitem
  unfold Keeper.MintNonFungibleToken
  rcases hauth with ⟨hpub, howner⟩ | ⟨hpub, hself⟩
  · simp [Keeper.getTokenData, hget, haccount, hpub, howner, AccAddress.Equals, hmint,
      happroved, hfrozen, Keeper.IsItemIDUnique, Keeper.getNonFungibleItem, hkey, hitem,
      hcount, hne, hle]
  · subst hself
    simp [Keeper.getTokenData, hget, haccount, hpub, AccAddress.Equals, hmint,
      happroved, hfrozen, Keeper.IsItemIDUnique, Keeper.getNonFungibleItem, hkey, hitem,
      hcount, hne, hle]

/-- Witness of C9: the counter of `addrB` stands at the limit 2. -/
theorem mint_limit_reached_rejected_witness :
    0 < (exToken (MintFlag ||| ApprovedFlag) 2 2).MintLimit ∧
    (exToken (MintFlag ||| ApprovedFlag) 2 2).MintLimit
      ≤ ((exCtxCounter (exToken (MintFlag ||| ApprovedFlag) 2 2) 2).store.mintLimit
          "TNFT" addrB).getD 0 ∧
    (exKeeper.MintNonFungibleToken (exCtxCounter (exToken (MintFlag ||| ApprovedFlag) 2 2) 2)
      "TNFT" addrA addrB "I1" "p" "m").1.IsOK = false :=
  ⟨by decide, by decide,
    (mint_limit_reached_rejected exKeeper
      (exCtxCounter (exToken (MintFlag ||| ApprovedFlag) 2 2) 2)
      "TNFT" addrA addrB "I1" "p" "m" (exToken (MintFlag ||| ApprovedFlag) 2 2)
      rfl rfl (by decide) (by decide)).1⟩

/-- A successful mint on a Token with a non-zero mint limit adds exactly one to
a Mint-Limit Counter that has a stored entry. -/
theorem mint_increments_stored_counter (k : Keeper) (ctx : Context) (symbol : String)
    (from_ to_ : AccAddress) (itemID properties metadata : String) (token : Token)
    (count : Uint)
    (hget : ctx.store.token symbol = some token)
    (hkey : token.Symbol = symbol)
    (hpos : 0 < token.MintLimit)
    (hcount : ctx.store.mintLimit symbol to_ = some count)
    (hok : (k.MintNonFungibleToken ctx symbol from_ to_ itemID properties metadata).1.IsOK
      = true) :
    (k.MintNonFungibleToken ctx symbol from_ to_ itemID properties metadata).2.store.mintLimit
      symbol to_ = some (count + 1) ∧ count < token.MintLimit := by
  have hne : token.MintLimit ≠ 0 := Nat.pos_iff_ne_zero.mp hpos
  generalize hr : k.MintNonFungibleToken ctx symbol from_ to_ itemID properties metadata = r at hok
  unfold Keeper.MintNonFungibleToken at hr
  simp only [Keeper.getTokenData, hget, hkey, hcount, hne, ne_eq, not_false_eq_true,
    if_true] at hr
  repeat' split at hr
  all_goals subst hr
  all_goals simp_all [Result.IsOK, Keeper.storeToken, Keeper.createNonFungibleItem,
    Keeper.storeNonFungibleItem, Keeper.increaseMintItemLimit]

/-- A successful mint to a recipient without a stored Mint-Limit Counter
leaves the recipient without one: the counter is not started. -/
theorem mint_does_not_start_counter (k : Keeper) (ctx : Context) (symbol : String)
    (from_ to_ : AccAddress) (itemID properties metadata : String) (token : Token)
    (hget : ctx.store.token symbol = some token)
    (hkey : token.Symbol = symbol)
    (hcount : ctx.store.mintLimit symbol to_ = none) :
    (k.MintNonFungibleToken ctx symbol from_ to_ itemID properties metadata).2.store.mintLimit
      symbol to_ = none := by
  generalize hr : k.MintNonFungibleToken ctx symbol from_ to_ itemID properties metadata = r
  unfold Keeper.MintNonFungibleToken at hr
  simp only [Keeper.getTokenData, hget, hkey, hcount] at hr
  repeat' split at hr
  all_goals subst hr
  all_goals simp_all [Keeper.storeToken, Keeper.createNonFungibleItem,
    Keeper.storeNonFungibleItem]

/-- C10, evaluated on a failing input.  The claim says that every successful
mint under a non-zero mint limit adds one to the recipient's counter, an
absent counter counting as zero, so that no recipient gets more than the
limit.  With mint limit 1 and no counter stored for `addrB`, two mints to
`addrB` succeed one after the other, the counter is still absent after each,
and `addrB` owns both Items. -/
theorem mint_limit_not_enforced_without_counter :
    (exToken (MintFlag ||| ApprovedFlag) 1 2).MintLimit = 1 ∧
    (exCtx (exToken (MintFlag ||| ApprovedFlag) 1 2)).store.mintLimit "TNFT" addrB = none ∧
    (exKeeper.MintNonFungibleToken (exCtx (exToken (MintFlag ||| ApprovedFlag) 1 2))
      "TNFT" addrA addrB "I1" "p" "m").1.IsOK = true ∧
    exMintedOnce.store.mintLimit "TNFT" addrB = none ∧
    (exKeeper.MintNonFungibleToken exMintedOnce "TNFT" addrA addrB "I2" "p" "m").1.IsOK = true ∧
    (exKeeper.MintNonFungibleToken exMintedOnce "TNFT" addrA addrB "I2" "p" "m").2.store.mintLimit
      "TNFT" addrB = none ∧
    (exKeeper.MintNonFungibleToken exMintedOnce "TNFT" addrA addrB "I2" "p" "m").2.store.itemOwner
      "TNFT" "I1" = some addrB ∧
    (exKeeper.MintNonFungibleToken exMintedOnce "TNFT" addrA addrB "I2" "p" "m").2.store.itemOwner
      "TNFT" "I2" = some addrB := by
  decide

/-- C11. For a Token with a non-zero transfer limit and an Item whose transfer
counter has reached that limit, a transfer is rejected and leaves the context,
hence the Item's counter and its owner-index entry, as it was; when the
earlier checks pass (Transferable, existing caller, not Frozen, owner-index
entry present) the failure is the internal error
"Item has existed transfer limit.". -/
theorem transfer_at_limit_rejected (k : Keeper) (ctx : Context) (symbol : String)
    (from_ to_ : AccAddress) (itemID : String) (token : Token) (item : Item)
    (hget : ctx.store.token symbol = some token)
    (_hpos : token.TransferLimit ≠ 0)
    (hitem : ctx.store.item symbol itemID = some item)
    (hreached : token.TransferLimit ≤ item.TransferLimit) :
    (k.TransferNonFungibleToken ctx symbol from_ to_ itemID).1.IsOK = false ∧
    (k.TransferNonFungibleToken ctx symbol from_ to_ itemID).2 = ctx ∧
    (k.TransferNonFungibleToken ctx symbol from_ to_ itemID).2.store.item symbol itemID
      = some item ∧
    (k.TransferNonFungibleToken ctx symbol from_ to_ itemID).2.store.itemOwner symbol itemID
      = ctx.store.itemOwner symbol itemID ∧
    (∀ (account : Account) (owner : AccAddress),
      k.accountKeeper.GetAccount from_ = some account →
      token.Flags.HasFlag TransferableFlag = true →
      token.Flags.HasFlag FrozenFlag = false →
      ctx.store.itemOwner symbol itemID = some owner →
      (k.TransferNonFungibleToken ctx symbol from_ to_ itemID).1
        = Result.err (Error.ErrInternal "Item has existed transfer limit.")) := by
  have hfail : (k.TransferNonFungibleToken ctx symbol from_ to_ itemID).1.IsOK = false := by
    generalize hr : k.TransferNonFungibleToken ctx symbol from_ to_ itemID = r
    unfold Keeper.TransferNonFungibleToken at hr
    simp only [Keeper.getTokenData, hget, hitem, ge_iff_le, hreached, if_true] at hr
    repeat' split at hr
    all_goals (subst hr; simp [Result.IsOK])
  have hkeep := k.transfer_failure_keeps ctx symbol from_ to_ itemID hfail
  refine ⟨hfail, hkeep, ?_, ?_, ?_⟩
  · rw [hkeep, hitem]
  · rw [hkeep]
  · intro account owner haccount htransferable hfrozen howner
    unfold Keeper.TransferNonFungibleToken
    simp [Keeper.getTokenData, hget, hitem, hreached, haccount, htransferable, hfrozen, howner]

/-- Witness of C11: the Item of the example token has been transferred twice
under the limit 2. -/
theorem transfer_at_limit_rejected_witness :
    (exToken (TransferableFlag ||| ApprovedFlag) 2 2).TransferLimit ≠ 0 ∧
    (exToken (TransferableFlag ||| ApprovedFlag) 2 2).TransferLimit
      ≤ (Item.mk "I1" "properties" "metadata" 2 false).TransferLimit ∧
    (exKeeper.TransferNonFungibleToken
      (exCtxItem (exToken (TransferableFlag ||| ApprovedFlag) 2 2) addrB 2)
      "TNFT" addrB addrC "I1").1
      = Result.err (Error.ErrInternal "Item has existed transfer limit.") :=
  ⟨by decide, by decide,
    (transfer_at_limit_rejected exKeeper
      (exCtxItem (exToken (TransferableFlag ||| ApprovedFlag) 2 2) addrB 2)
      "TNFT" addrB addrC "I1" (exToken (TransferableFlag ||| ApprovedFlag) 2 2)
      (Item.mk "I1" "properties" "metadata" 2 false) rfl (by decide) rfl (by decide)).2.2.2.2
      (Account.mk addrB 8) addrB (by decide) (by decide) (by decide) rfl⟩

/-- Under a transfer limit of zero no transfer succeeds: the limit check
compares the counter with the limit without a test for zero. -/
theorem transfer_zero_limit_never_succeeds (k : Keeper) (ctx : Context) (symbol : String)
    (from_ to_ : AccAddress) (itemID : String) (token : Token)
    (hget : ctx.store.token symbol = some token)
    (hzero : token.TransferLimit = 0) :
    (k.TransferNonFungibleToken ctx symbol from_ to_ itemID).1.IsOK = false := by
  generalize hr : k.TransferNonFungibleToken ctx symbol from_ to_ itemID = r
  unfold Keeper.TransferNonFungibleToken at hr
  simp only [Keeper.getTokenData, hget, hzero, ge_iff_le, Nat.zero_le, if_true] at hr
  repeat' split at hr
  all_goals (subst hr; simp [Result.IsOK])

/-- C12, evaluated on a failing input.  The claim says that a transfer limit
of zero means unlimited; on a Transferable, Approved, non-Frozen Token with
transfer limit 0 the transfer of the fresh Item `I1` by its owner `addrB`, an
existing account, is rejected with the limit error and nothing is written. -/
theorem transfer_rejected_under_zero_limit :
    (exToken (TransferableFlag ||| ApprovedFlag) 2 0).TransferLimit = 0 ∧
    (exToken (TransferableFlag ||| ApprovedFlag) 2 0).Flags.HasFlag TransferableFlag = true ∧
    (exToken (TransferableFlag ||| ApprovedFlag) 2 0).Flags.HasFlag FrozenFlag = false ∧
    (exKeeper.TransferNonFungibleToken
      (exCtxItem (exToken (TransferableFlag ||| ApprovedFlag) 2 0) addrB 0)
      "TNFT" addrB addrC "I1").1
      = Result.err (Error.ErrInternal "Item has existed transfer limit.") ∧
    (exKeeper.TransferNonFungibleToken
      (exCtxItem (exToken (TransferableFlag ||| ApprovedFlag) 2 0) addrB 0)
      "TNFT" addrB addrC "I1").2.store.itemOwner "TNFT" "I1" = some addrB := by
  decide

/-- C13. A successful transfer of `(symbol, itemID)` to `to_` sets the
owner-index entry of `(symbol, itemID)` to `to_`, stores the Item body with
its transfer counter increased by exactly one and every other field as
before, and leaves every Token record, every Mint-Limit Counter and the body
and owner-index entry of every other Item as they were. -/
theorem transfer_success_effect (k : Keeper) (ctx : Context) (symbol : String)
    (from_ to_ : AccAddress) (itemID : String)
    (hok : (k.TransferNonFungibleToken ctx symbol from_ to_ itemID).1.IsOK = true) :
    (∃ item, ctx.store.item symbol itemID = some item ∧
      (k.TransferNonFungibleToken ctx symbol from_ to_ itemID).2.store.item symbol itemID
        = some { item with TransferLimit := item.TransferLimit + 1 }) ∧
    (k.TransferNonFungibleToken ctx symbol from_ to_ itemID).2.store.itemOwner symbol itemID
      = some to_ ∧
    (k.TransferNonFungibleToken ctx symbol from_ to_ itemID).2.store.token = ctx.store.token ∧
    (k.TransferNonFungibleToken ctx symbol from_ to_ itemID).2.store.mintLimit
      = ctx.store.mintLimit ∧
    (∀ s i, ¬ (s = symbol ∧ i = itemID) →
      (k.TransferNonFungibleToken ctx symbol from_ to_ itemID).2.store.item s i
        = ctx.store.item s i ∧
      (k.TransferNonFungibleToken ctx symbol from_ to_ itemID).2.store.itemOwner s i
        = ctx.store.itemOwner s i) := by
  generalize hr : k.TransferNonFungibleToken ctx symbol from_ to_ itemID = r at hok
  unfold Keeper.TransferNonFungibleToken at hr
  simp only at hr
  repeat' split at hr
  all_goals subst hr
  all_goals simp_all [Result.IsOK, Context.deleteItemOwner, Context.setItemOwner,
    Context.setItem]

/-- Witness of C13: the owner `addrB` of `I1` transfers it to `addrC`. -/
theorem transfer_success_effect_witness :
    (exKeeper.TransferNonFungibleToken
      (exCtxItem (exToken (TransferableFlag ||| ApprovedFlag) 2 2) addrB 0)
      "TNFT" addrB addrC "I1").1.IsOK = true ∧
    (exKeeper.TransferNonFungibleToken
      (exCtxItem (exToken (TransferableFlag ||| ApprovedFlag) 2 2) addrB 0)
      "TNFT" addrB addrC "I1").2.store.itemOwner "TNFT" "I1" = some addrC :=
  ⟨by decide,
    (transfer_success_effect exKeeper
      (exCtxItem (exToken (TransferableFlag ||| ApprovedFlag) 2 2) addrB 0)
      "TNFT" addrB addrC "I1" (by decide)).2.1⟩

/-! ## Burn -/

/-- C15, the claim as stated fails: on a Burnable Token that is not Approved,
with an existing caller and no Item `I1`, the burn fails with
`ErrTokenInvalid`, not with `ErrInvalidTokenOwner`. -/
theorem burn_missing_item_on_unapproved_token :
    (exCtx (exToken BurnFlag 2 2)).store.token "TNFT" = some (exToken BurnFlag 2 2) ∧
    exKeeper.accountKeeper.GetAccount addrB = some (Account.mk addrB 8) ∧
    (exCtx (exToken BurnFlag 2 2)).store.item "TNFT" "I1" = none ∧
    (exKeeper.BurnNonFungibleToken (exCtx (exToken BurnFlag 2 2)) "TNFT" addrB "I1").1
      = Result.err Error.ErrTokenInvalid ∧
    (exKeeper.BurnNonFungibleToken (exCtx (exToken BurnFlag 2 2)) "TNFT" addrB "I1").1
      ≠ Result.err Error.ErrInvalidTokenOwner := by
  decide

/-- C15, amended.  For an existing Token and an existing caller account a burn
fails with `ErrInvalidTokenAction` when the Token lacks the Burnable flag;
when the Token is Burnable, Approved and not Frozen it fails with
`ErrInvalidTokenOwner` when the Item does not exist or the caller is not the
owner recorded in the owner index.  In each case the context, hence the Item
body and the owner-index entry, is as before. -/
theorem burn_preconditions (k : Keeper) (ctx : Context) (symbol : String)
    (from_ : AccAddress) (itemID : String) (token : Token) (account : Account)
    (hget : ctx.store.token symbol = some token)
    (haccount : k.accountKeeper.GetAccount from_ = some account) :
    (token.Flags.HasFlag BurnFlag = false →
      k.BurnNonFungibleToken ctx symbol from_ itemID
        = (Result.err Error.ErrInvalidTokenAction, ctx)) ∧
    (token.Flags.HasFlag BurnFlag = true →
      token.Flags.HasFlag ApprovedFlag = true →
      token.Flags.HasFlag FrozenFlag = false →
      (ctx.store.item symbol itemID = none ∨
        k.getNonFungibleItemOwner ctx symbol itemID ≠ from_) →
      k.BurnNonFungibleToken ctx symbol from_ itemID
        = (Result.err Error.ErrInvalidTokenOwner, ctx)) := by
  constructor
  · intro hburn
    unfold Keeper.BurnNonFungibleToken
    simp [Keeper.getTokenData, hget, hburn]
  · intro hburn happroved hfrozen hcase
    unfold Keeper.BurnNonFungibleToken
    cases hitem : ctx.store.item symbol itemID with
    | none =>
      simp [Keeper.getTokenData, hget, hburn, haccount, happroved, hfrozen,
        Keeper.getNonFungibleItem, hitem]
    | some item =>
      have howner : k.getNonFungibleItemOwner ctx symbol itemID ≠ from_ := by
        rcases hcase with hnone | hne
        · rw [hitem] at hnone; cases hnone
        · exact hne
      simp [Keeper.getTokenData, hget, hburn, haccount, happroved, hfrozen,
        Keeper.getNonFungibleItem, hitem, AccAddress.Equals, howner]

/-- Witness of C15 as amended: `addrC` is not the owner of `I1`. -/
theorem burn_preconditions_witness :
    exKeeper.accountKeeper.GetAccount addrC = some (Account.mk addrC 9) ∧
    exKeeper.BurnNonFungibleToken
      (exCtxItem (exToken (BurnFlag ||| ApprovedFlag) 2 2) addrB 0) "TNFT" addrC "I1"
      = (Result.err Error.ErrInvalidTokenOwner,
          exCtxItem (exToken (BurnFlag ||| ApprovedFlag) 2 2) addrB 0) :=
  ⟨by decide,
    (burn_preconditions exKeeper (exCtxItem (exToken (BurnFlag ||| ApprovedFlag) 2 2) addrB 0)
      "TNFT" addrC "I1" (exToken (BurnFlag ||| ApprovedFlag) 2 2) (Account.mk addrC 9)
      rfl (by decide)).2 (by decide) (by decide) (by decide) (Or.inr (by decide))⟩

/-- C16. A successful burn of `(symbol, itemID)` deletes the Item body, which
was there, and the owner-index entry of `(symbol, itemID)`: afterwards the
Item resolves as absent and the itemID is unused again; every Token record
(the total supply with it), every Mint-Limit Counter and the records of every
other Item are as before. -/
theorem burn_success_effect (k : Keeper) (ctx : Context) (symbol : String)
    (from_ : AccAddress) (itemID : String)
    (hok : (k.BurnNonFungibleToken ctx symbol from_ itemID).1.IsOK = true) :
    (∃ item, ctx.store.item symbol itemID = some item) ∧
    (k.BurnNonFungibleToken ctx symbol from_ itemID).2.store.item symbol itemID = none ∧
    (k.BurnNonFungibleToken ctx symbol from_ itemID).2.store.itemOwner symbol itemID = none ∧
    k.getNonFungibleItem (k.BurnNonFungibleToken ctx symbol from_ itemID).2 symbol itemID
      = none ∧
    k.IsItemIDUnique (k.BurnNonFungibleToken ctx symbol from_ itemID).2 symbol itemID = true ∧
    (k.BurnNonFungibleToken ctx symbol from_ itemID).2.store.token = ctx.store.token ∧
    (k.BurnNonFungibleToken ctx symbol from_ itemID).2.store.mintLimit = ctx.store.mintLimit ∧
    (∀ s i, ¬ (s = symbol ∧ i = itemID) →
      (k.BurnNonFungibleToken ctx symbol from_ itemID).2.store.item s i = ctx.store.item s i ∧
      (k.BurnNonFungibleToken ctx symbol from_ itemID).2.store.itemOwner s i
        = ctx.store.itemOwner s i) := by
  generalize hr : k.BurnNonFungibleToken ctx symbol from_ itemID = r at hok
  unfold Keeper.BurnNonFungibleToken at hr
  simp only at hr
  repeat' split at hr
  all_goals subst hr
  all_goals simp_all [Result.IsOK, Context.deleteItemOwner, Context.deleteItem,
    Keeper.getNonFungibleItem, Keeper.IsItemIDUnique]

/-- Witness of C16: the owner `addrB` burns `I1`. -/
theorem burn_success_effect_witness :
    (exKeeper.BurnNonFungibleToken
      (exCtxItem (exToken (BurnFlag ||| ApprovedFlag) 2 2) addrB 0) "TNFT" addrB "I1").1.IsOK
      = true ∧
    (exKeeper.BurnNonFungibleToken
      (exCtxItem (exToken (BurnFlag ||| ApprovedFlag) 2 2) addrB 0) "TNFT" addrB "I1").2.store.item
      "TNFT" "I1" = none :=
  ⟨by decide,
    (burn_success_effect exKeeper (exCtxItem (exToken (BurnFlag ||| ApprovedFlag) 2 2) addrB 0)
      "TNFT" addrB "I1" (by decide)).2.1⟩

/-! ## Transfer of ownership -/

/-- C19. A transfer of ownership succeeds if and only if the symbol resolves
to a Token, the account of the Token's owner exists in the directory, the
caller is the Token's owner, the Token is Approved and the Token is not
Frozen; on an existing Token a caller other than the owner is rejected with
`ErrInvalidTokenOwner` and nothing is written. -/
theorem transferOwnership_succeeds_iff (k : Keeper) (ctx : Context) (symbol : String)
    (from_ to_ : AccAddress) :
    ((k.TransferTokenOwnership ctx symbol from_ to_).1.IsOK = true ↔
      ∃ token, ctx.store.token symbol = some token ∧
        (k.accountKeeper.GetAccount token.Owner).isSome = true ∧
        token.Owner = from_ ∧
        token.Flags.HasFlag ApprovedFlag = true ∧
        token.Flags.HasFlag FrozenFlag = false) ∧
    (∀ token, ctx.store.token symbol = some token → token.Owner ≠ from_ →
      k.TransferTokenOwnership ctx symbol from_ to_
        = (Result.err Error.ErrInvalidTokenOwner, ctx)) := by
  constructor
  · generalize hr : k.TransferTokenOwnership ctx symbol from_ to_ = r
    unfold Keeper.TransferTokenOwnership Keeper.transferNonFungibleTokenOwnership at hr
    simp only [Keeper.mustGetTokenData, Keeper.getTokenData, Token.IsApproved,
      Token.IsFrozen] at hr
    cases hget : ctx.store.token symbol with
    | none =>
      simp only [hget] at hr
      subst hr
      simp [Result.IsOK]
    | some token =>
      simp only [hget] at hr
      repeat' split at hr
      all_goals subst hr
      all_goals simp_all [Result.IsOK, AccAddress.Equals]
  · intro token hget hne
    unfold Keeper.TransferTokenOwnership Keeper.transferNonFungibleTokenOwnership
    simp only [Keeper.mustGetTokenData, Keeper.getTokenData, hget]
    cases k.accountKeeper.GetAccount token.Owner with
    | none => rfl
    | some account => simp [AccAddress.Equals, hne]

/-- Witness of C19: `addrB` is not the owner `addrA` of the example token. -/
theorem transferOwnership_succeeds_iff_witness :
    (exToken ApprovedFlag 2 2).Owner ≠ addrB ∧
    exKeeper.TransferTokenOwnership (exCtx (exToken ApprovedFlag 2 2)) "TNFT" addrB addrC
      = (Result.err Error.ErrInvalidTokenOwner, exCtx (exToken ApprovedFlag 2 2)) :=
  ⟨by decide,
    (transferOwnership_succeeds_iff exKeeper (exCtx (exToken ApprovedFlag 2 2))
      "TNFT" addrB addrC).2 (exToken ApprovedFlag 2 2) rfl (by decide)⟩

/-- C20. A successful transfer of ownership of a Token kept under its own
symbol stores the Token with `NewOwner` equal to `to_` and the
TransferOwnershipPending flag added, every other field (owner, total supply,
limits, metadata and the rest) as before; the pending flag is then set, every
other bit of the flags and the test of every flag that shares no bit with the
pending flag are as before; no Item body, owner-index entry or Mint-Limit
Counter is touched. -/
theorem transferOwnership_success_effect (k : Keeper) (ctx : Context) (symbol : String)
    (from_ to_ : AccAddress) (token : Token)
    (hget : ctx.store.token symbol = some token)
    (hkey : token.Symbol = symbol)
    (hok : (k.TransferTokenOwnership ctx symbol from_ to_).1.IsOK = true) :
    (k.TransferTokenOwnership ctx symbol from_ to_).2.store.token symbol
      = some { token with
          NewOwner := to_
          Flags := token.Flags.AddFlag TransferTokenOwnershipFlag } ∧
    (token.Flags.AddFlag TransferTokenOwnershipFlag).HasFlag TransferTokenOwnershipFlag
      = true ∧
    (∀ i, i ≠ 8 →
      (token.Flags.AddFlag TransferTokenOwnershipFlag).testBit i = token.Flags.testBit i) ∧
    (∀ flag : Bitmask, TransferTokenOwnershipFlag &&& flag = 0 →
      (token.Flags.AddFlag TransferTokenOwnershipFlag).HasFlag flag = token.Flags.HasFlag flag) ∧
    (k.TransferTokenOwnership ctx symbol from_ to_).2.store.item = ctx.store.item ∧
    (k.TransferTokenOwnership ctx symbol from_ to_).2.store.itemOwner = ctx.store.itemOwner ∧
    (k.TransferTokenOwnership ctx symbol from_ to_).2.store.mintLimit = ctx.store.mintLimit := by
  refine ⟨?_, Bitmask.hasFlag_addFlag_self _ _ (by decide),
    fun i hi => Bitmask.testBit_addFlag_two_pow token.Flags 8 i hi,
    fun flag hflag => Bitmask.hasFlag_addFlag_of_disjoint _ _ flag hflag, ?_⟩
  · generalize hr : k.TransferTokenOwnership ctx symbol from_ to_ = r at hok
    unfold Keeper.TransferTokenOwnership Keeper.transferNonFungibleTokenOwnership at hr
    simp only [Keeper.mustGetTokenData, Keeper.getTokenData, hget] at hr
    repeat' split at hr
    all_goals subst hr
    all_goals simp_all [Result.IsOK, Keeper.storeToken]
  · generalize hr : k.TransferTokenOwnership ctx symbol from_ to_ = r
    unfold Keeper.TransferTokenOwnership Keeper.transferNonFungibleTokenOwnership at hr
    simp only [Keeper.mustGetTokenData, Keeper.getTokenData, hget] at hr
    repeat' split at hr
    all_goals subst hr
    all_goals simp [Keeper.storeToken]

/-- Witness of C20: the owner `addrA` offers the example token to `addrB`. -/
theorem transferOwnership_success_effect_witness :
    (exKeeper.TransferTokenOwnership (exCtx (exToken ApprovedFlag 2 2)) "TNFT" addrA addrB).1.IsOK
      = true ∧
    (exKeeper.TransferTokenOwnership (exCtx (exToken ApprovedFlag 2 2))
      "TNFT" addrA addrB).2.store.token "TNFT"
      = some { exToken ApprovedFlag 2 2 with
          NewOwner := addrB
          Flags := (exToken ApprovedFlag 2 2).Flags.AddFlag TransferTokenOwnershipFlag } :=
  ⟨by decide,
    (transferOwnership_success_effect exKeeper (exCtx (exToken ApprovedFlag 2 2))
      "TNFT" addrA addrB (exToken ApprovedFlag 2 2) rfl rfl (by decide)).1⟩

/-! ## Store consistency -/

/-- C18. Store consistency is kept by every call: if every `(symbol, itemID)`
has an Item body exactly when it has an owner-index entry, the same holds
after any call of the eight keeper entry points, successful or not. -/
theorem items_consistent_preserved (k : Keeper) (ctx : Context) (c : Call)
    (hcons : ctx.store.ItemsConsistent) : (k.run ctx c).2.store.ItemsConsistent := by
  cases c with
  | Mint symbol from_ to_ itemID properties metadata =>
    simp only [Keeper.run]
    generalize hr : k.MintNonFungibleToken ctx symbol from_ to_ itemID properties metadata = r
    unfold Keeper.MintNonFungibleToken at hr
    simp only at hr
    repeat' split at hr
    all_goals subst hr
    all_goals first
      | exact hcons
      | (intro s i
         simp only [Keeper.storeToken, Keeper.createNonFungibleItem,
           Keeper.storeNonFungibleItem, Keeper.increaseMintItemLimit]
         split_ifs
         · rfl
         · exact hcons s i)
  | Transfer symbol from_ to_ itemID =>
    simp only [Keeper.run]
    generalize hr : k.TransferNonFungibleToken ctx symbol from_ to_ itemID = r
    unfold Keeper.TransferNonFungibleToken at hr
    simp only at hr
    repeat' split at hr
    all_goals subst hr
    all_goals first
      | exact hcons
      | (intro s i
         simp only [Context.deleteItemOwner, Context.setItemOwner, Context.setItem]
         split_ifs
         · rfl
         · exact hcons s i)
  | Burn symbol from_ itemID =>
    simp only [Keeper.run]
    generalize hr : k.BurnNonFungibleToken ctx symbol from_ itemID = r
    unfold Keeper.BurnNonFungibleToken at hr
    simp only at hr
    repeat' split at hr
    all_goals subst hr
    all_goals first
      | exact hcons
      | (intro s i
         simp only [Context.deleteItemOwner, Context.deleteItem]
         split_ifs
         · rfl
         · exact hcons s i)
  | TransferOwnership symbol from_ to_ =>
    simp only [Keeper.run]
    generalize hr : k.TransferTokenOwnership ctx symbol from_ to_ = r
    unfold Keeper.TransferTokenOwnership Keeper.transferNonFungibleTokenOwnership at hr
    simp only at hr
    repeat' split at hr
    all_goals subst hr
    all_goals exact hcons
  | AcceptOwnership symbol from_ =>
    simp only [Keeper.run]
    generalize hr : k.AcceptTokenOwnership ctx symbol from_ = r
    unfold Keeper.AcceptTokenOwnership Keeper.acceptNonFungibleTokenOwnership at hr
    simp only at hr
    repeat' split at hr
    all_goals subst hr
    all_goals exact hcons
  | Endorse symbol from_ itemID =>
    simp only [Keeper.run]
    rw [k.endorsement_keeps ctx symbol from_ itemID]
    exact hcons
  | UpdateItem symbol from_ itemID metadata =>
    simp only [Keeper.run]
    generalize hr : k.UpdateItemMetadata ctx symbol from_ itemID metadata = r
    unfold Keeper.UpdateItemMetadata at hr
    simp only at hr
    repeat' split at hr
    all_goals subst hr
    all_goals first
      | exact hcons
      | (intro s i
         simp only [Keeper.storeNonFungibleItem]
         split_ifs
         · rfl
         · exact hcons s i)
  | UpdateToken symbol from_ metadata =>
    simp only [Keeper.run]
    generalize hr : k.UpdateNFTMetadata ctx symbol from_ metadata = r
    unfold Keeper.UpdateNFTMetadata at hr
    simp only at hr
    repeat' split at hr
    all_goals subst hr
    all_goals exact hcons

/-- The example context with one Item is consistent. -/
theorem exCtxItem_itemsConsistent (token : Token) (owner : AccAddress) (count : Uint) :
    (exCtxItem token owner count).store.ItemsConsistent := by
  intro s i
  simp only [exCtxItem]
  split_ifs <;> rfl

/-- Witness of C18: consistency after a burn in the example context. -/
theorem items_consistent_preserved_witness :
    (exCtxItem (exToken (BurnFlag ||| ApprovedFlag) 2 2) addrB 0).store.ItemsConsistent ∧
    (exKeeper.run (exCtxItem (exToken (BurnFlag ||| ApprovedFlag) 2 2) addrB 0)
      (Call.Burn "TNFT" addrB "I1")).2.store.ItemsConsistent :=
  ⟨exCtxItem_itemsConsistent _ _ _,
    items_consistent_preserved exKeeper
      (exCtxItem (exToken (BurnFlag ||| ApprovedFlag) 2 2) addrB 0)
      (Call.Burn "TNFT" addrB "I1") (exCtxItem_itemsConsistent _ _ _)⟩

/-- C14. Under a Token with a non-zero transfer limit an Item is transferred
successfully at most that many times.  In every state reached by calls of the
keeper from a state whose counters are within the limit, the Token keeps its
limit and every counter of the symbol is within it.  For a fresh Item
(counter zero) and any run of transfers of it: the number of successful
transfers is at most the limit and equals the Item's counter; once it equals
the limit every further transfer is rejected, with the limit error
"Item has existed transfer limit." and nothing written when the caller's
account exists.  And for any run of calls of any kind, in a store that keeps
every Item body under its own itemID: the number of successful transfers of
an Item since it was last minted is at most the limit; whenever the Item
exists its counter is that number, so no other call changes the count; and
once the number equals the limit every further transfer of the Item fails and
writes nothing. -/
theorem transfers_bounded_by_limit (k : Keeper) (ctx : Context) (symbol : String)
    (limit : Uint) (hpos : limit ≠ 0) :
    (∀ cs : List Call, ctx.WithinTransferLimit symbol limit →
      (k.runAll ctx cs).WithinTransferLimit symbol limit) ∧
    (∀ (token : Token) (item : Item) (itemID : String) (cs : List Call),
      ctx.store.token symbol = some token →
      token.TransferLimit = limit →
      ctx.store.item symbol itemID = some item →
      item.TransferLimit = 0 →
      (∀ c ∈ cs, c.IsTransferOf symbol itemID = true) →
      k.successes ctx cs ≤ limit ∧
      (∃ item1, (k.runAll ctx cs).store.item symbol itemID = some item1 ∧
        item1.TransferLimit = k.successes ctx cs) ∧
      (k.successes ctx cs = limit →
        (∀ from_ to_ : AccAddress,
          (k.TransferNonFungibleToken (k.runAll ctx cs) symbol from_ to_ itemID).1.IsOK
            = false) ∧
        (∀ (from_ to_ : AccAddress) (account : Account),
          k.accountKeeper.GetAccount from_ = some account →
          k.TransferNonFungibleToken (k.runAll ctx cs) symbol from_ to_ itemID
            = (Result.err (Error.ErrInternal "Item has existed transfer limit."),
                k.runAll ctx cs)))) ∧
    (∀ (itemID : String) (n : Nat) (cs : List Call),
      ctx.WithinTransferLimit symbol limit →
      ctx.store.ItemKeyed →
      (∀ item, ctx.store.item symbol itemID = some item → item.TransferLimit = n) →
      n ≤ limit →
      k.transfersSinceMint symbol itemID ctx n cs ≤ limit ∧
      (∀ item1, (k.runAll ctx cs).store.item symbol itemID = some item1 →
        item1.TransferLimit = k.transfersSinceMint symbol itemID ctx n cs) ∧
      (k.transfersSinceMint symbol itemID ctx n cs = limit →
        ∀ from_ to_ : AccAddress,
          (k.TransferNonFungibleToken (k.runAll ctx cs) symbol from_ to_ itemID).1.IsOK
            = false ∧
          (k.TransferNonFungibleToken (k.runAll ctx cs) symbol from_ to_ itemID).2
            = k.runAll ctx cs)) := by
  refine ⟨fun cs h => k.runAll_within_limit symbol limit cs ctx h, ?_, ?_⟩
  · intro token item itemID cs hget hlimit hitem hfresh hcs
    obtain ⟨htoken1, ⟨item1, hitem1, hcount, hle⟩, hflags, howner⟩ :=
      k.transfers_count symbol itemID token cs hcs ctx item hget hitem
        (by rw [hfresh]; exact Nat.zero_le _)
    rw [hfresh, Nat.zero_add] at hcount
    refine ⟨?_, ⟨item1, hitem1, hcount⟩, ?_⟩
    · rw [← hcount, ← hlimit]
      exact hle
    · intro hfull
      have hreached : token.TransferLimit ≤ item1.TransferLimit := by
        rw [hcount, hfull, hlimit]
      have hsome : 0 < k.successes ctx cs := by
        rw [hfull]
        exact Nat.pos_of_ne_zero hpos
      obtain ⟨htransferable, hfrozen⟩ := hflags hsome
      obtain ⟨owner, hown⟩ := howner (Or.inr hsome)
      refine ⟨fun from_ to_ => ?_, fun from_ to_ account haccount => ?_⟩
      · exact k.transfer_at_limit_fails (k.runAll ctx cs) symbol from_ to_ itemID token item1
          htoken1 hitem1 hreached
      · exact k.transfer_at_limit_error (k.runAll ctx cs) symbol from_ to_ itemID token item1
          account owner htoken1 hitem1 hreached haccount htransferable hfrozen hown
  · intro itemID n cs hwithin hitems hcount hle
    have hcounter := k.runAll_counter symbol itemID cs ctx n hwithin.1 hitems hcount
    refine ⟨k.runAll_counter_le symbol itemID limit cs ctx n hwithin hitems hcount hle,
      hcounter, ?_⟩
    intro hfull from_ to_
    have hfail : (k.TransferNonFungibleToken (k.runAll ctx cs) symbol from_ to_ itemID).1.IsOK
        = false := by
      by_cases hok : (k.TransferNonFungibleToken (k.runAll ctx cs) symbol from_ to_
          itemID).1.IsOK = true
      · obtain ⟨token0, item0, hget0, hitem0, _, _, hlt, _⟩ :=
          k.transfer_ok_shape (k.runAll ctx cs) symbol from_ to_ itemID hok
        obtain ⟨_, ⟨token1, hget1, hlimit1⟩, _⟩ :=
          k.runAll_within_limit symbol limit cs ctx hwithin
        rw [hget0] at hget1
        cases hget1
        rw [hcounter item0 hitem0, hfull, hlimit1] at hlt
        exact absurd hlt (Nat.lt_irrefl _)
      · simpa using hok
    exact ⟨hfail, k.transfer_failure_keeps _ symbol from_ to_ itemID hfail⟩

/-- Witness of C14: under the limit 2 the Item `I1` goes from `addrB` to
`addrC`, on to `addrA`, and a third transfer is refused; in a run that mixes
the transfers with a metadata update and an endorsement the count of
transfers stays within the limit as well. -/
theorem transfers_bounded_by_limit_witness :
    (2 : Uint) ≠ 0 ∧
    exKeeper.successes (exCtxItem (exToken (TransferableFlag ||| ApprovedFlag) 2 2) addrB 0)
      [Call.Transfer "TNFT" addrB addrC "I1", Call.Transfer "TNFT" addrC addrA "I1",
        Call.Transfer "TNFT" addrA addrB "I1"] ≤ 2 ∧
    exKeeper.transfersSinceMint "TNFT" "I1"
      (exCtxItem (exToken (TransferableFlag ||| ApprovedFlag) 2 2) addrB 0) 0
      [Call.Transfer "TNFT" addrB addrC "I1", Call.UpdateItem "TNFT" addrC "I1" "new",
        Call.Transfer "TNFT" addrC addrA "I1", Call.Endorse "TNFT" addrA "I1",
        Call.Transfer "TNFT" addrA addrB "I1"] ≤ 2 :=
  ⟨by decide,
    ((transfers_bounded_by_limit exKeeper
      (exCtxItem (exToken (TransferableFlag ||| ApprovedFlag) 2 2) addrB 0) "TNFT" 2
      (by decide)).2.1 (exToken (TransferableFlag ||| ApprovedFlag) 2 2)
      (Item.mk "I1" "properties" "metadata" 0 false) "I1"
      [Call.Transfer "TNFT" addrB addrC "I1", Call.Transfer "TNFT" addrC addrA "I1",
        Call.Transfer "TNFT" addrA addrB "I1"] rfl rfl rfl rfl (by decide)).1,
    ((transfers_bounded_by_limit exKeeper
      (exCtxItem (exToken (TransferableFlag ||| ApprovedFlag) 2 2) addrB 0) "TNFT" 2
      (by decide)).2.2 "I1" 0
      [Call.Transfer "TNFT" addrB addrC "I1", Call.UpdateItem "TNFT" addrC "I1" "new",
        Call.Transfer "TNFT" addrC addrA "I1", Call.Endorse "TNFT" addrA "I1",
        Call.Transfer "TNFT" addrA addrB "I1"]
      (exCtxItem_withinTransferLimit _ 2 2 addrB 0 (by decide))
      (exCtxItem_itemKeyed _ addrB 0)
      (fun item hitem => by cases hitem; rfl)
      (by decide)).1⟩

/-- The mixed run of the witness of C14 has exactly two successful transfers:
the third one is refused at the limit. -/
theorem transfers_of_example_item_mixed :
    exKeeper.transfersSinceMint "TNFT" "I1"
      (exCtxItem (exToken (TransferableFlag ||| ApprovedFlag) 2 2) addrB 0) 0
      [Call.Transfer "TNFT" addrB addrC "I1", Call.UpdateItem "TNFT" addrC "I1" "new",
        Call.Transfer "TNFT" addrC addrA "I1", Call.Endorse "TNFT" addrA "I1",
        Call.Transfer "TNFT" addrA addrB "I1"] = 2 := by
  decide

/-- A burn ends the life of an Item: under the limit 1 the Item `I1` is
minted, transferred once, burnt, minted again and transferred once more; the
second Item starts its own count, which is 1 at the end. -/
theorem transfers_after_burn_and_new_mint :
    exKeeper.transfersSinceMint "TNFT" "I1"
      (exCtx (exToken (MintFlag ||| BurnFlag ||| TransferableFlag ||| ApprovedFlag) 0 1)) 0
      [Call.Mint "TNFT" addrA addrB "I1" "p" "m", Call.Transfer "TNFT" addrB addrC "I1",
        Call.Burn "TNFT" addrC "I1", Call.Mint "TNFT" addrA addrB "I1" "p" "m",
        Call.Transfer "TNFT" addrB addrC "I1"] = 1 ∧
    exKeeper.successes
      (exCtx (exToken (MintFlag ||| BurnFlag ||| TransferableFlag ||| ApprovedFlag) 0 1))
      [Call.Mint "TNFT" addrA addrB "I1" "p" "m", Call.Transfer "TNFT" addrB addrC "I1",
        Call.Burn "TNFT" addrC "I1", Call.Mint "TNFT" addrA addrB "I1" "p" "m",
        Call.Transfer "TNFT" addrB addrC "I1"] = 5 := by
  decide

/-- The run of the witness of C14 has exactly two successful transfers. -/
theorem transfers_of_example_item :
    exKeeper.successes (exCtxItem (exToken (TransferableFlag ||| ApprovedFlag) 2 2) addrB 0)
      [Call.Transfer "TNFT" addrB addrC "I1", Call.Transfer "TNFT" addrC addrA "I1",
        Call.Transfer "TNFT" addrA addrB "I1"] = 2 := by
  decide

/-! ## Round trip -/

/-- C17, the claim as stated fails: on a Public Token with every other flag of
the claim set, the mint by the owner `addrA` to another account `addrB` is
rejected, so the round trip stops at its first step. -/
theorem round_trip_fails_on_public_token :
    (exToken (PubFlag ||| MintFlag ||| BurnFlag ||| ApprovedFlag ||| TransferableFlag) 0
      2).Flags.HasFlag ApprovedFlag = true ∧
    (exToken (PubFlag ||| MintFlag ||| BurnFlag ||| ApprovedFlag ||| TransferableFlag) 0
      2).Flags.HasFlag MintFlag = true ∧
    (exToken (PubFlag ||| MintFlag ||| BurnFlag ||| ApprovedFlag ||| TransferableFlag) 0
      2).Flags.HasFlag TransferableFlag = true ∧
    (exToken (PubFlag ||| MintFlag ||| BurnFlag ||| ApprovedFlag ||| TransferableFlag) 0
      2).Flags.HasFlag BurnFlag = true ∧
    (exToken (PubFlag ||| MintFlag ||| BurnFlag ||| ApprovedFlag ||| TransferableFlag) 0
      2).Flags.HasFlag FrozenFlag = false ∧
    1 ≤ (exToken (PubFlag ||| MintFlag ||| BurnFlag ||| ApprovedFlag ||| TransferableFlag) 0
      2).TransferLimit ∧
    (exCtx (exToken (PubFlag ||| MintFlag ||| BurnFlag ||| ApprovedFlag ||| TransferableFlag) 0
      2)).store.item "TNFT" "I1" = none ∧
    (exKeeper.MintNonFungibleToken
      (exCtx (exToken (PubFlag ||| MintFlag ||| BurnFlag ||| ApprovedFlag ||| TransferableFlag)
        0 2)) "TNFT" addrA addrB "I1" "p" "m").1
      = Result.err (Error.ErrInternal "Public token can only be minted to oneself.") := by
  decide

/-- C17, amended.  From every state in which the Token of a symbol (kept under
that symbol) is Approved, Mintable, Transferable, Burnable, not Frozen, has a
transfer limit of at least 1 and is either not Public or owned by `b`, and
in which itemID is unused, the accounts of the owner, of `b` and of `c`
exist and the mint limit is not reached for `b`: the mint by the owner to
`b`, the transfer from `b` to `c` and the burn by `c` succeed one after the
other, and the final state has no Item body and no owner-index entry for
`(symbol, itemID)` and a total supply equal to the initial one plus 1. -/
theorem mint_transfer_burn_round_trip (k : Keeper) (ctx : Context) (symbol : String)
    (b c : AccAddress) (itemID properties metadata : String) (token : Token)
    (accountA accountB accountC : Account)
    (hget : ctx.store.token symbol = some token)
    (hkey : token.Symbol = symbol)
    (happroved : token.Flags.HasFlag ApprovedFlag = true)
    (hmint : token.Flags.HasFlag MintFlag = true)
    (htransferable : token.Flags.HasFlag TransferableFlag = true)
    (hburn : token.Flags.HasFlag BurnFlag = true)
    (hfrozen : token.Flags.HasFlag FrozenFlag = false)
    (hlimit : 1 ≤ token.TransferLimit)
    (hunused : ctx.store.item symbol itemID = none)
    (hA : k.accountKeeper.GetAccount token.Owner = some accountA)
    (hB : k.accountKeeper.GetAccount b = some accountB)
    (hC : k.accountKeeper.GetAccount c = some accountC)
    (hmintLimit : token.MintLimit = 0 ∨
      (ctx.store.mintLimit symbol b).getD 0 < token.MintLimit)
    (hpublic : token.Flags.HasFlag PubFlag = true → token.Owner = b) :
    (k.MintNonFungibleToken ctx symbol token.Owner b itemID properties metadata).1.IsOK
      = true ∧
    (k.TransferNonFungibleToken
      (k.MintNonFungibleToken ctx symbol token.Owner b itemID properties metadata).2
      symbol b c itemID).1.IsOK = true ∧
    (k.BurnNonFungibleToken
      (k.TransferNonFungibleToken
        (k.MintNonFungibleToken ctx symbol token.Owner b itemID properties metadata).2
        symbol b c itemID).2 symbol c itemID).1.IsOK = true ∧
    (k.BurnNonFungibleToken
      (k.TransferNonFungibleToken
        (k.MintNonFungibleToken ctx symbol token.Owner b itemID properties metadata).2
        symbol b c itemID).2 symbol c itemID).2.store.item symbol itemID = none ∧
    (k.BurnNonFungibleToken
      (k.TransferNonFungibleToken
        (k.MintNonFungibleToken ctx symbol token.Owner b itemID properties metadata).2
        symbol b c itemID).2 symbol c itemID).2.store.itemOwner symbol itemID = none ∧
    (k.BurnNonFungibleToken
      (k.TransferNonFungibleToken
        (k.MintNonFungibleToken ctx symbol token.Owner b itemID properties metadata).2
        symbol b c itemID).2 symbol c itemID).2.store.token symbol
      = some { token with TotalSupply := token.TotalSupply + 1 } := by
  -- the mint
  have hauth : (token.Flags.HasFlag PubFlag = false ∧ token.Owner = token.Owner) ∨
      (token.Flags.HasFlag PubFlag = true ∧ token.Owner = b) := by
    cases hpub : token.Flags.HasFlag PubFlag with
    | false => exact Or.inl ⟨rfl, rfl⟩
    | true => exact Or.inr ⟨rfl, hpublic hpub⟩
  have hok1 := k.mint_succeeds ctx symbol token.Owner b itemID properties metadata token
    accountA hget hkey hA hauth hmint happroved hfrozen hunused hmintLimit
  obtain ⟨token0, hget0, _, htoken1, hitem1, howner1⟩ :=
    k.mint_ok_shape ctx symbol token.Owner b itemID properties metadata hok1
  rw [hget] at hget0
  cases hget0
  generalize (k.MintNonFungibleToken ctx symbol token.Owner b itemID properties metadata).2
    = ctx1 at htoken1 hitem1 howner1 ⊢
  have hget1 : ctx1.store.token symbol
      = some { token with TotalSupply := token.TotalSupply + 1 } := by
    rw [htoken1]; simp
  have hbody1 : ctx1.store.item symbol itemID
      = some (Item.mk itemID properties metadata 0 false) := by
    rw [hitem1]; simp [hkey]
  have hown1 : ctx1.store.itemOwner symbol itemID = some b := by
    rw [howner1]; simp [hkey]
  -- the transfer
  have hok2 := k.transfer_succeeds ctx1 symbol b c itemID
    { token with TotalSupply := token.TotalSupply + 1 }
    (Item.mk itemID properties metadata 0 false) accountB b hget1 htransferable hB hfrozen
    hown1 hbody1 (Nat.lt_of_lt_of_le Nat.zero_lt_one hlimit)
  obtain ⟨token2, item2, hget2, hbody2, _, _, _, htoken2, hitem2, howner2⟩ :=
    k.transfer_ok_shape ctx1 symbol b c itemID hok2
  generalize (k.TransferNonFungibleToken ctx1 symbol b c itemID).2 = ctx2
    at htoken2 hitem2 howner2 ⊢
  have hget3 : ctx2.store.token symbol
      = some { token with TotalSupply := token.TotalSupply + 1 } := by
    rw [htoken2]; exact hget1
  have hbody3 : ctx2.store.item symbol itemID
      = some { item2 with TransferLimit := item2.TransferLimit + 1 } := by
    rw [hitem2]; simp
  have hown3 : ctx2.store.itemOwner symbol itemID = some c := by
    rw [howner2]; simp
  -- the burn
  have hok3 := k.burn_succeeds ctx2 symbol c itemID
    { token with TotalSupply := token.TotalSupply + 1 } _ accountC hget3 hburn hC happroved
    hfrozen hbody3 hown3
  obtain ⟨htoken3, hitem3, howner3⟩ := k.burn_ok_shape ctx2 symbol c itemID hok3
  refine ⟨hok1, hok2, hok3, ?_, ?_, ?_⟩
  · rw [hitem3]; simp
  · rw [howner3]; simp
  · rw [htoken3]; exact hget3

/-- Witness of C17 as amended: on the private example token the owner `addrA`
mints `I1` to `addrB`, who transfers it to `addrC`, who burns it. -/
theorem mint_transfer_burn_round_trip_witness :
    (exToken (MintFlag ||| BurnFlag ||| ApprovedFlag ||| TransferableFlag) 0
      2).Flags.HasFlag PubFlag = false ∧
    (exKeeper.BurnNonFungibleToken
      (exKeeper.TransferNonFungibleToken
        (exKeeper.MintNonFungibleToken
          (exCtx (exToken (MintFlag ||| BurnFlag ||| ApprovedFlag ||| TransferableFlag) 0 2))
          "TNFT" addrA addrB "I1" "p" "m").2
        "TNFT" addrB addrC "I1").2 "TNFT" addrC "I1").1.IsOK = true :=
  ⟨by decide,
    (mint_transfer_burn_round_trip exKeeper
      (exCtx (exToken (MintFlag ||| BurnFlag ||| ApprovedFlag ||| TransferableFlag) 0 2))
      "TNFT" addrB addrC "I1" "p" "m"
      (exToken (MintFlag ||| BurnFlag ||| ApprovedFlag ||| TransferableFlag) 0 2)
      (Account.mk addrA 7) (Account.mk addrB 8) (Account.mk addrC 9)
      rfl rfl (by decide) (by decide) (by decide) (by decide) (by decide) (by decide) rfl
      (by decide) (by decide) (by decide) (Or.inl rfl)
      (fun h => absurd h (by decide))).2.2.1⟩

/-! ## Ownership hand-over -/

/-- The keeper entry point `TransferTokenOwnership` never reads the three
ownership-transfer flags.  Called directly on the example token with the
TransferOwnershipPending flag set and `NewOwner = addrB`, for which
`IsTokenOwnershipTransferrable` reports false, the transfer of ownership by
the owner `addrA` to `addrC` succeeds and stores `NewOwner = addrC`: the
protection of a transfer in flight is the caller's consultation of the
predicate. -/
theorem transferOwnership_overwrites_pending_transfer :
    exTokenPending.Flags.HasFlag TransferTokenOwnershipFlag = true ∧
    exTokenPending.NewOwner = addrB ∧
    (exKeeper.IsTokenOwnershipTransferrable (exCtx exTokenPending) "TNFT").1 = false ∧
    (exKeeper.TransferTokenOwnership (exCtx exTokenPending) "TNFT" addrA addrC).1.IsOK
      = true ∧
    ((exKeeper.TransferTokenOwnership (exCtx exTokenPending)
      "TNFT" addrA addrC).2.store.token "TNFT").map Token.NewOwner = some addrC := by
  decide

/-- C22. After a successful transfer of ownership of a Token (kept under its
own symbol) from its owner `a` to `b`, the stored Token still has owner `a`,
has `NewOwner = b` and the pending flag set; an acceptance by any caller other
than `b` returns `ErrInvalidTokenNewOwner` and leaves the context, hence
that Token, as it is; an acceptance by `b` succeeds and stores a Token with
owner `b` and none of the three ownership-transfer flags set. -/
theorem ownership_handover (k : Keeper) (ctx : Context) (symbol : String)
    (a b : AccAddress) (token : Token)
    (hget : ctx.store.token symbol = some token)
    (hkey : token.Symbol = symbol)
    (hok : (k.TransferTokenOwnership ctx symbol a b).1.IsOK = true) :
    token.Owner = a ∧
    (k.TransferTokenOwnership ctx symbol a b).2.store.token symbol
      = some { token with
          NewOwner := b
          Flags := token.Flags.AddFlag TransferTokenOwnershipFlag } ∧
    (token.Flags.AddFlag TransferTokenOwnershipFlag).HasFlag TransferTokenOwnershipFlag
      = true ∧
    (∀ c : AccAddress, c ≠ b →
      k.AcceptTokenOwnership (k.TransferTokenOwnership ctx symbol a b).2 symbol c
        = (Result.err Error.ErrInvalidTokenNewOwner,
            (k.TransferTokenOwnership ctx symbol a b).2)) ∧
    (k.AcceptTokenOwnership (k.TransferTokenOwnership ctx symbol a b).2 symbol b).1.IsOK
      = true ∧
    (∃ token2,
      (k.AcceptTokenOwnership (k.TransferTokenOwnership ctx symbol a b).2
        symbol b).2.store.token symbol = some token2 ∧
      token2.Owner = b ∧
      token2.Flags.HasFlag TransferTokenOwnershipFlag = false ∧
      token2.Flags.HasFlag AcceptTokenOwnershipFlag = false ∧
      token2.Flags.HasFlag ApproveTransferTokenOwnershipFlag = false) := by
  obtain ⟨token0, account, hget0, haccount, howner, happroved, hfrozen⟩ :=
    k.transferOwnership_ok_conditions ctx symbol a b hok
  rw [hget] at hget0
  cases hget0
  obtain ⟨token0, hget0, htoken1, _⟩ := k.transferOwnership_ok_shape ctx symbol a b hok
  rw [hget] at hget0
  cases hget0
  generalize (k.TransferTokenOwnership ctx symbol a b).2 = ctx1 at htoken1 ⊢
  have hpend : (token.Flags.AddFlag TransferTokenOwnershipFlag).HasFlag
      TransferTokenOwnershipFlag = true :=
    Bitmask.hasFlag_addFlag_self _ _ (by decide)
  have hget1 : ctx1.store.token symbol
      = some { token with
          NewOwner := b
          Flags := token.Flags.AddFlag TransferTokenOwnershipFlag } := by
    rw [htoken1]; simp [hkey]
  have happroved1 : (token.Flags.AddFlag TransferTokenOwnershipFlag).HasFlag ApprovedFlag
      = true := by
    rw [Bitmask.hasFlag_addFlag_of_disjoint _ _ _ (by decide)]; exact happroved
  have hfrozen1 : (token.Flags.AddFlag TransferTokenOwnershipFlag).HasFlag FrozenFlag
      = false := by
    rw [Bitmask.hasFlag_addFlag_of_disjoint _ _ _ (by decide)]; exact hfrozen
  have hok2 := k.acceptOwnership_succeeds ctx1 symbol b _ account hget1
    (Or.inr (Or.inr hpend)) haccount rfl happroved1 hfrozen1
  refine ⟨howner, hget1, hpend, ?_, hok2, ?_⟩
  · intro c hc
    exact k.acceptOwnership_wrong_caller ctx1 symbol c _ account hget1
      (Or.inr (Or.inr hpend)) haccount (fun h => hc h.symm)
  · obtain ⟨token1, hget1a, htoken2, _⟩ := k.acceptOwnership_ok_shape ctx1 symbol b hok2
    rw [hget1] at hget1a
    cases hget1a
    have hget2 : (k.AcceptTokenOwnership ctx1 symbol b).2.store.token symbol
        = some { token with
            Owner := b
            NewOwner := []
            Flags := (((token.Flags.AddFlag TransferTokenOwnershipFlag).RemoveFlag
              ApproveTransferTokenOwnershipFlag).RemoveFlag
              AcceptTokenOwnershipFlag).RemoveFlag TransferTokenOwnershipFlag } := by
      rw [htoken2]; simp [hkey]
    refine ⟨_, hget2, rfl, ?_, ?_, ?_⟩
    · exact Bitmask.hasFlag_removeFlag_self _ _
    · exact Bitmask.hasFlag_removeFlag_of_not _ _ _ (Bitmask.hasFlag_removeFlag_self _ _)
    · exact Bitmask.hasFlag_removeFlag_of_not _ _ _
        (Bitmask.hasFlag_removeFlag_of_not _ _ _ (Bitmask.hasFlag_removeFlag_self _ _))

/-- Witness of C22: the owner `addrA` offers the example token to `addrB`,
`addrC` cannot accept, `addrB` can. -/
theorem ownership_handover_witness :
    (exKeeper.TransferTokenOwnership (exCtx (exToken ApprovedFlag 2 2)) "TNFT" addrA addrB).1.IsOK
      = true ∧
    exKeeper.AcceptTokenOwnership
      (exKeeper.TransferTokenOwnership (exCtx (exToken ApprovedFlag 2 2)) "TNFT" addrA addrB).2
      "TNFT" addrC
      = (Result.err Error.ErrInvalidTokenNewOwner,
          (exKeeper.TransferTokenOwnership (exCtx (exToken ApprovedFlag 2 2))
            "TNFT" addrA addrB).2) ∧
    (exKeeper.AcceptTokenOwnership
      (exKeeper.TransferTokenOwnership (exCtx (exToken ApprovedFlag 2 2)) "TNFT" addrA addrB).2
      "TNFT" addrB).1.IsOK = true :=
  ⟨by decide,
    (ownership_handover exKeeper (exCtx (exToken ApprovedFlag 2 2)) "TNFT" addrA addrB
      (exToken ApprovedFlag 2 2) rfl rfl (by decide)).2.2.2.1 addrC (by decide),
    (ownership_handover exKeeper (exCtx (exToken ApprovedFlag 2 2)) "TNFT" addrA addrB
      (exToken ApprovedFlag 2 2) rfl rfl (by decide)).2.2.2.2.1⟩

/-- C23. Every successful acceptance of ownership of a Token kept under its
own symbol stores the Token with its owner equal to the previous `NewOwner`,
an empty `NewOwner` and the flags with the three ownership-transfer flags
removed, every other field as before.  In the stored flags the three
ownership-transfer flags are cleared, every flag that shares no bit with them
(Approved, Frozen, Burnable, Mintable, Transferable, Modifiable, Public) tests
as before, and every bit other than bits 8, 9 and 10 is as before.  No Item
record is touched. -/
theorem acceptOwnership_success_effect (k : Keeper) (ctx : Context) (symbol : String)
    (from_ : AccAddress) (token : Token)
    (hget : ctx.store.token symbol = some token)
    (hkey : token.Symbol = symbol)
    (hok : (k.AcceptTokenOwnership ctx symbol from_).1.IsOK = true) :
    (k.AcceptTokenOwnership ctx symbol from_).2.store.token symbol
      = some { token with
          Owner := token.NewOwner
          NewOwner := []
          Flags := ((token.Flags.RemoveFlag ApproveTransferTokenOwnershipFlag).RemoveFlag
            AcceptTokenOwnershipFlag).RemoveFlag TransferTokenOwnershipFlag } ∧
    (((token.Flags.RemoveFlag ApproveTransferTokenOwnershipFlag).RemoveFlag
      AcceptTokenOwnershipFlag).RemoveFlag TransferTokenOwnershipFlag).HasFlag
        TransferTokenOwnershipFlag = false ∧
    (((token.Flags.RemoveFlag ApproveTransferTokenOwnershipFlag).RemoveFlag
      AcceptTokenOwnershipFlag).RemoveFlag TransferTokenOwnershipFlag).HasFlag
        AcceptTokenOwnershipFlag = false ∧
    (((token.Flags.RemoveFlag ApproveTransferTokenOwnershipFlag).RemoveFlag
      AcceptTokenOwnershipFlag).RemoveFlag TransferTokenOwnershipFlag).HasFlag
        ApproveTransferTokenOwnershipFlag = false ∧
    (∀ flag : Bitmask,
      ApproveTransferTokenOwnershipFlag &&& flag = 0 →
      AcceptTokenOwnershipFlag &&& flag = 0 →
      TransferTokenOwnershipFlag &&& flag = 0 →
      (((token.Flags.RemoveFlag ApproveTransferTokenOwnershipFlag).RemoveFlag
        AcceptTokenOwnershipFlag).RemoveFlag TransferTokenOwnershipFlag).HasFlag flag
        = token.Flags.HasFlag flag) ∧
    (∀ i : Nat, i ≠ 8 → i ≠ 9 → i ≠ 10 →
      (((token.Flags.RemoveFlag ApproveTransferTokenOwnershipFlag).RemoveFlag
        AcceptTokenOwnershipFlag).RemoveFlag TransferTokenOwnershipFlag).testBit i
        = token.Flags.testBit i) ∧
    (k.AcceptTokenOwnership ctx symbol from_).2.store.item = ctx.store.item ∧
    (k.AcceptTokenOwnership ctx symbol from_).2.store.itemOwner = ctx.store.itemOwner := by
  obtain ⟨token0, _, hget0, _, hnew, _, _⟩ := k.acceptOwnership_ok_conditions ctx symbol from_ hok
  rw [hget] at hget0
  cases hget0
  obtain ⟨token0, hget0, htoken1, hitem1⟩ := k.acceptOwnership_ok_shape ctx symbol from_ hok
  rw [hget] at hget0
  cases hget0
  refine ⟨?_, ?_, ?_, ?_, ?_, ?_, hitem1, ?_⟩
  · rw [htoken1]; simp [hkey, hnew]
  · exact Bitmask.hasFlag_removeFlag_self _ _
  · exact Bitmask.hasFlag_removeFlag_of_not _ _ _ (Bitmask.hasFlag_removeFlag_self _ _)
  · exact Bitmask.hasFlag_removeFlag_of_not _ _ _
      (Bitmask.hasFlag_removeFlag_of_not _ _ _ (Bitmask.hasFlag_removeFlag_self _ _))
  · intro flag h1 h2 h3
    rw [Bitmask.hasFlag_removeFlag_of_disjoint _ _ _ h3,
      Bitmask.hasFlag_removeFlag_of_disjoint _ _ _ h2,
      Bitmask.hasFlag_removeFlag_of_disjoint _ _ _ h1]
  · intro i h8 h9 h10
    have ht : TransferTokenOwnershipFlag = 2 ^ 8 := rfl
    have hp : ApproveTransferTokenOwnershipFlag = 2 ^ 9 := rfl
    have hc : AcceptTokenOwnershipFlag = 2 ^ 10 := rfl
    have d8 : decide (8 = i) = false := by simpa using fun h => h8 h.symm
    have d9 : decide (9 = i) = false := by simpa using fun h => h9 h.symm
    have d10 : decide (10 = i) = false := by simpa using fun h => h10 h.symm
    simp only [Bitmask.testBit_removeFlag, ht, hp, hc, Nat.testBit_two_pow, d8, d9, d10,
      Bool.not_false, Bool.and_true]
  · generalize hr : k.AcceptTokenOwnership ctx symbol from_ = r
    unfold Keeper.AcceptTokenOwnership Keeper.acceptNonFungibleTokenOwnership at hr
    simp only [Keeper.mustGetTokenData, Keeper.getTokenData, hget] at hr
    repeat' split at hr
    all_goals subst hr
    all_goals simp [Keeper.storeToken]

/-- Witness of C23: `addrB` accepts the example token offered to it. -/
theorem acceptOwnership_success_effect_witness :
    (exKeeper.AcceptTokenOwnership (exCtx exTokenPending) "TNFT" addrB).1.IsOK = true ∧
    ((exKeeper.AcceptTokenOwnership (exCtx exTokenPending) "TNFT" addrB).2.store.token
      "TNFT").map Token.Owner = some addrB :=
  ⟨by decide, by
    rw [(acceptOwnership_success_effect exKeeper (exCtx exTokenPending) "TNFT" addrB
      exTokenPending rfl rfl (by decide)).1]
    rfl⟩

/-- C24. An acceptance of ownership on a Token with none of the three
ownership-transfer flags set returns `ErrInvalidTokenAction` for every caller
and leaves the context, hence the Token, as it was. -/
theorem acceptOwnership_without_pending_rejected (k : Keeper) (ctx : Context)
    (symbol : String) (from_ : AccAddress) (token : Token)
    (hget : ctx.store.token symbol = some token)
    (htransfer : token.Flags.HasFlag TransferTokenOwnershipFlag = false)
    (haccept : token.Flags.HasFlag AcceptTokenOwnershipFlag = false)
    (happrove : token.Flags.HasFlag ApproveTransferTokenOwnershipFlag = false) :
    k.AcceptTokenOwnership ctx symbol from_ = (Result.err Error.ErrInvalidTokenAction, ctx) := by
  unfold Keeper.AcceptTokenOwnership Keeper.acceptNonFungibleTokenOwnership
  simp [Keeper.mustGetTokenData, Keeper.getTokenData, hget, htransfer, haccept, happrove]

/-- Witness of C24: nothing is pending on the approved example token. -/
theorem acceptOwnership_without_pending_rejected_witness :
    (exToken ApprovedFlag 2 2).Flags.HasFlag TransferTokenOwnershipFlag = false ∧
    exKeeper.AcceptTokenOwnership (exCtx (exToken ApprovedFlag 2 2)) "TNFT" addrB
      = (Result.err Error.ErrInvalidTokenAction, exCtx (exToken ApprovedFlag 2 2)) :=
  ⟨by decide,
    acceptOwnership_without_pending_rejected exKeeper (exCtx (exToken ApprovedFlag 2 2))
      "TNFT" addrB (exToken ApprovedFlag 2 2) rfl (by decide) (by decide) (by decide)⟩

/-- C25. `IsTokenOwnershipTransferrable` returns true if and only if the
symbol resolves to a Token and none of the TransferOwnershipPending,
AcceptOwnershipReady and ApproveTransferOwnershipReady flags is set; it
returns false as soon as one of the three is set; and the context at its
return is the context it was given: it writes nothing. -/
theorem isTokenOwnershipTransferrable_iff (k : Keeper) (ctx : Context) (symbol : String) :
    ((k.IsTokenOwnershipTransferrable ctx symbol).1 = true ↔
      ∃ token, ctx.store.token symbol = some token ∧
        token.Flags.HasFlag TransferTokenOwnershipFlag = false ∧
        token.Flags.HasFlag AcceptTokenOwnershipFlag = false ∧
        token.Flags.HasFlag ApproveTransferTokenOwnershipFlag = false) ∧
    (∀ token, ctx.store.token symbol = some token →
      (token.Flags.HasFlag TransferTokenOwnershipFlag = true ∨
        token.Flags.HasFlag AcceptTokenOwnershipFlag = true ∨
        token.Flags.HasFlag ApproveTransferTokenOwnershipFlag = true) →
      (k.IsTokenOwnershipTransferrable ctx symbol).1 = false) ∧
    (k.IsTokenOwnershipTransferrable ctx symbol).2 = ctx := by
  unfold Keeper.IsTokenOwnershipTransferrable
  simp only [Keeper.mustGetTokenData, Keeper.getTokenData]
  cases hget : ctx.store.token symbol with
  | none => simp
  | some token =>
    dsimp only
    refine ⟨?_, ?_, ?_⟩
    · by_cases h : (token.Flags.HasFlag TransferTokenOwnershipFlag
          || token.Flags.HasFlag AcceptTokenOwnershipFlag
          || token.Flags.HasFlag ApproveTransferTokenOwnershipFlag) = true
      · simp only [h, if_true]
        simp only [Bool.or_eq_true] at h
        constructor
        · intro hfalse; cases hfalse
        · rintro ⟨token1, h1, h2, h3, h4⟩
          cases h1
          simp_all
      · simp only [h, if_false]
        simp only [Bool.or_eq_true, not_or, Bool.not_eq_true] at h
        exact ⟨fun _ => ⟨token, rfl, h.1.1, h.1.2, h.2⟩, fun _ => rfl⟩
    · intro token1 h1 hany
      cases h1
      have h : (token.Flags.HasFlag TransferTokenOwnershipFlag
          || token.Flags.HasFlag AcceptTokenOwnershipFlag
          || token.Flags.HasFlag ApproveTransferTokenOwnershipFlag) = true := by
        rcases hany with h | h | h <;> simp [h]
      simp only [h, if_true]
    · split_ifs <;> rfl

/-- Witness of C25: with a transfer pending the example token is not
transferrable. -/
theorem isTokenOwnershipTransferrable_iff_witness :
    exTokenPending.Flags.HasFlag TransferTokenOwnershipFlag = true ∧
    (exKeeper.IsTokenOwnershipTransferrable (exCtx exTokenPending) "TNFT").1 = false :=
  ⟨by decide,
    (isTokenOwnershipTransferrable_iff exKeeper (exCtx exTokenPending) "TNFT").2.1
      exTokenPending rfl (Or.inl (by decide))⟩

/-! ## Endorsement -/

/-- The keeper entry point `MakeEndorsement` never reads the Token.  Called
directly on the example token whose endorser list holds `addrA` only, the
endorsement of the existing Item `I1` by the existing account `addrC`
succeeds, and so it does on the example token with an empty endorser list:
membership of the endorser list is not checked by the entry point. -/
theorem endorsement_by_non_member_succeeds :
    exTokenEndorsers.EndorserList = [addrA] ∧
    addrC ∉ exTokenEndorsers.EndorserList ∧
    (exCtxItem exTokenEndorsers addrB 0).store.item "TNFT" "I1"
      = some (Item.mk "I1" "properties" "metadata" 0 false) ∧
    exKeeper.accountKeeper.GetAccount addrC = some (Account.mk addrC 9) ∧
    (exKeeper.MakeEndorsement (exCtxItem exTokenEndorsers addrB 0) "TNFT" addrC "I1").1.IsOK
      = true ∧
    (exToken ApprovedFlag 2 2).EndorserList = [] ∧
    (exKeeper.MakeEndorsement (exCtxItem (exToken ApprovedFlag 2 2) addrB 0)
      "TNFT" addrC "I1").1.IsOK = true := by
  decide

/-- C27. An endorsement never changes the state: whether it succeeds or
fails, the context after the call is the context before it; and it fails
when the caller's account does not exist and when no Item exists for
`(symbol, itemID)`. -/
theorem endorsement_changes_nothing (k : Keeper) (ctx : Context) (symbol : String)
    (from_ : AccAddress) (itemID : String) :
    (k.MakeEndorsement ctx symbol from_ itemID).2 = ctx ∧
    (k.MakeEndorsement ctx symbol from_ itemID).2.store = ctx.store ∧
    (k.accountKeeper.GetAccount from_ = none →
      (k.MakeEndorsement ctx symbol from_ itemID).1.IsOK = false) ∧
    (ctx.store.item symbol itemID = none →
      (k.MakeEndorsement ctx symbol from_ itemID).1.IsOK = false) := by
  have hkeep := k.endorsement_keeps ctx symbol from_ itemID
  have hiff := k.endorsement_succeeds_iff ctx symbol from_ itemID
  refine ⟨hkeep, by rw [hkeep], ?_, ?_⟩
  · intro hnone
    cases hok : (k.MakeEndorsement ctx symbol from_ itemID).1.IsOK with
    | false => rfl
    | true =>
      have h := (hiff.mp hok).1
      rw [hnone] at h
      cases h
  · intro hnone
    cases hok : (k.MakeEndorsement ctx symbol from_ itemID).1.IsOK with
    | false => rfl
    | true =>
      have h := (hiff.mp hok).2
      rw [hnone] at h
      cases h

/-- Witness of C27: an endorsement of a missing Item fails and changes
nothing. -/
theorem endorsement_changes_nothing_witness :
    (exCtx (exToken ApprovedFlag 2 2)).store.item "TNFT" "I9" = none ∧
    (exKeeper.MakeEndorsement (exCtx (exToken ApprovedFlag 2 2)) "TNFT" addrA "I9").1.IsOK
      = false ∧
    (exKeeper.MakeEndorsement (exCtx (exToken ApprovedFlag 2 2)) "TNFT" addrA "I9").2
      = exCtx (exToken ApprovedFlag 2 2) :=
  ⟨rfl,
    (endorsement_changes_nothing exKeeper (exCtx (exToken ApprovedFlag 2 2))
      "TNFT" addrA "I9").2.2.2 rfl,
    (endorsement_changes_nothing exKeeper (exCtx (exToken ApprovedFlag 2 2))
      "TNFT" addrA "I9").1⟩

/-! ## Metadata -/

/-- C28. An item metadata update succeeds if and only if the caller's
account exists, an Item exists for `(symbol, itemID)` and the owner resolved
from the owner index is the caller.  Its result does not depend on the Token
records: replacing them all changes neither the result nor the item records
written.  On success, for an Item stored under its own ID, the body under
`(symbol, itemID)` is the old one with the metadata replaced by the supplied
string (ID, properties, transfer counter and frozen mark as before) and the
owner is still the caller. -/
theorem updateItemMetadata_succeeds_iff (k : Keeper) (ctx : Context) (symbol : String)
    (from_ : AccAddress) (itemID metadata : String) :
    ((k.UpdateItemMetadata ctx symbol from_ itemID metadata).1.IsOK = true ↔
      (k.accountKeeper.GetAccount from_).isSome = true ∧
      (ctx.store.item symbol itemID).isSome = true ∧
      k.getNonFungibleItemOwner ctx symbol itemID = from_) ∧
    (∀ tokens : String → Option Token,
      (k.UpdateItemMetadata { ctx with store := { ctx.store with token := tokens } }
        symbol from_ itemID metadata).1
        = (k.UpdateItemMetadata ctx symbol from_ itemID metadata).1 ∧
      (k.UpdateItemMetadata { ctx with store := { ctx.store with token := tokens } }
        symbol from_ itemID metadata).2.store.item
        = (k.UpdateItemMetadata ctx symbol from_ itemID metadata).2.store.item ∧
      (k.UpdateItemMetadata { ctx with store := { ctx.store with token := tokens } }
        symbol from_ itemID metadata).2.store.itemOwner
        = (k.UpdateItemMetadata ctx symbol from_ itemID metadata).2.store.itemOwner) ∧
    (∀ item : Item, ctx.store.item symbol itemID = some item → item.ID = itemID →
      (k.UpdateItemMetadata ctx symbol from_ itemID metadata).1.IsOK = true →
      (k.UpdateItemMetadata ctx symbol from_ itemID metadata).2.store.item symbol itemID
        = some { item with Metadata := metadata } ∧
      k.getNonFungibleItemOwner ctx symbol itemID = from_ ∧
      k.getNonFungibleItemOwner (k.UpdateItemMetadata ctx symbol from_ itemID metadata).2
        symbol itemID = from_) := by
  refine ⟨k.updateItem_succeeds_iff ctx symbol from_ itemID metadata, ?_, ?_⟩
  · intro tokens
    unfold Keeper.UpdateItemMetadata
    simp only [Keeper.getNonFungibleItem, Keeper.getNonFungibleItemOwner,
      Keeper.storeNonFungibleItem]
    cases k.accountKeeper.GetAccount from_ with
    | none => exact ⟨rfl, rfl, rfl⟩
    | some account =>
      cases ctx.store.item symbol itemID with
      | none => exact ⟨rfl, rfl, rfl⟩
      | some item =>
        dsimp only
        split_ifs
        · exact ⟨rfl, rfl, rfl⟩
        · exact ⟨rfl, rfl, rfl⟩
  · intro item hitem hid hok
    have howner := ((k.updateItem_succeeds_iff ctx symbol from_ itemID metadata).mp hok).2.2
    refine ⟨?_, howner, ?_⟩
    · generalize hr : k.UpdateItemMetadata ctx symbol from_ itemID metadata = r at hok
      unfold Keeper.UpdateItemMetadata at hr
      simp only [Keeper.getNonFungibleItem, hitem] at hr
      repeat' split at hr
      all_goals subst hr
      all_goals simp_all [Result.IsOK, Keeper.storeNonFungibleItem]
    · generalize hr : k.UpdateItemMetadata ctx symbol from_ itemID metadata = r at hok
      unfold Keeper.UpdateItemMetadata at hr
      simp only [Keeper.getNonFungibleItem, hitem] at hr
      repeat' split at hr
      all_goals subst hr
      all_goals simp_all [Result.IsOK, Keeper.storeNonFungibleItem,
        Keeper.getNonFungibleItemOwner]

/-- Witness of C28: the owner `addrB` of `I1` replaces its metadata, under a
Token that is neither Approved nor unfrozen. -/
theorem updateItemMetadata_succeeds_iff_witness :
    (exKeeper.UpdateItemMetadata (exCtxItem (exToken FrozenFlag 2 2) addrB 0)
      "TNFT" addrB "I1" "new").1.IsOK = true ∧
    (exKeeper.UpdateItemMetadata (exCtxItem (exToken FrozenFlag 2 2) addrB 0)
      "TNFT" addrB "I1" "new").2.store.item "TNFT" "I1"
      = some { Item.mk "I1" "properties" "metadata" 0 false with Metadata := "new" } :=
  ⟨by decide,
    ((updateItemMetadata_succeeds_iff exKeeper (exCtxItem (exToken FrozenFlag 2 2) addrB 0)
      "TNFT" addrB "I1" "new").2.2 (Item.mk "I1" "properties" "metadata" 0 false) rfl rfl
      (by decide)).1⟩

/-- C29. A token metadata update succeeds if and only if the caller's account
exists, the symbol resolves to a Token, the caller is the Token's owner and
the Token is Approved.  On success the Token stored under the symbol is the
old one with the metadata replaced by the supplied string (owner, new owner,
flags, total supply, limits and endorser list as before).  On a Token that
is not Approved the update is rejected with nothing written, and the failure
is `ErrTokenInvalid`, the token-not-approved error, when the caller exists
and is the owner. -/
theorem updateNFTMetadata_succeeds_iff (k : Keeper) (ctx : Context) (symbol : String)
    (from_ : AccAddress) (metadata : String) :
    ((k.UpdateNFTMetadata ctx symbol from_ metadata).1.IsOK = true ↔
      (k.accountKeeper.GetAccount from_).isSome = true ∧
      ∃ token, ctx.store.token symbol = some token ∧
        token.Owner = from_ ∧
        token.Flags.HasFlag ApprovedFlag = true) ∧
    (∀ token : Token, ctx.store.token symbol = some token →
      (k.UpdateNFTMetadata ctx symbol from_ metadata).1.IsOK = true →
      (k.UpdateNFTMetadata ctx symbol from_ metadata).2.store.token symbol
        = some { token with Metadata := metadata }) ∧
    (∀ token : Token, ctx.store.token symbol = some token →
      token.Flags.HasFlag ApprovedFlag = false →
      (k.UpdateNFTMetadata ctx symbol from_ metadata).1.IsOK = false ∧
      (k.UpdateNFTMetadata ctx symbol from_ metadata).2 = ctx) ∧
    (∀ (token : Token) (account : Account), ctx.store.token symbol = some token →
      k.accountKeeper.GetAccount from_ = some account →
      token.Owner = from_ →
      token.Flags.HasFlag ApprovedFlag = false →
      k.UpdateNFTMetadata ctx symbol from_ metadata = (Result.err Error.ErrTokenInvalid, ctx)) := by
  have hiff := k.updateToken_succeeds_iff ctx symbol from_ metadata
  refine ⟨hiff, ?_, ?_, ?_⟩
  · intro token hget hok
    obtain ⟨token0, hget0, htoken, _⟩ := k.updateToken_ok_shape ctx symbol from_ metadata hok
    rw [hget] at hget0
    cases hget0
    rw [htoken]
    simp
  · intro token hget hunapproved
    have hfail : (k.UpdateNFTMetadata ctx symbol from_ metadata).1.IsOK = false := by
      cases hok : (k.UpdateNFTMetadata ctx symbol from_ metadata).1.IsOK with
      | false => rfl
      | true =>
        obtain ⟨_, token0, hget0, _, happroved⟩ := hiff.mp hok
        rw [hget] at hget0
        cases hget0
        rw [hunapproved] at happroved
        cases happroved
    exact ⟨hfail, k.updateToken_failure_keeps ctx symbol from_ metadata hfail⟩
  · intro token account hget haccount howner hunapproved
    unfold Keeper.UpdateNFTMetadata
    simp [Keeper.mustGetTokenData, Keeper.getTokenData, hget, haccount, howner,
      AccAddress.Equals, hunapproved]

/-- Witness of C29: the owner of the unapproved example token cannot replace
its metadata. -/
theorem updateNFTMetadata_succeeds_iff_witness :
    (exToken MintFlag 2 2).Flags.HasFlag ApprovedFlag = false ∧
    exKeeper.UpdateNFTMetadata (exCtx (exToken MintFlag 2 2)) "TNFT" addrA "new"
      = (Result.err Error.ErrTokenInvalid, exCtx (exToken MintFlag 2 2)) :=
  ⟨by decide,
    (updateNFTMetadata_succeeds_iff exKeeper (exCtx (exToken MintFlag 2 2))
      "TNFT" addrA "new").2.2.2 (exToken MintFlag 2 2) (Account.mk addrA 7) rfl (by decide)
      rfl (by decide)⟩

/-- The keeper entry points `UpdateNFTMetadata` and `UpdateItemMetadata`
apply no length bound.  Called directly, for every length `n` the string of
`n` letters `a` is accepted by both when the other preconditions hold and is
what is stored afterwards: the bound on the metadata is not checked by the
entry points. -/
theorem metadata_of_any_length_accepted :
    ∀ n : Nat,
      (String.mk (List.replicate n 'a')).length = n ∧
      (exKeeper.UpdateNFTMetadata (exCtx (exToken ApprovedFlag 2 2)) "TNFT" addrA
        (String.mk (List.replicate n 'a'))).1.IsOK = true ∧
      ((exKeeper.UpdateNFTMetadata (exCtx (exToken ApprovedFlag 2 2)) "TNFT" addrA
        (String.mk (List.replicate n 'a'))).2.store.token "TNFT").map Token.Metadata
        = some (String.mk (List.replicate n 'a')) ∧
      (exKeeper.UpdateItemMetadata (exCtxItem (exToken ApprovedFlag 2 2) addrB 0) "TNFT" addrB
        "I1" (String.mk (List.replicate n 'a'))).1.IsOK = true ∧
      ((exKeeper.UpdateItemMetadata (exCtxItem (exToken ApprovedFlag 2 2) addrB 0) "TNFT" addrB
        "I1" (String.mk (List.replicate n 'a'))).2.store.item "TNFT" "I1").map Item.Metadata
        = some (String.mk (List.replicate n 'a')) := by
  intro n
  have hok1 : (exKeeper.UpdateNFTMetadata (exCtx (exToken ApprovedFlag 2 2)) "TNFT" addrA
      (String.mk (List.replicate n 'a'))).1.IsOK = true :=
    (exKeeper.updateToken_succeeds_iff _ "TNFT" addrA _).mpr
      ⟨by decide, exToken ApprovedFlag 2 2, rfl, rfl, by decide⟩
  have hok2 : (exKeeper.UpdateItemMetadata (exCtxItem (exToken ApprovedFlag 2 2) addrB 0)
      "TNFT" addrB "I1" (String.mk (List.replicate n 'a'))).1.IsOK = true :=
    (exKeeper.updateItem_succeeds_iff _ "TNFT" addrB "I1" _).mpr
      ⟨by decide, by decide, by decide⟩
  refine ⟨by simp [String.length], hok1, ?_, hok2, ?_⟩
  · obtain ⟨token0, hget0, htoken, _⟩ :=
      exKeeper.updateToken_ok_shape _ "TNFT" addrA _ hok1
    have h0 : token0 = exToken ApprovedFlag 2 2 := by
      have : (exCtx (exToken ApprovedFlag 2 2)).store.token "TNFT"
          = some (exToken ApprovedFlag 2 2) := rfl
      rw [this] at hget0
      exact (Option.some.inj hget0).symm
    rw [htoken, h0]
    simp
  · obtain ⟨item0, hitem0, _, hitem⟩ :=
      exKeeper.updateItem_ok_shape _ "TNFT" addrB "I1" _ hok2
    have h0 : item0 = Item.mk "I1" "properties" "metadata" 0 false := by
      have : (exCtxItem (exToken ApprovedFlag 2 2) addrB 0).store.item "TNFT" "I1"
          = some (Item.mk "I1" "properties" "metadata" 0 false) := rfl
      rw [this] at hitem0
      exact (Option.some.inj hitem0).symm
    rw [hitem, h0]
    simp

/-! ## Frozen and unapproved Tokens: which failure -/

/-- C31, evaluated on a failing input.  The claim says that a token metadata
update is rejected on a Frozen Token, also when the caller is the owner and
the Token is Approved.  On the example token with the Frozen and Approved
flags the update by the owner `addrA` succeeds and replaces the stored
metadata: the entry point never reads the Frozen flag. -/
theorem updateNFTMetadata_succeeds_on_frozen_token :
    (exToken (FrozenFlag ||| ApprovedFlag) 2 2).Flags.HasFlag FrozenFlag = true ∧
    (exToken (FrozenFlag ||| ApprovedFlag) 2 2).Metadata = "token metadata" ∧
    (exKeeper.UpdateNFTMetadata (exCtx (exToken (FrozenFlag ||| ApprovedFlag) 2 2))
      "TNFT" addrA "changed").1.IsOK = true ∧
    ((exKeeper.UpdateNFTMetadata (exCtx (exToken (FrozenFlag ||| ApprovedFlag) 2 2))
      "TNFT" addrA "changed").2.store.token "TNFT").map Token.Metadata = some "changed" := by
  decide

/-- C32, the claim as stated fails: on a Frozen Token that lacks the Mintable,
Transferable and Burnable flags, mint, transfer and burn by the owner fail
with `ErrInvalidTokenAction`; on a Frozen, Mintable and Burnable Token that is
not Approved, mint and burn fail with `ErrTokenInvalid`.  None of these
failures is `ErrTokenFrozen`. -/
theorem frozen_is_not_checked_first :
    (exToken FrozenFlag 2 2).Flags.HasFlag FrozenFlag = true ∧
    (exKeeper.MintNonFungibleToken (exCtx (exToken FrozenFlag 2 2))
      "TNFT" addrA addrB "I1" "p" "m").1 = Result.err Error.ErrInvalidTokenAction ∧
    (exKeeper.TransferNonFungibleToken (exCtxItem (exToken FrozenFlag 2 2) addrB 0)
      "TNFT" addrB addrC "I1").1 = Result.err Error.ErrInvalidTokenAction ∧
    (exKeeper.BurnNonFungibleToken (exCtxItem (exToken FrozenFlag 2 2) addrB 0)
      "TNFT" addrB "I1").1 = Result.err Error.ErrInvalidTokenAction ∧
    (exToken (FrozenFlag ||| MintFlag ||| BurnFlag) 2 2).Flags.HasFlag FrozenFlag = true ∧
    (exKeeper.MintNonFungibleToken (exCtx (exToken (FrozenFlag ||| MintFlag ||| BurnFlag) 2 2))
      "TNFT" addrA addrB "I1" "p" "m").1 = Result.err Error.ErrTokenInvalid ∧
    (exKeeper.BurnNonFungibleToken
      (exCtxItem (exToken (FrozenFlag ||| MintFlag ||| BurnFlag) 2 2) addrB 0)
      "TNFT" addrB "I1").1 = Result.err Error.ErrTokenInvalid := by
  decide

/-- C32, amended.  For an existing Token whose Frozen flag is set and an
authorised caller with an existing account, mint, transfer and burn fail and
leave the context as it was; the failure is `ErrTokenFrozen` when the flags
checked before Frozen are there (Mintable and Approved for a mint,
Transferable for a transfer, Burnable and Approved for a burn); when one of
them is missing the failure is that of the earlier check:
`ErrInvalidTokenAction` for a missing Mintable, Transferable or Burnable
flag, `ErrTokenInvalid` for a missing Approved flag. -/
theorem frozen_token_failure_kind (k : Keeper) (ctx : Context) (symbol : String)
    (from_ to_ : AccAddress) (itemID properties metadata : String) (token : Token)
    (account : Account)
    (hget : ctx.store.token symbol = some token)
    (hfrozen : token.Flags.HasFlag FrozenFlag = true)
    (haccount : k.accountKeeper.GetAccount from_ = some account) :
    -- mint, by the owner of a private Token or to oneself on a Public one
    (((token.Flags.HasFlag PubFlag = false ∧ token.Owner = from_) ∨
        (token.Flags.HasFlag PubFlag = true ∧ from_ = to_)) →
      (token.Flags.HasFlag MintFlag = true → token.Flags.HasFlag ApprovedFlag = true →
        k.MintNonFungibleToken ctx symbol from_ to_ itemID properties metadata
          = (Result.err Error.ErrTokenFrozen, ctx)) ∧
      (token.Flags.HasFlag MintFlag = false →
        k.MintNonFungibleToken ctx symbol from_ to_ itemID properties metadata
          = (Result.err Error.ErrInvalidTokenAction, ctx)) ∧
      (token.Flags.HasFlag MintFlag = true → token.Flags.HasFlag ApprovedFlag = false →
        k.MintNonFungibleToken ctx symbol from_ to_ itemID properties metadata
          = (Result.err Error.ErrTokenInvalid, ctx))) ∧
    -- transfer
    ((token.Flags.HasFlag TransferableFlag = true →
        k.TransferNonFungibleToken ctx symbol from_ to_ itemID
          = (Result.err Error.ErrTokenFrozen, ctx)) ∧
      (token.Flags.HasFlag TransferableFlag = false →
        k.TransferNonFungibleToken ctx symbol from_ to_ itemID
          = (Result.err Error.ErrInvalidTokenAction, ctx))) ∧
    -- burn
    ((token.Flags.HasFlag BurnFlag = true → token.Flags.HasFlag ApprovedFlag = true →
        k.BurnNonFungibleToken ctx symbol from_ itemID
          = (Result.err Error.ErrTokenFrozen, ctx)) ∧
      (token.Flags.HasFlag BurnFlag = false →
        k.BurnNonFungibleToken ctx symbol from_ itemID
          = (Result.err Error.ErrInvalidTokenAction, ctx)) ∧
      (token.Flags.HasFlag BurnFlag = true → token.Flags.HasFlag ApprovedFlag = false →
        k.BurnNonFungibleToken ctx symbol from_ itemID
          = (Result.err Error.ErrTokenInvalid, ctx))) := by
  refine ⟨?_, ⟨?_, ?_⟩, ⟨?_, ?_, ?_⟩⟩
  · intro hauth
    have hchecks : (!token.Flags.HasFlag PubFlag && !token.Owner.Equals from_) = false ∧
        (token.Flags.HasFlag PubFlag && !from_.Equals to_) = false := by
      rcases hauth with ⟨hpub, howner⟩ | ⟨hpub, hself⟩
      · simp [hpub, howner, AccAddress.Equals]
      · simp [hpub, hself, AccAddress.Equals]
    obtain ⟨hcheck1, hcheck2⟩ := hchecks
    refine ⟨?_, ?_, ?_⟩
    · intro hmint happroved
      unfold Keeper.MintNonFungibleToken
      simp only [Keeper.getTokenData, hget, haccount]
      simp [hcheck1, hcheck2, hmint, happroved, hfrozen]
    · intro hmint
      unfold Keeper.MintNonFungibleToken
      simp only [Keeper.getTokenData, hget, haccount]
      simp [hcheck1, hcheck2, hmint]
    · intro hmint happroved
      unfold Keeper.MintNonFungibleToken
      simp only [Keeper.getTokenData, hget, haccount]
      simp [hcheck1, hcheck2, hmint, happroved]
  · intro htransferable
    unfold Keeper.TransferNonFungibleToken
    simp [Keeper.getTokenData, hget, haccount, htransferable, hfrozen]
  · intro htransferable
    unfold Keeper.TransferNonFungibleToken
    simp [Keeper.getTokenData, hget, htransferable]
  · intro hburn happroved
    unfold Keeper.BurnNonFungibleToken
    simp [Keeper.getTokenData, hget, haccount, hburn, happroved, hfrozen]
  · intro hburn
    unfold Keeper.BurnNonFungibleToken
    simp [Keeper.getTokenData, hget, hburn]
  · intro hburn happroved
    unfold Keeper.BurnNonFungibleToken
    simp [Keeper.getTokenData, hget, haccount, hburn, happroved]

/-- Witness of C32 as amended: on the frozen, approved and transferable
example token a transfer fails with `ErrTokenFrozen`. -/
theorem frozen_token_failure_kind_witness :
    (exToken (FrozenFlag ||| ApprovedFlag ||| TransferableFlag) 2 2).Flags.HasFlag FrozenFlag
      = true ∧
    exKeeper.TransferNonFungibleToken
      (exCtxItem (exToken (FrozenFlag ||| ApprovedFlag ||| TransferableFlag) 2 2) addrB 0)
      "TNFT" addrB addrC "I1"
      = (Result.err Error.ErrTokenFrozen,
          exCtxItem (exToken (FrozenFlag ||| ApprovedFlag ||| TransferableFlag) 2 2) addrB 0) :=
  ⟨by decide,
    (frozen_token_failure_kind exKeeper
      (exCtxItem (exToken (FrozenFlag ||| ApprovedFlag ||| TransferableFlag) 2 2) addrB 0)
      "TNFT" addrB addrC "I1" "p" "m"
      (exToken (FrozenFlag ||| ApprovedFlag ||| TransferableFlag) 2 2) (Account.mk addrB 8)
      rfl (by decide) (by decide)).2.1.1 (by decide)⟩

/-- C33, the claim as stated fails: on an unapproved Token that lacks the
Mintable flag the mint by the owner fails with `ErrInvalidTokenAction`, not
with `ErrTokenInvalid`. -/
theorem mint_on_unapproved_unmintable_token :
    (exToken BurnFlag 2 2).Flags.HasFlag ApprovedFlag = false ∧
    (exToken BurnFlag 2 2).Owner = addrA ∧
    exKeeper.accountKeeper.GetAccount addrA = some (Account.mk addrA 7) ∧
    (exKeeper.MintNonFungibleToken (exCtx (exToken BurnFlag 2 2))
      "TNFT" addrA addrB "I1" "p" "m").1 = Result.err Error.ErrInvalidTokenAction ∧
    (exKeeper.MintNonFungibleToken (exCtx (exToken BurnFlag 2 2))
      "TNFT" addrA addrB "I1" "p" "m").1 ≠ Result.err Error.ErrTokenInvalid := by
  decide

/-- C33, amended.  For an existing Mintable Token without the Approved flag
and an authorised caller with an existing account (the owner of a private
Token, or a caller minting to itself on a Public one), the mint returns
`ErrTokenInvalid`, the token-not-approved error, and the context it was
given, whatever the other flags of the Token. -/
theorem mint_on_unapproved_token_rejected (k : Keeper) (ctx : Context) (symbol : String)
    (from_ to_ : AccAddress) (itemID properties metadata : String) (token : Token)
    (account : Account)
    (hget : ctx.store.token symbol = some token)
    (hunapproved : token.Flags.HasFlag ApprovedFlag = false)
    (hmint : token.Flags.HasFlag MintFlag = true)
    (haccount : k.accountKeeper.GetAccount from_ = some account)
    (hauth : (token.Flags.HasFlag PubFlag = false ∧ token.Owner = from_) ∨
      (token.Flags.HasFlag PubFlag = true ∧ from_ = to_)) :
    k.MintNonFungibleToken ctx symbol from_ to_ itemID properties metadata
      = (Result.err Error.ErrTokenInvalid, ctx) := by
  have hchecks : (!token.Flags.HasFlag PubFlag && !token.Owner.Equals from_) = false ∧
      (token.Flags.HasFlag PubFlag && !from_.Equals to_) = false := by
    rcases hauth with ⟨hpub, howner⟩ | ⟨hpub, hself⟩
    · simp [hpub, howner, AccAddress.Equals]
    · simp [hpub, hself, AccAddress.Equals]
  obtain ⟨hcheck1, hcheck2⟩ := hchecks
  unfold Keeper.MintNonFungibleToken
  simp only [Keeper.getTokenData, hget, haccount]
  simp [hcheck1, hcheck2, hmint, hunapproved]

/-- Witness of C33 as amended: the owner mints on the Mintable example token
that is not Approved. -/
theorem mint_on_unapproved_token_rejected_witness :
    (exToken MintFlag 2 2).Flags.HasFlag ApprovedFlag = false ∧
    exKeeper.MintNonFungibleToken (exCtx (exToken MintFlag 2 2)) "TNFT" addrA addrB "I1" "p" "m"
      = (Result.err Error.ErrTokenInvalid, exCtx (exToken MintFlag 2 2)) :=
  ⟨by decide,
    mint_on_unapproved_token_rejected exKeeper (exCtx (exToken MintFlag 2 2))
      "TNFT" addrA addrB "I1" "p" "m" (exToken MintFlag 2 2) (Account.mk addrA 7)
      rfl (by decide) (by decide) (by decide) (Or.inl ⟨by decide, rfl⟩)⟩

/-! ## Unknown symbol, unknown account, log line -/

/-- For a symbol with no Token record, mint and burn return
`ErrInvalidTokenSymbol` and transfer returns `ErrTokenInvalid`, each with the
context it was given. -/
theorem Keeper.unknown_symbol_results (k : Keeper) (ctx : Context) (symbol : String)
    (from_ to_ : AccAddress) (itemID properties metadata : String)
    (hget : ctx.store.token symbol = none) :
    k.MintNonFungibleToken ctx symbol from_ to_ itemID properties metadata
      = (Result.err (Error.ErrInvalidTokenSymbol symbol), ctx) ∧
    k.BurnNonFungibleToken ctx symbol from_ itemID
      = (Result.err (Error.ErrInvalidTokenSymbol symbol), ctx) ∧
    k.TransferNonFungibleToken ctx symbol from_ to_ itemID
      = (Result.err Error.ErrTokenInvalid, ctx) := by
  refine ⟨?_, ?_, ?_⟩
  · unfold Keeper.MintNonFungibleToken
    simp [Keeper.getTokenData, hget]
  · unfold Keeper.BurnNonFungibleToken
    simp [Keeper.getTokenData, hget]
  · unfold Keeper.TransferNonFungibleToken
    simp [Keeper.getTokenData, hget]

/-- C34, evaluated on a failing input.  The claim says that mint, transfer and
burn on a symbol with no Token record each fail with `ErrInvalidTokenSymbol`.
On the empty store, symbol `NONE`, mint and burn do so, the transfer returns
`ErrTokenInvalid` (the error of a Token that is not approved) in its place;
all three leave the store as it was. -/
theorem transfer_unknown_symbol_error_kind :
    (Context.mk KVStore.empty [0]).store.token "NONE" = none ∧
    exKeeper.MintNonFungibleToken (Context.mk KVStore.empty [0]) "NONE" addrA addrB "I1" "p" "m"
      = (Result.err (Error.ErrInvalidTokenSymbol "NONE"), Context.mk KVStore.empty [0]) ∧
    exKeeper.BurnNonFungibleToken (Context.mk KVStore.empty [0]) "NONE" addrA "I1"
      = (Result.err (Error.ErrInvalidTokenSymbol "NONE"), Context.mk KVStore.empty [0]) ∧
    exKeeper.TransferNonFungibleToken (Context.mk KVStore.empty [0]) "NONE" addrA addrB "I1"
      = (Result.err Error.ErrTokenInvalid, Context.mk KVStore.empty [0]) ∧
    (exKeeper.TransferNonFungibleToken (Context.mk KVStore.empty [0]) "NONE" addrA addrB "I1").1
      ≠ Result.err (Error.ErrInvalidTokenSymbol "NONE") :=
  ⟨rfl, rfl, rfl, rfl, by decide⟩

/-- C35.  When the invoking account `from_` has no entry in the Account
Directory, each of mint, transfer, burn, endorsement, item metadata update
and token metadata update fails and returns the context it was given,
whatever the Token and Item state. -/
theorem unknown_account_rejected (k : Keeper) (ctx : Context) (symbol : String)
    (from_ to_ : AccAddress) (itemID properties metadata : String)
    (haccount : k.accountKeeper.GetAccount from_ = none) :
    ((k.MintNonFungibleToken ctx symbol from_ to_ itemID properties metadata).1.IsOK = false ∧
      (k.MintNonFungibleToken ctx symbol from_ to_ itemID properties metadata).2 = ctx) ∧
    ((k.TransferNonFungibleToken ctx symbol from_ to_ itemID).1.IsOK = false ∧
      (k.TransferNonFungibleToken ctx symbol from_ to_ itemID).2 = ctx) ∧
    ((k.BurnNonFungibleToken ctx symbol from_ itemID).1.IsOK = false ∧
      (k.BurnNonFungibleToken ctx symbol from_ itemID).2 = ctx) ∧
    ((k.MakeEndorsement ctx symbol from_ itemID).1.IsOK = false ∧
      (k.MakeEndorsement ctx symbol from_ itemID).2 = ctx) ∧
    ((k.UpdateItemMetadata ctx symbol from_ itemID metadata).1.IsOK = false ∧
      (k.UpdateItemMetadata ctx symbol from_ itemID metadata).2 = ctx) ∧
    ((k.UpdateNFTMetadata ctx symbol from_ metadata).1.IsOK = false ∧
      (k.UpdateNFTMetadata ctx symbol from_ metadata).2 = ctx) := by
  have hmint : (k.MintNonFungibleToken ctx symbol from_ to_ itemID properties
      metadata).1.IsOK = false := by
    unfold Keeper.MintNonFungibleToken
    simp only [Keeper.getTokenData, haccount]
    cases ctx.store.token symbol <;> simp [Result.IsOK]
  have htransfer : (k.TransferNonFungibleToken ctx symbol from_ to_ itemID).1.IsOK = false := by
    unfold Keeper.TransferNonFungibleToken
    simp only [Keeper.getTokenData, haccount]
    cases ctx.store.token symbol with
    | none => simp [Result.IsOK]
    | some token => by_cases h : token.Flags.HasFlag TransferableFlag = true <;>
        simp [h, Result.IsOK]
  have hburn : (k.BurnNonFungibleToken ctx symbol from_ itemID).1.IsOK = false := by
    unfold Keeper.BurnNonFungibleToken
    simp only [Keeper.getTokenData, haccount]
    cases ctx.store.token symbol with
    | none => simp [Result.IsOK]
    | some token => by_cases h : token.Flags.HasFlag BurnFlag = true <;> simp [h, Result.IsOK]
  have hendorse : (k.MakeEndorsement ctx symbol from_ itemID).1.IsOK = false := by
    unfold Keeper.MakeEndorsement
    simp [haccount, Result.IsOK]
  have hitem : (k.UpdateItemMetadata ctx symbol from_ itemID metadata).1.IsOK = false := by
    unfold Keeper.UpdateItemMetadata
    simp [haccount, Result.IsOK]
  have htoken : (k.UpdateNFTMetadata ctx symbol from_ metadata).1.IsOK = false := by
    unfold Keeper.UpdateNFTMetadata
    simp [haccount, Result.IsOK]
  exact ⟨⟨hmint, Keeper.mint_failure_keeps k ctx symbol from_ to_ itemID properties metadata hmint⟩,
    ⟨htransfer, Keeper.transfer_failure_keeps k ctx symbol from_ to_ itemID htransfer⟩,
    ⟨hburn, Keeper.burn_failure_keeps k ctx symbol from_ itemID hburn⟩,
    ⟨hendorse, Keeper.endorsement_keeps k ctx symbol from_ itemID⟩,
    ⟨hitem, Keeper.updateItem_failure_keeps k ctx symbol from_ itemID metadata hitem⟩,
    ⟨htoken, Keeper.updateToken_failure_keeps k ctx symbol from_ metadata htoken⟩⟩

/-- Witness of C35: the address `[4]` has no account in the example
directory. -/
theorem unknown_account_rejected_witness :
    exKeeper.accountKeeper.GetAccount [4] = none ∧
    (exKeeper.BurnNonFungibleToken
      (exCtxItem (exToken (BurnFlag ||| ApprovedFlag) 2 2) [4] 0) "TNFT" [4] "I1").1.IsOK = false ∧
    (exKeeper.BurnNonFungibleToken
      (exCtxItem (exToken (BurnFlag ||| ApprovedFlag) 2 2) [4] 0) "TNFT" [4] "I1").2
      = exCtxItem (exToken (BurnFlag ||| ApprovedFlag) 2 2) [4] 0 :=
  ⟨by decide,
    (unknown_account_rejected exKeeper
      (exCtxItem (exToken (BurnFlag ||| ApprovedFlag) 2 2) [4] 0) "TNFT" [4] addrB "I1" "p" "m"
      (by decide)).2.2.1⟩

/-- C36, evaluated on a failing input.  The claim says that the log line of
every successful operation, acceptance of ownership included, holds the
sequence number of the invoking account.  On the example token with a
transfer to `addrB` in flight, `addrB` (sequence 8) accepts: the call
succeeds and its log line holds 7, the sequence number of the previous owner
`addrA`, with the transaction bytes of the context. -/
theorem acceptOwnership_logs_previous_owner_sequence :
    exKeeper.accountKeeper.GetAccount addrB = some (Account.mk addrB 8) ∧
    exKeeper.accountKeeper.GetAccount exTokenPending.Owner = some (Account.mk addrA 7) ∧
    (exKeeper.AcceptTokenOwnership (exCtx exTokenPending) "TNFT" addrB).1.IsOK = true ∧
    (exKeeper.AcceptTokenOwnership (exCtx exTokenPending) "TNFT" addrB).1.Log
      = some (ResultLog.mk 7 (exCtx exTokenPending).TxBytes) ∧
    (exKeeper.AcceptTokenOwnership (exCtx exTokenPending) "TNFT" addrB).1.Log
      ≠ some (ResultLog.mk 8 (exCtx exTokenPending).TxBytes) := by
  decide

/-- C38.  The account checks of an acceptance of ownership read the Directory
entry of the Token's current owner only.  With a transfer pending, the caller
equal to `NewOwner`, the Token Approved and not Frozen: when the current
owner has an account the acceptance succeeds although the caller has none;
when the current owner has no account the acceptance fails with the context
unchanged although the caller has one. -/
theorem acceptOwnership_checks_current_owner_account (k : Keeper) (ctx : Context)
    (symbol : String) (from_ : AccAddress) (token : Token)
    (hget : ctx.store.token symbol = some token)
    (hpending : token.Flags.HasFlag AcceptTokenOwnershipFlag = true ∨
      token.Flags.HasFlag ApproveTransferTokenOwnershipFlag = true ∨
      token.Flags.HasFlag TransferTokenOwnershipFlag = true)
    (hnew : token.NewOwner = from_)
    (happroved : token.Flags.HasFlag ApprovedFlag = true)
    (hfrozen : token.Flags.HasFlag FrozenFlag = false) :
    (∀ ownerAccount, k.accountKeeper.GetAccount token.Owner = some ownerAccount →
      k.accountKeeper.GetAccount from_ = none →
      (k.AcceptTokenOwnership ctx symbol from_).1.IsOK = true) ∧
    (∀ callerAccount, k.accountKeeper.GetAccount token.Owner = none →
      k.accountKeeper.GetAccount from_ = some callerAccount →
      k.AcceptTokenOwnership ctx symbol from_
        = (Result.err (Error.ErrInvalidSequence "Invalid token owner."), ctx)) := by
  refine ⟨?_, ?_⟩
  · intro ownerAccount howner _
    exact Keeper.acceptOwnership_succeeds k ctx symbol from_ token ownerAccount hget hpending
      howner hnew happroved hfrozen
  · intro callerAccount howner _
    have hcheck : (!token.Flags.HasFlag AcceptTokenOwnershipFlag
        && !token.Flags.HasFlag ApproveTransferTokenOwnershipFlag
        && !token.Flags.HasFlag TransferTokenOwnershipFlag) = false := by
      rcases hpending with h | h | h <;> simp [h]
    unfold Keeper.AcceptTokenOwnership Keeper.acceptNonFungibleTokenOwnership
    simp only [Keeper.mustGetTokenData, Keeper.getTokenData, hget, hcheck, howner]
    simp

/-- Witness of C38: with only the previous owner `addrA` in the directory the
new owner `addrB` accepts; with only `addrB` in the directory the acceptance
fails. -/
theorem acceptOwnership_checks_current_owner_account_witness :
    (exKeeperOwnerOnly.accountKeeper.GetAccount addrB = none ∧
      (exKeeperOwnerOnly.AcceptTokenOwnership (exCtx exTokenPending) "TNFT" addrB).1.IsOK
        = true) ∧
    (exKeeperNewOwnerOnly.accountKeeper.GetAccount addrB = some (Account.mk addrB 8) ∧
      exKeeperNewOwnerOnly.AcceptTokenOwnership (exCtx exTokenPending) "TNFT" addrB
        = (Result.err (Error.ErrInvalidSequence "Invalid token owner."),
            exCtx exTokenPending)) :=
  ⟨⟨by decide,
      (acceptOwnership_checks_current_owner_account exKeeperOwnerOnly (exCtx exTokenPending)
        "TNFT" addrB exTokenPending rfl (Or.inr (Or.inr (by decide))) rfl (by decide)
        (by decide)).1 (Account.mk addrA 7) (by decide) (by decide)⟩,
    ⟨by decide,
      (acceptOwnership_checks_current_owner_account exKeeperNewOwnerOnly (exCtx exTokenPending)
        "TNFT" addrB exTokenPending rfl (Or.inr (Or.inr (by decide))) rfl (by decide)
        (by decide)).2 (Account.mk addrB 8) (by decide) (by decide)⟩⟩

/-- C39.  A transfer does not read who owns the Item.  On two contexts that
differ only in the address of the owner-index entry of `(symbol, itemID)` the
transfer with the same arguments returns the same result and, on success, the
same final context; and when every check of the source passes, a transfer by
an existing account `from_` that is not the owner succeeds and leaves `to_`
in the owner-index entry. -/
theorem transfer_independent_of_owner (k : Keeper) (ctx : Context) (symbol : String)
    (from_ to_ : AccAddress) (itemID : String) (owner1 owner2 : AccAddress) :
    (k.TransferNonFungibleToken (ctx.setItemOwner symbol itemID owner1)
        symbol from_ to_ itemID).1
      = (k.TransferNonFungibleToken (ctx.setItemOwner symbol itemID owner2)
        symbol from_ to_ itemID).1 ∧
    ((k.TransferNonFungibleToken (ctx.setItemOwner symbol itemID owner1)
        symbol from_ to_ itemID).1.IsOK = true →
      (k.TransferNonFungibleToken (ctx.setItemOwner symbol itemID owner1)
          symbol from_ to_ itemID).2
        = (k.TransferNonFungibleToken (ctx.setItemOwner symbol itemID owner2)
          symbol from_ to_ itemID).2) ∧
    (∀ token item account, ctx.store.token symbol = some token →
      token.Flags.HasFlag TransferableFlag = true →
      token.Flags.HasFlag FrozenFlag = false →
      k.accountKeeper.GetAccount from_ = some account →
      ctx.store.item symbol itemID = some item →
      item.TransferLimit < token.TransferLimit →
      owner1 ≠ from_ →
      (k.TransferNonFungibleToken (ctx.setItemOwner symbol itemID owner1)
        symbol from_ to_ itemID).1.IsOK = true ∧
      (k.TransferNonFungibleToken (ctx.setItemOwner symbol itemID owner1)
        symbol from_ to_ itemID).2.store.itemOwner symbol itemID = some to_) := by
  have hcontext : ∀ owner : AccAddress,
      (ctx.setItemOwner symbol itemID owner).store.token = ctx.store.token ∧
      (ctx.setItemOwner symbol itemID owner).store.item = ctx.store.item ∧
      (ctx.setItemOwner symbol itemID owner).store.mintLimit = ctx.store.mintLimit ∧
      (ctx.setItemOwner symbol itemID owner).TxBytes = ctx.TxBytes ∧
      (ctx.setItemOwner symbol itemID owner).store.itemOwner symbol itemID = some owner := by
    intro owner
    simp [Context.setItemOwner]
  have hdelete : ∀ owner : AccAddress,
      (ctx.setItemOwner symbol itemID owner).deleteItemOwner symbol itemID
        = ctx.deleteItemOwner symbol itemID := by
    intro owner
    simp only [Context.setItemOwner, Context.deleteItemOwner]
    congr 2
    funext s i
    split_ifs <;> rfl
  refine ⟨?_, ?_, ?_⟩
  · unfold Keeper.TransferNonFungibleToken
    simp only [Keeper.getTokenData, (hcontext owner1).1, (hcontext owner2).1,
      (hcontext owner1).2.1, (hcontext owner2).2.1, (hcontext owner1).2.2.2.1,
      (hcontext owner2).2.2.2.1, (hcontext owner1).2.2.2.2, (hcontext owner2).2.2.2.2]
    repeat' split
    all_goals rfl
  · intro hok
    unfold Keeper.TransferNonFungibleToken at hok ⊢
    simp only [Keeper.getTokenData, (hcontext owner1).1, (hcontext owner2).1,
      (hcontext owner1).2.1, (hcontext owner2).2.1, (hcontext owner1).2.2.2.1,
      (hcontext owner2).2.2.2.1, (hcontext owner1).2.2.2.2, (hcontext owner2).2.2.2.2,
      hdelete owner1, hdelete owner2] at hok ⊢
    repeat' split at hok
    all_goals simp_all [Result.IsOK]
    rename_i token _ _ item _ _ _ _ hbelow
    rw [if_neg (Nat.not_le.mpr hbelow), if_neg (Nat.not_le.mpr hbelow)]
  · intro token item account hget htransferable hfrozen haccount hitem hbelow _
    have hok := Keeper.transfer_succeeds k (ctx.setItemOwner symbol itemID owner1) symbol
      from_ to_ itemID token item account owner1
      (by rw [(hcontext owner1).1]; exact hget) htransferable haccount hfrozen
      (hcontext owner1).2.2.2.2 (by rw [(hcontext owner1).2.1]; exact hitem) hbelow
    refine ⟨hok, ?_⟩
    obtain ⟨_, _, _, _, _, _, _, _, _, howner⟩ :=
      Keeper.transfer_ok_shape k (ctx.setItemOwner symbol itemID owner1) symbol from_ to_
        itemID hok
    rw [howner]
    simp

/-- Witness of C39: the Item `I1` is owned by `addrC`; `addrB`, who does not
own it, transfers it to `addrA`. -/
theorem transfer_independent_of_owner_witness :
    ((exCtxItem (exToken (TransferableFlag ||| ApprovedFlag) 2 2) addrB 0).setItemOwner
        "TNFT" "I1" addrC).store.itemOwner "TNFT" "I1" = some addrC ∧
    (exKeeper.TransferNonFungibleToken
      ((exCtxItem (exToken (TransferableFlag ||| ApprovedFlag) 2 2) addrB 0).setItemOwner
        "TNFT" "I1" addrC) "TNFT" addrB addrA "I1").1.IsOK = true ∧
    (exKeeper.TransferNonFungibleToken
      ((exCtxItem (exToken (TransferableFlag ||| ApprovedFlag) 2 2) addrB 0).setItemOwner
        "TNFT" "I1" addrC) "TNFT" addrB addrA "I1").2.store.itemOwner "TNFT" "I1"
      = some addrA :=
  ⟨by decide,
    (transfer_independent_of_owner exKeeper
      (exCtxItem (exToken (TransferableFlag ||| ApprovedFlag) 2 2) addrB 0)
      "TNFT" addrB addrA "I1" addrC addrA).2.2
      (exToken (TransferableFlag ||| ApprovedFlag) 2 2)
      (Item.mk "I1" "properties" "metadata" 0 false) (Account.mk addrB 8)
      rfl (by decide) (by decide) (by decide) rfl (by decide) (by decide)⟩

/-! ## Status changes: the provider nonce -/

/-- A status change that fails returns the state it was given. -/
theorem SetStatus_failure_keeps (approvers : List AccAddress) (st : EngineState)
    (signer : AccAddress) (e : Envelope)
    (hfail : (SetStatus approvers st signer e).1 ≠ none) :
    (SetStatus approvers st signer e).2 = st := by
  unfold SetStatus at hfail ⊢
  repeat' split
  all_goals simp_all

/-- A status change is applied only when the nonce of the envelope is the
expected nonce of its provider; it then adds one to that expected nonce and
leaves the expected nonce of every other provider as it was. -/
theorem SetStatus_success (approvers : List AccAddress) (st : EngineState)
    (signer : AccAddress) (e : Envelope)
    (hok : (SetStatus approvers st signer e).1 = none) :
    e.ProviderNonce = st.ExpectedNonce e.Provider ∧
    (SetStatus approvers st signer e).2.ExpectedNonce
      = fun p => if p = e.Provider then st.ExpectedNonce p + 1 else st.ExpectedNonce p := by
  unfold SetStatus at hok ⊢
  repeat' split at hok
  all_goals simp_all

/-- No status change lowers an expected nonce. -/
theorem SetStatus_nonce_mono (approvers : List AccAddress) (st : EngineState)
    (signer : AccAddress) (e : Envelope) (p : AccAddress) :
    st.ExpectedNonce p ≤ (SetStatus approvers st signer e).2.ExpectedNonce p := by
  cases hres : (SetStatus approvers st signer e).1 with
  | none =>
    rw [(SetStatus_success approvers st signer e hres).2]
    dsimp only
    split_ifs
    · exact Nat.le_succ _
    · exact Nat.le_refl _
  | some err =>
    rw [SetStatus_failure_keeps approvers st signer e (by rw [hres]; simp)]

/-- No sequence of status changes lowers an expected nonce. -/
theorem SetStatusAll_nonce_mono (approvers : List AccAddress)
    (calls : List (AccAddress × Envelope)) (st : EngineState) (p : AccAddress) :
    st.ExpectedNonce p ≤ (SetStatusAll approvers st calls).ExpectedNonce p := by
  induction calls generalizing st with
  | nil => exact Nat.le_refl _
  | cons call rest ih =>
    obtain ⟨signer, e⟩ := call
    exact Nat.le_trans (SetStatus_nonce_mono approvers st signer e p)
      (ih (SetStatus approvers st signer e).2)

/-- An envelope whose nonce is not the expected nonce of its provider is
rejected and the state stays as it was; with both signatures valid the
failure is `NonceMismatch`. -/
theorem SetStatus_nonce_mismatch (approvers : List AccAddress) (st : EngineState)
    (signer : AccAddress) (e : Envelope)
    (hnonce : e.ProviderNonce ≠ st.ExpectedNonce e.Provider) :
    (SetStatus approvers st signer e).1 ≠ none ∧
    (SetStatus approvers st signer e).2 = st ∧
    (e.ProviderSignatureValid = true → e.IssuerSignatureValid = true →
      (SetStatus approvers st signer e).1 = some StatusError.NonceMismatch) := by
  have hfail : (SetStatus approvers st signer e).1 ≠ none := by
    intro hok
    exact hnonce (SetStatus_success approvers st signer e hok).1
  refine ⟨hfail, SetStatus_failure_keeps approvers st signer e hfail, ?_⟩
  intro hprovider hissuer
  unfold SetStatus
  simp [hprovider, hissuer, hnonce]

/-- C37.  Status changes under an Authorization Envelope, as section 4.2
describes them: an envelope whose provider nonce differs from the expected
nonce of its provider is rejected and the state (store and expected nonces)
stays as it was; an envelope that is applied carried the expected nonce and
adds exactly one to the expected nonce of its provider, no other expected
nonce changes; and after an envelope was applied, whatever status changes
follow, every envelope of the same provider with the same nonce, the same
envelope in particular, is rejected without a change of state. -/
theorem provider_nonce_replay_protection (approvers : List AccAddress) (st : EngineState)
    (signer : AccAddress) (e : Envelope) :
    (e.ProviderNonce ≠ st.ExpectedNonce e.Provider →
      (SetStatus approvers st signer e).1 ≠ none ∧
      (SetStatus approvers st signer e).2 = st) ∧
    ((SetStatus approvers st signer e).1 = none →
      e.ProviderNonce = st.ExpectedNonce e.Provider ∧
      (SetStatus approvers st signer e).2.ExpectedNonce e.Provider
        = st.ExpectedNonce e.Provider + 1 ∧
      (∀ p, p ≠ e.Provider →
        (SetStatus approvers st signer e).2.ExpectedNonce p = st.ExpectedNonce p) ∧
      (∀ (later : List (AccAddress × Envelope)) (signer2 : AccAddress) (e2 : Envelope),
        e2.Provider = e.Provider → e2.ProviderNonce = e.ProviderNonce →
        (SetStatus approvers
          (SetStatusAll approvers (SetStatus approvers st signer e).2 later) signer2 e2).1
          ≠ none ∧
        (SetStatus approvers
          (SetStatusAll approvers (SetStatus approvers st signer e).2 later) signer2 e2).2
          = SetStatusAll approvers (SetStatus approvers st signer e).2 later)) := by
  refine ⟨?_, ?_⟩
  · intro hnonce
    exact ⟨(SetStatus_nonce_mismatch approvers st signer e hnonce).1,
      (SetStatus_nonce_mismatch approvers st signer e hnonce).2.1⟩
  · intro hok
    obtain ⟨hexpected, hadvance⟩ := SetStatus_success approvers st signer e hok
    have hself : (SetStatus approvers st signer e).2.ExpectedNonce e.Provider
        = st.ExpectedNonce e.Provider + 1 := by
      rw [hadvance]
      simp
    refine ⟨hexpected, hself, ?_, ?_⟩
    · intro p hp
      rw [hadvance]
      simp [hp]
    · intro later signer2 e2 hprovider hsame
      have hmono := SetStatusAll_nonce_mono approvers later (SetStatus approvers st signer e).2
        e.Provider
      have hnonce : e2.ProviderNonce
          ≠ (SetStatusAll approvers (SetStatus approvers st signer e).2 later).ExpectedNonce
            e2.Provider := by
        rw [hprovider, hsame, hexpected]
        intro heq
        rw [hself, ← heq] at hmono
        exact Nat.not_succ_le_self _ hmono
      exact ⟨(SetStatus_nonce_mismatch approvers _ signer2 e2 hnonce).1,
        (SetStatus_nonce_mismatch approvers _ signer2 e2 hnonce).2.1⟩

/-- Witness of C37: the example envelope, nonce 0, is applied by the approver
`addrA` to the example state; the expected nonce of its provider `addrB`
becomes 1 and a second submission of the same envelope fails. -/
theorem provider_nonce_replay_protection_witness :
    (SetStatus [addrA] exEngine addrA exEnvelope).1 = none ∧
    (SetStatus [addrA] exEngine addrA exEnvelope).2.ExpectedNonce addrB = 1 ∧
    (SetStatus [addrA] (SetStatusAll [addrA] (SetStatus [addrA] exEngine addrA exEnvelope).2 [])
      addrA exEnvelope).1 ≠ none :=
  ⟨by decide,
    ((provider_nonce_replay_protection [addrA] exEngine addrA exEnvelope).2 (by decide)).2.1,
    (((provider_nonce_replay_protection [addrA] exEngine addrA exEnvelope).2
      (by decide)).2.2.2 [] addrA exEnvelope rfl rfl).1⟩

/-! ## Auth querier -/

/-- The querier panics on the empty path, whatever the codec and the accounts:
`path[0]` is read before any test of the length. -/
theorem NewQuerier_empty_path (cdc : Codec) (accountKeeper : AuthAccountKeeper) :
    NewQuerier cdc accountKeeper [] = QueryOutcome.panic RuntimePanic.IndexOutOfRange :=
  rfl

/-- The pending-transaction query panics when the address decodes, the
transaction identifier parses and the address has no account. -/
theorem NewQuerier_pending_tx_absent_account (cdc : Codec) (accountKeeper : AuthAccountKeeper)
    (segment id : String) (groupAddr : AccAddress) (txID : Nat)
    (haddr : cdc.AccAddressFromBech32 segment = some groupAddr)
    (hid : cdc.ParseUint id = some txID)
    (haccount : accountKeeper.GetAccount groupAddr = none) :
    NewQuerier cdc accountKeeper [QueryPendingTx, segment, id]
      = QueryOutcome.panic RuntimePanic.NilDereference := by
  have hne : QueryPendingTx ≠ QueryMultiSigAcc := by decide
  unfold NewQuerier
  simp only [hne, if_false, if_true]
  unfold queryMultiSigPendingTx
  simp only [haddr, hid, haccount]

/-- A first segment other than the two query paths yields the unknown-request
error. -/
theorem NewQuerier_unknown_endpoint (cdc : Codec) (accountKeeper : AuthAccountKeeper)
    (first : String) (rest : List String)
    (hacc : first ≠ QueryMultiSigAcc) (hpending : first ≠ QueryPendingTx) :
    NewQuerier cdc accountKeeper (first :: rest)
      = QueryOutcome.error (Error.ErrUnknownRequest "unknown mxw/Auth query endpoint") := by
  unfold NewQuerier
  simp only [hacc, hpending, if_false]

/-- The querier panics in two cases only: on the empty path, and on a
pending-transaction query whose address decodes, whose transaction identifier
parses and whose address has no account. -/
theorem NewQuerier_panic_iff (cdc : Codec) (accountKeeper : AuthAccountKeeper)
    (path : List String) :
    (∃ p, NewQuerier cdc accountKeeper path = QueryOutcome.panic p) ↔
      (path = [] ∨ ∃ segment id groupAddr txID, path = [QueryPendingTx, segment, id] ∧
        cdc.AccAddressFromBech32 segment = some groupAddr ∧
        cdc.ParseUint id = some txID ∧
        accountKeeper.GetAccount groupAddr = none) := by
  constructor
  · rintro ⟨p, hp⟩
    cases path with
    | nil => exact Or.inl rfl
    | cons first rest =>
      right
      unfold NewQuerier at hp
      dsimp only at hp
      split_ifs at hp with hacc hpending
      · unfold queryMultiSigAcc at hp
        repeat' split at hp
        all_goals simp at hp
      · subst hpending
        unfold queryMultiSigPendingTx at hp
        repeat' split at hp
        all_goals first
          | (simp at hp; done)
          | (rename_i segment id _ groupAddr haddr _ txID hid _ haccount
             exact ⟨segment, id, groupAddr, txID, rfl, haddr, hid, haccount⟩)
  · rintro (rfl | ⟨segment, id, groupAddr, txID, rfl, haddr, hid, haccount⟩)
    · exact ⟨_, rfl⟩
    · exact ⟨_, NewQuerier_pending_tx_absent_account cdc accountKeeper segment id groupAddr
        txID haddr hid haccount⟩

/-- C40, evaluated on failing inputs.  The claim says that the querier
yields response bytes or a typed error on every path and every state of the
accounts.  On the empty path it reads `path[0]` and panics with an index out
of range; on the pending-transaction query of the address `mxw1absent`,
which decodes and has no account, it calls `IsMultiSig` on the nil account
and panics.  The account query of the same address returns the encoding of
the nil account, and a first segment other than the two query paths yields
the unknown-request error. -/
theorem querier_panics :
    NewQuerier exCodec exAuthKeeper [] = QueryOutcome.panic RuntimePanic.IndexOutOfRange ∧
    exCodec.AccAddressFromBech32 "mxw1absent" = some [10] ∧
    exAuthKeeper.GetAccount [10] = none ∧
    NewQuerier exCodec exAuthKeeper ["get_multisig_pending_tx", "mxw1absent", "0"]
      = QueryOutcome.panic RuntimePanic.NilDereference ∧
    NewQuerier exCodec exAuthKeeper ["get_multisig_acc", "mxw1absent"]
      = QueryOutcome.response (some [0]) ∧
    NewQuerier exCodec exAuthKeeper ["get_multisig_pending_tx", "mxw1group", "0"]
      = QueryOutcome.response (some [5]) ∧
    NewQuerier exCodec exAuthKeeper ["get_account"]
      = QueryOutcome.error (Error.ErrUnknownRequest "unknown mxw/Auth query endpoint") := by
  decide

/-! ## Unapproved Tokens -/

/-- C3.  No mint, transfer, burn, transfer of ownership or acceptance of
ownership succeeds on a Token whose Approved flag is not set.  In every state
a run of keeper calls reaches from a store that keeps every Token under its
own symbol and every Item body under an Approved Token (a store without Items
is one), for every Token without the Approved flag, every caller and every
argument, each of the five calls fails and returns the context it was given.
Mint, burn and the two ownership calls check the flag; the transfer finds no
Item, since an Item is created only by a mint on an Approved Token and no
call clears the flag. -/
theorem unapproved_token_rejects (k : Keeper) (ctx : Context) (cs : List Call)
    (symbol : String) (token : Token)
    (hkeyed : ctx.store.SymbolKeyed) (hinv : ctx.store.ItemsUnderApproved)
    (hget : (k.runAll ctx cs).store.token symbol = some token)
    (hunapproved : token.Flags.HasFlag ApprovedFlag = false)
    (from_ to_ : AccAddress) (itemID properties metadata : String) :
    ((k.MintNonFungibleToken (k.runAll ctx cs) symbol from_ to_ itemID properties
        metadata).1.IsOK = false ∧
      (k.MintNonFungibleToken (k.runAll ctx cs) symbol from_ to_ itemID properties
        metadata).2 = k.runAll ctx cs) ∧
    ((k.TransferNonFungibleToken (k.runAll ctx cs) symbol from_ to_ itemID).1.IsOK = false ∧
      (k.TransferNonFungibleToken (k.runAll ctx cs) symbol from_ to_ itemID).2
        = k.runAll ctx cs) ∧
    ((k.BurnNonFungibleToken (k.runAll ctx cs) symbol from_ itemID).1.IsOK = false ∧
      (k.BurnNonFungibleToken (k.runAll ctx cs) symbol from_ itemID).2 = k.runAll ctx cs) ∧
    ((k.TransferTokenOwnership (k.runAll ctx cs) symbol from_ to_).1.IsOK = false ∧
      (k.TransferTokenOwnership (k.runAll ctx cs) symbol from_ to_).2 = k.runAll ctx cs) ∧
    ((k.AcceptTokenOwnership (k.runAll ctx cs) symbol from_).1.IsOK = false ∧
      (k.AcceptTokenOwnership (k.runAll ctx cs) symbol from_).2 = k.runAll ctx cs) := by
  have hinv1 : (k.runAll ctx cs).store.ItemsUnderApproved :=
    (k.runAll_invariants cs ctx hkeyed).2.1 hinv
  obtain ⟨hmint, hburn, htransferOwnership, haccept⟩ :=
    unapproved_token_rejects_mint_burn_ownership k (k.runAll ctx cs) symbol token hget
      hunapproved from_ to_ itemID properties metadata
  have htransfer :=
    k.transfer_fails_on_unapproved (k.runAll ctx cs) symbol from_ to_ itemID token hinv1 hget
      hunapproved
  exact ⟨⟨hmint, k.mint_failure_keeps _ symbol from_ to_ itemID properties metadata hmint⟩,
    ⟨htransfer, k.transfer_failure_keeps _ symbol from_ to_ itemID htransfer⟩,
    ⟨hburn, k.burn_failure_keeps _ symbol from_ itemID hburn⟩,
    ⟨htransferOwnership, k.transferOwnership_failure_keeps _ symbol from_ to_ htransferOwnership⟩,
    ⟨haccept, k.acceptOwnership_failure_keeps _ symbol from_ haccept⟩⟩

/-- Witness of C3: the example token is Mintable, Transferable and Burnable but
not Approved; after a mint (which fails) a transfer of `I1` fails. -/
theorem unapproved_token_rejects_witness :
    (exToken (MintFlag ||| TransferableFlag ||| BurnFlag) 2 2).Flags.HasFlag ApprovedFlag
      = false ∧
    (exKeeper.TransferNonFungibleToken
      (exKeeper.runAll (exCtx (exToken (MintFlag ||| TransferableFlag ||| BurnFlag) 2 2))
        [Call.Mint "TNFT" addrA addrB "I1" "p" "m"]) "TNFT" addrB addrC "I1").1.IsOK = false :=
  ⟨by decide,
    (unapproved_token_rejects exKeeper
      (exCtx (exToken (MintFlag ||| TransferableFlag ||| BurnFlag) 2 2))
      [Call.Mint "TNFT" addrA addrB "I1" "p" "m"] "TNFT"
      (exToken (MintFlag ||| TransferableFlag ||| BurnFlag) 2 2)
      (exCtx_symbolKeyed _ rfl)
      (KVStore.invariants_of_no_items _ (fun _ _ => rfl)).1
      (by decide) (by decide) addrB addrC "I1" "p" "m").2.1.1⟩

/-! ## Checks before the keeper: in-flight transfer, endorser list, metadata length -/

/-- C21.  While an ownership transfer is in flight (one of the three
ownership-transfer flags is set on the Token), `IsTokenOwnershipTransferrable`
reports false, and a further transfer of ownership, admitted only when the
predicate reports true, is rejected: the context stays as it was, so the
pending `NewOwner` is not overwritten.  With none of the three flags set the
checked transfer is the keeper's `TransferTokenOwnership`. -/
theorem checked_transferOwnership_in_flight_rejected (k : Keeper) (ctx : Context)
    (symbol : String) (from_ to_ : AccAddress) (token : Token)
    (hget : ctx.store.token symbol = some token) :
    ((token.Flags.HasFlag TransferTokenOwnershipFlag = true ∨
        token.Flags.HasFlag AcceptTokenOwnershipFlag = true ∨
        token.Flags.HasFlag ApproveTransferTokenOwnershipFlag = true) →
      (k.IsTokenOwnershipTransferrable ctx symbol).1 = false ∧
      k.CheckedTransferTokenOwnership ctx symbol from_ to_
        = (TxOutcome.rejected CheckError.OwnershipNotTransferrable, ctx) ∧
      (k.CheckedTransferTokenOwnership ctx symbol from_ to_).1.IsOK = false ∧
      ((k.CheckedTransferTokenOwnership ctx symbol from_ to_).2.store.token symbol).map
        Token.NewOwner = some token.NewOwner) ∧
    (token.Flags.HasFlag TransferTokenOwnershipFlag = false →
      token.Flags.HasFlag AcceptTokenOwnershipFlag = false →
      token.Flags.HasFlag ApproveTransferTokenOwnershipFlag = false →
      k.CheckedTransferTokenOwnership ctx symbol from_ to_
        = (TxOutcome.handled (k.TransferTokenOwnership ctx symbol from_ to_).1,
            (k.TransferTokenOwnership ctx symbol from_ to_).2)) := by
  refine ⟨?_, ?_⟩
  · intro hpending
    have hpred := k.isTokenOwnershipTransferrable_in_flight ctx symbol token hget hpending
    have hchecked : k.CheckedTransferTokenOwnership ctx symbol from_ to_
        = (TxOutcome.rejected CheckError.OwnershipNotTransferrable, ctx) := by
      unfold Keeper.CheckedTransferTokenOwnership
      simp [hpred]
    refine ⟨by rw [hpred], hchecked, ?_, ?_⟩
    · rw [hchecked]
      rfl
    · rw [hchecked]
      simp [hget]
  · intro h1 h2 h3
    have hpred := k.isTokenOwnershipTransferrable_idle ctx symbol token hget h1 h2 h3
    unfold Keeper.CheckedTransferTokenOwnership
    simp [hpred]

/-- Witness of C21: on the example token with a transfer to `addrB` in flight
a transfer of ownership by the owner `addrA` to `addrC` is rejected and
`NewOwner` stays `addrB`. -/
theorem checked_transferOwnership_in_flight_rejected_witness :
    exTokenPending.Flags.HasFlag TransferTokenOwnershipFlag = true ∧
    (exKeeper.CheckedTransferTokenOwnership (exCtx exTokenPending) "TNFT" addrA addrC).1.IsOK
      = false ∧
    ((exKeeper.CheckedTransferTokenOwnership (exCtx exTokenPending)
      "TNFT" addrA addrC).2.store.token "TNFT").map Token.NewOwner = some addrB :=
  ⟨by decide,
    ((checked_transferOwnership_in_flight_rejected exKeeper (exCtx exTokenPending) "TNFT"
      addrA addrC exTokenPending rfl).1 (Or.inl (by decide))).2.2.1,
    ((checked_transferOwnership_in_flight_rejected exKeeper (exCtx exTokenPending) "TNFT"
      addrA addrC exTokenPending rfl).1 (Or.inl (by decide))).2.2.2⟩

/-- C26.  An endorsement requires membership of the Token's endorser list,
checked before the keeper runs: for every caller that is not in the list, an
empty list included, the endorsement is rejected and the context stays as it
was, whether or not the Item and the caller's account exist.  For a member
the outcome is that of the keeper's `MakeEndorsement`: success exactly when
the account of the caller and the Item exist, with the context unchanged. -/
theorem checked_endorsement_requires_membership (k : Keeper) (ctx : Context)
    (symbol : String) (from_ : AccAddress) (itemID : String) (token : Token)
    (hget : ctx.store.token symbol = some token) :
    (from_ ∉ token.EndorserList →
      k.CheckedMakeEndorsement ctx symbol from_ itemID
        = (TxOutcome.rejected CheckError.NotEndorser, ctx) ∧
      (k.CheckedMakeEndorsement ctx symbol from_ itemID).1.IsOK = false) ∧
    (from_ ∈ token.EndorserList →
      k.CheckedMakeEndorsement ctx symbol from_ itemID
        = (TxOutcome.handled (k.MakeEndorsement ctx symbol from_ itemID).1, ctx) ∧
      ((k.CheckedMakeEndorsement ctx symbol from_ itemID).1.IsOK = true ↔
        (k.accountKeeper.GetAccount from_).isSome = true ∧
        (ctx.store.item symbol itemID).isSome = true)) := by
  refine ⟨?_, ?_⟩
  · intro hnot
    have hchecked : k.CheckedMakeEndorsement ctx symbol from_ itemID
        = (TxOutcome.rejected CheckError.NotEndorser, ctx) := by
      unfold Keeper.CheckedMakeEndorsement
      simp [Keeper.getTokenData, hget, hnot]
    refine ⟨hchecked, ?_⟩
    rw [hchecked]
    rfl
  · intro hmember
    have hchecked : k.CheckedMakeEndorsement ctx symbol from_ itemID
        = (TxOutcome.handled (k.MakeEndorsement ctx symbol from_ itemID).1, ctx) := by
      unfold Keeper.CheckedMakeEndorsement
      simp [Keeper.getTokenData, hget, hmember, k.endorsement_keeps ctx symbol from_ itemID]
    refine ⟨hchecked, ?_⟩
    rw [hchecked]
    exact k.endorsement_succeeds_iff ctx symbol from_ itemID

/-- Witness of C26: the endorser list of the example token holds `addrA`
only; the endorsement of the existing Item `I1` by the existing account
`addrC` is rejected. -/
theorem checked_endorsement_requires_membership_witness :
    addrC ∉ exTokenEndorsers.EndorserList ∧
    exKeeper.accountKeeper.GetAccount addrC = some (Account.mk addrC 9) ∧
    (exCtxItem exTokenEndorsers addrB 0).store.item "TNFT" "I1"
      = some (Item.mk "I1" "properties" "metadata" 0 false) ∧
    (exKeeper.CheckedMakeEndorsement (exCtxItem exTokenEndorsers addrB 0)
      "TNFT" addrC "I1").1.IsOK = false :=
  ⟨by decide, by decide, rfl,
    ((checked_endorsement_requires_membership exKeeper (exCtxItem exTokenEndorsers addrB 0)
      "TNFT" addrC "I1" exTokenEndorsers rfl).1 (by decide)).2⟩

/-- C30.  Metadata is length-bounded, the bound being checked before the
keeper runs: for every bound `maxMetadataLength` and every metadata string
longer than it, the token metadata update and the item metadata update are
rejected with `MetadataTooLong` and the context stays as it was, so the
stored metadata is unchanged, whatever the other preconditions.  A string
within the bound is handed to the keeper's `UpdateNFTMetadata` or
`UpdateItemMetadata`, whose result is the outcome. -/
theorem checked_metadata_length_bound (k : Keeper) (maxMetadataLength : Nat) (ctx : Context)
    (symbol : String) (from_ : AccAddress) (itemID metadata : String) :
    (maxMetadataLength < metadata.length →
      k.CheckedUpdateNFTMetadata maxMetadataLength ctx symbol from_ metadata
        = (TxOutcome.rejected CheckError.MetadataTooLong, ctx) ∧
      (k.CheckedUpdateNFTMetadata maxMetadataLength ctx symbol from_ metadata).1.IsOK
        = false ∧
      (k.CheckedUpdateNFTMetadata maxMetadataLength ctx symbol from_ metadata).2.store.token
        = ctx.store.token ∧
      k.CheckedUpdateItemMetadata maxMetadataLength ctx symbol from_ itemID metadata
        = (TxOutcome.rejected CheckError.MetadataTooLong, ctx) ∧
      (k.CheckedUpdateItemMetadata maxMetadataLength ctx symbol from_ itemID metadata).1.IsOK
        = false ∧
      (k.CheckedUpdateItemMetadata maxMetadataLength ctx symbol from_ itemID
        metadata).2.store.item = ctx.store.item) ∧
    (metadata.length ≤ maxMetadataLength →
      k.CheckedUpdateNFTMetadata maxMetadataLength ctx symbol from_ metadata
        = (TxOutcome.handled (k.UpdateNFTMetadata ctx symbol from_ metadata).1,
            (k.UpdateNFTMetadata ctx symbol from_ metadata).2) ∧
      k.CheckedUpdateItemMetadata maxMetadataLength ctx symbol from_ itemID metadata
        = (TxOutcome.handled (k.UpdateItemMetadata ctx symbol from_ itemID metadata).1,
            (k.UpdateItemMetadata ctx symbol from_ itemID metadata).2)) := by
  refine ⟨?_, ?_⟩
  · intro hlong
    have htoken : k.CheckedUpdateNFTMetadata maxMetadataLength ctx symbol from_ metadata
        = (TxOutcome.rejected CheckError.MetadataTooLong, ctx) := by
      unfold Keeper.CheckedUpdateNFTMetadata
      simp [hlong]
    have hitem : k.CheckedUpdateItemMetadata maxMetadataLength ctx symbol from_ itemID metadata
        = (TxOutcome.rejected CheckError.MetadataTooLong, ctx) := by
      unfold Keeper.CheckedUpdateItemMetadata
      simp [hlong]
    refine ⟨htoken, ?_, ?_, hitem, ?_, ?_⟩
    · rw [htoken]; rfl
    · rw [htoken]
    · rw [hitem]; rfl
    · rw [hitem]
  · intro hshort
    have hnot : ¬ maxMetadataLength < metadata.length := Nat.not_lt.mpr hshort
    refine ⟨?_, ?_⟩
    · unfold Keeper.CheckedUpdateNFTMetadata
      simp [hnot]
    · unfold Keeper.CheckedUpdateItemMetadata
      simp [hnot]

/-- Witness of C30: under the bound 3 the seven-letter metadata `changed` is
rejected for the owner of the approved example token and for the owner of the
Item `I1`, and the stored metadata stay. -/
theorem checked_metadata_length_bound_witness :
    (exKeeper.CheckedUpdateNFTMetadata 3 (exCtxItem (exToken ApprovedFlag 2 2) addrA 0)
      "TNFT" addrA "changed").1.IsOK = false ∧
    (exKeeper.CheckedUpdateNFTMetadata 3 (exCtxItem (exToken ApprovedFlag 2 2) addrA 0)
      "TNFT" addrA "changed").2.store.token
      = (exCtxItem (exToken ApprovedFlag 2 2) addrA 0).store.token ∧
    (exKeeper.CheckedUpdateItemMetadata 3 (exCtxItem (exToken ApprovedFlag 2 2) addrA 0)
      "TNFT" addrA "I1" "changed").1.IsOK = false :=
  ⟨((checked_metadata_length_bound exKeeper 3 (exCtxItem (exToken ApprovedFlag 2 2) addrA 0)
      "TNFT" addrA "I1" "changed").1 (by decide)).2.1,
    ((checked_metadata_length_bound exKeeper 3 (exCtxItem (exToken ApprovedFlag 2 2) addrA 0)
      "TNFT" addrA "I1" "changed").1 (by decide)).2.2.1,
    ((checked_metadata_length_bound exKeeper 3 (exCtxItem (exToken ApprovedFlag 2 2) addrA 0)
      "TNFT" addrA "I1" "changed").1 (by decide)).2.2.2.2.1⟩

end Nonfungible
